import Mathlib

/-!
# kevlar-server: contact protocol and messages of the chat module

A shallow embedding of `module/attr/attr.go` (per-user attribute documents),
`module/chat/users.go` (`CreateUser`, `GetInformation`, `DeleteUser`),
`module/chat/request.go` (`Request`, `Cancel`, `Decide`) and
`module/chat/chat.go` (`StoreMessage`, `MarkRead`, `LoadMessages`), with the
database as an explicit value that every operation receives and returns, and
of the connection registry of `http/websocket.go` and `http/handle.go`
(`WriteMessage`, `IsOnline`, `WebSocketHandler`, `ConnectionHandle`), with the
map of sockets and the contents of their channels as an explicit value.

Every operation returns the Go `error` (`none` for `nil`) together with the
database it leaves behind, so that writes made before a late failure stay
visible.
-/

namespace Chat

/-- The Go `error` values that the modelled code can return. The first six are
the sentinels of `package chat`, `ErrKeyDoesNotExist` is the one of
`package attr`; `ErrNoDocuments` is the driver error of a `FindOne` that
matches nothing and `ErrDecode` a gob type mismatch while decoding. -/
inductive Err where
  | ErrUserDoesNotExist
  | ErrRequestSent
  | ErrSelfRequest
  | ErrRequestNotSent
  | ErrContactDoesNotExist
  | ErrMessageBlank
  | ErrKeyDoesNotExist
  | ErrNoDocuments
  | ErrDecode
  deriving DecidableEq, Repr

/-- The struct `chat.User`. -/
structure User where
  UserID : String
  Username : String
  Message : String
  Store : String
  deriving DecidableEq, Repr

/-- The struct `chat.Message`; `Type_` is its field `Type` and `Time` is a clock reading. -/
structure Message where
  ID : String
  From : String
  Type_ : String
  Data : String
  Read : Bool
  Time : Int
  deriving DecidableEq, Repr

/-- A gob-encoded attribute value, tagged with the Go type that was encoded. -/
inductive Value where
  | users (list : List User)
  | str (s : String)
  | int (n : Int)
  | bool (b : Bool)
  deriving DecidableEq, Repr

def ContactList : String := "chat_contact_list"
def IncomingList : String := "chat_incoming_list"
def OutgoingList : String := "chat_outgoing_list"
def LastSeen : String := "last_seen"
def About : String := "about"

/-- The collections the chat module works on: `Users.Accounts` (userID to
username), `Users.Attributes` (userID to the `attributes` map of its document)
and the message collections of database `Chat`, one per store name. -/
structure DB where
  accounts : String → Option String
  attributes : String → Option (String → Option Value)
  chat : String → List Message

/-- The lookup half of `attr.GetAttribute`: find the document of `userID`, then
the entry `key` of its attribute map. -/
def GetAttribute (db : DB) (userID key : String) : Except Err Value :=
  match db.attributes userID with
  | none => .error .ErrNoDocuments
  | some doc =>
    match doc key with
    | none => .error .ErrKeyDoesNotExist
    | some data => .ok data

/-- The call `GetAttribute(userID, key, &list)` with `list` of type `[]User`:
the lookup followed by the gob decoding into a slice of users. -/
def GetUsers (db : DB) (userID key : String) : Except Err (List User) :=
  match GetAttribute db userID key with
  | .error e => .error e
  | .ok (.users list) => .ok list
  | .ok _ => .error .ErrDecode

/-- The call `GetAttribute(userID, key, &s)` with `s` of type `string`. -/
def GetString (db : DB) (userID key : String) : Except Err String :=
  match GetAttribute db userID key with
  | .error e => .error e
  | .ok (.str s) => .ok s
  | .ok _ => .error .ErrDecode

/-- The function `attr.SetAttribute`: read the document of `userID`, set entry
`key` of its attribute map, replace the document. -/
def SetAttribute (db : DB) (userID key : String) (value : Value) : Option Err × DB :=
  match db.attributes userID with
  | none => (some .ErrNoDocuments, db)
  | some doc =>
    (none, { db with
      attributes := fun u =>
        if u = userID then some (fun k => if k = key then some value else doc k)
        else db.attributes u })

/-- The function `attr.CreateUser`: insert a document with an empty attribute
map, then set `disabled` to false. -/
def AttrCreateUser (db : DB) (userID : String) : Option Err × DB :=
  SetAttribute
    { db with attributes := fun u => if u = userID then some (fun _ => none) else db.attributes u }
    userID "disabled" (.bool false)

/-- The function `chat.CreateUser`; `now` is the reading of `time.Now().Unix()`. -/
def CreateUser (db : DB) (userID : String) (now : Int) : Option Err × DB :=
  match SetAttribute db userID ContactList (.users []) with
  | (some e, db1) => (some e, db1)
  | (none, db1) =>
    match SetAttribute db1 userID IncomingList (.users []) with
    | (some e, db2) => (some e, db2)
    | (none, db2) =>
      match SetAttribute db2 userID OutgoingList (.users []) with
      | (some e, db3) => (some e, db3)
      | (none, db3) =>
        match SetAttribute db3 userID About (.str "Hello! I am a new user on kevlar!") with
        | (some e, db4) => (some e, db4)
        | (none, db4) => SetAttribute db4 userID LastSeen (.int now)

/-- The function `chat.GetInformation`: the username from `Users.Accounts` and
the about text from the attributes; `Store` keeps its zero value. -/
def GetInformation (db : DB) (userID : String) : Except Err User :=
  match db.accounts userID with
  | none => .error .ErrNoDocuments
  | some username =>
    match GetString db userID About with
    | .error e => .error e
    | .ok about => .ok { UserID := userID, Username := username, Message := about, Store := "" }

/-- The loop of `Request` over `outgoing`: is there an entry whose `UserID` is `to_`. -/
def hasUser (list : List User) (userID : String) : Bool :=
  list.any (fun user => user.UserID == userID)

/-- The function `chat.Request`. -/
def Request (db : DB) (from_ to_ : String) : Option Err × DB :=
  match GetUsers db from_ OutgoingList with
  | .error e => (some e, db)
  | .ok outgoing =>
    if hasUser outgoing to_ then (some .ErrRequestSent, db)
    else
      match GetUsers db to_ IncomingList with
      | .error e => (some e, db)
      | .ok incoming =>
        match GetInformation db from_ with
        | .error e => (some e, db)
        | .ok from_user =>
          match GetInformation db to_ with
          | .error e => (some e, db)
          | .ok to_user =>
            match SetAttribute db to_ IncomingList (.users (incoming ++ [from_user])) with
            | (some e, db1) => (some e, db1)
            | (none, db1) =>
              match SetAttribute db1 from_ OutgoingList (.users (outgoing ++ [to_user])) with
              | (some e, db2) => (some e, db2)
              | (none, db2) => (none, db2)

/-- The two search loops of `Cancel`: walk `list`, at the first entry whose
`UserID` is `userID` cut it out, set `found` and stop. The flag is the
variable `found` of `Cancel`, so the loop starts from its current value and
hands back the value it leaves. -/
def removeUser : List User → String → Bool → List User × Bool
  | [], _, found => ([], found)
  | value :: rest, userID, found =>
    if value.UserID = userID then (rest, true)
    else ((removeUser rest userID found).1.cons value, (removeUser rest userID found).2)

/-- The function `chat.Cancel`. The variable `found` is declared once, before
the first loop, and is not assigned between the two loops. -/
def Cancel (db : DB) (from_ to_ : String) : Option Err × DB :=
  match GetUsers db from_ OutgoingList with
  | .error e => (some e, db)
  | .ok outgoing =>
    match GetUsers db to_ IncomingList with
    | .error e => (some e, db)
    | .ok incoming =>
      let found := false
      let (outgoing, found) := removeUser outgoing to_ found
      if !found then (some .ErrRequestNotSent, db)
      else
        let (incoming, found) := removeUser incoming from_ found
        if !found then (some .ErrRequestNotSent, db)
        else
          match SetAttribute db to_ IncomingList (.users incoming) with
          | (some e, db1) => (some e, db1)
          | (none, db1) => SetAttribute db1 from_ OutgoingList (.users outgoing)

/-- The function `chat.Decide`; `store` is the string that `uuid.New().String()`
returns in this call. -/
def Decide (db : DB) (from_ to_ : String) (decide : Bool) (store : String) : Option Err × DB :=
  match Cancel db to_ from_ with
  | (some e, db1) => (some e, db1)
  | (none, db1) =>
    if decide then
      match GetUsers db1 from_ ContactList with
      | .error e => (some e, db1)
      | .ok from_contacts =>
        match GetInformation db1 to_ with
        | .error e => (some e, db1)
        | .ok to_user =>
          match SetAttribute db1 from_ ContactList
              (.users (from_contacts ++ [{ to_user with Store := store }])) with
          | (some e, db2) => (some e, db2)
          | (none, db2) =>
            match GetUsers db2 to_ ContactList with
            | .error e => (some e, db2)
            | .ok to_contacts =>
              match GetInformation db2 from_ with
              | .error e => (some e, db2)
              | .ok from_user =>
                match SetAttribute db2 to_ ContactList
                    (.users (to_contacts ++ [{ from_user with Store := store }])) with
                | (some e, db3) => (some e, db3)
                | (none, db3) => (none, db3)
    else (none, db1)

/-! ## Messages: `module/chat/chat.go` -/

/-- The constant `MaxResults`. -/
def MaxResults : Int := 49

/-- The Go predicate `unicode.IsSpace`, on the code point of a character. -/
def isSpace (c : Char) : Bool :=
  let n := c.toNat
  (9 ≤ n && n ≤ 13) || n == 32 || n == 133 || n == 160 || n == 5760 ||
    (8192 ≤ n && n ≤ 8202) || n == 8232 || n == 8233 || n == 8239 || n == 8287 || n == 12288

/-- The Go function `strings.TrimSpace`: cut the leading and the trailing white space. -/
def TrimSpace (s : String) : String :=
  String.mk ((s.data.dropWhile isSpace).reverse.dropWhile isSpace).reverse

/-- The first and second loop of `StoreMessage` over a Contacts list: every
entry whose `UserID` is `userID` gets the preview `subline`, `store` takes the
`Store` of that entry and `found` is set; the loop runs to the end of the list.
`store` and `found` are the variables of `StoreMessage`, passed in with their
current values and handed back (the second loop does not assign `store`, its
value there is not used). -/
def markContacts : List User → String → String → String → Bool → List User × String × Bool
  | [], _, _, store, found => ([], store, found)
  | value :: rest, userID, subline, store, found =>
    if value.UserID = userID then
      ((markContacts rest userID subline value.Store true).1.cons { value with Message := subline },
        (markContacts rest userID subline value.Store true).2)
    else
      ((markContacts rest userID subline store found).1.cons value,
        (markContacts rest userID subline store found).2)

/-- The call `collection.InsertOne` on the message collection `store`: the
document is added at the end of the collection. -/
def InsertOne (db : DB) (store : String) (message : Message) : Option Err × DB :=
  (none, { db with chat := fun s => if s = store then db.chat s ++ [message] else db.chat s })

/-- The function `chat.StoreMessage`; `id` is the string that `uuid.New().String()`
returns in this call and `now` the reading of `time.Now()`. -/
def StoreMessage (db : DB) (message_type message_data from_ to_ : String) (online : Bool)
    (id : String) (now : Int) : Option Err × DB :=
  match GetInformation db from_ with
  | .error e => (some e, db)
  | .ok from_user =>
    match GetUsers db from_ ContactList with
    | .error e => (some e, db)
    | .ok from_contacts =>
      match GetUsers db to_ ContactList with
      | .error e => (some e, db)
      | .ok to_contacts =>
        let subline := from_user.Username ++ ": " ++ message_data
        let (from_contacts, store, found) := markContacts from_contacts to_ subline "" false
        if !found then (some .ErrContactDoesNotExist, db)
        else
          let found := false
          let (to_contacts, _, found) := markContacts to_contacts from_ subline "" found
          if !found then (some .ErrContactDoesNotExist, db)
          else
            match SetAttribute db from_ ContactList (.users from_contacts) with
            | (some e, db1) => (some e, db1)
            | (none, db1) =>
              match SetAttribute db1 to_ ContactList (.users to_contacts) with
              | (some e, db2) => (some e, db2)
              | (none, db2) =>
                if TrimSpace message_data = "" then (some .ErrMessageBlank, db2)
                else
                  InsertOne db2 store
                    { ID := id, From := from_, Type_ := message_type, Data := message_data,
                      Read := online, Time := now }

/-- The search loop of `MarkRead` and `LoadMessages` over `contacts`: `contact`
takes every entry whose `UserID` is `userID` in turn, so it ends as the last
one, and `found` is set. -/
def findContact : List User → String → User → Bool → User × Bool
  | [], _, contact, found => (contact, found)
  | value :: rest, userID, contact, found =>
    if value.UserID = userID then findContact rest userID value true
    else findContact rest userID contact found

/-- Put `message` in front of the first document of a list sorted by `time`
descending that is not newer than it. -/
def insertNewest (message : Message) : List Message → List Message
  | [] => [message]
  | other :: rest =>
    if other.Time ≤ message.Time then message :: other :: rest
    else other :: insertNewest message rest

/-- Sort by `time` descending; documents with the same time stay in the order
of the collection. -/
def sortNewest : List Message → List Message
  | [] => []
  | message :: rest => insertNewest message (sortNewest rest)

/-- The call `collection.Find` with the empty filter and the sort option
`time: -1` on the message collection `store`: the documents the cursor yields,
in order. -/
def Find (db : DB) (store : String) : List Message :=
  sortNewest (db.chat store)

/-- Replace the first document of a collection whose `id` is `id`. -/
def replaceFirst : List Message → String → Message → List Message
  | [], _, _ => []
  | other :: rest, id, message =>
    if other.ID = id then message :: rest else other :: replaceFirst rest id message

/-- The call `collection.FindOneAndReplace` with the filter `id: id` on the
message collection `store`; it reports `ErrNoDocuments` when no document has
that `id`. -/
def FindOneAndReplace (db : DB) (store id : String) (message : Message) : Option Err × DB :=
  if (db.chat store).any (fun other => other.ID == id) then
    (none, { db with
      chat := fun s => if s = store then replaceFirst (db.chat s) id message else db.chat s })
  else (some .ErrNoDocuments, db)

/-- The cursor loop of `MarkRead` over the documents still to come. -/
def markLoop (db : DB) (store to_ : String) : List Message → Option Err × DB
  | [] => (none, db)
  | message :: rest =>
    if message.From = to_ then
      if message.Read then (none, db)
      else
        match FindOneAndReplace db store message.ID { message with Read := true } with
        | (some e, db1) => (some e, db1)
        | (none, db1) => markLoop db1 store to_ rest
    else
      match FindOneAndReplace db store message.ID message with
      | (some e, db1) => (some e, db1)
      | (none, db1) => markLoop db1 store to_ rest

/-- The function `chat.MarkRead`. -/
def MarkRead (db : DB) (from_ to_ : String) : Option Err × DB :=
  match GetUsers db from_ ContactList with
  | .error e => (some e, db)
  | .ok contacts =>
    let (contact, found) :=
      findContact contacts to_ { UserID := "", Username := "", Message := "", Store := "" } false
    if !found then (some .ErrContactDoesNotExist, db)
    else markLoop db contact.Store to_ (Find db contact.Store)

/-- Two's complement wrap-around of the Go type `int` (64 bits). -/
def wrapInt (x : Int) : Int :=
  (x + 2 ^ 63) % 2 ^ 64 - 2 ^ 63

/-- The cursor loop of `LoadMessages`: `cursor.Next` comes first in the loop
condition, then the test `i <= since+MaxResults`; each round appends the
document to `messages` and increments `i`. -/
def loadLoop : List Message → Int → Int → List Message → List Message
  | [], _, _, messages => messages
  | message :: rest, i, since, messages =>
    if i ≤ wrapInt (since + MaxResults) then
      loadLoop rest (wrapInt (i + 1)) since (messages ++ [message])
    else messages

/-- What a call of `LoadMessages` comes to: the returned slice with a nil
error, a returned error, or the run-time panic of a slice expression whose
bounds are out of range. -/
inductive Loaded where
  | messages (list : List Message)
  | failed (err : Err)
  | panicked
  deriving DecidableEq, Repr

/-- The function `chat.LoadMessages`. The slice expression `messages[since:]`
panics unless `0 <= since <= len(messages)`. -/
def LoadMessages (db : DB) (from_ to_ : String) (since : Int) : Loaded × DB :=
  match GetUsers db from_ ContactList with
  | .error e => (.failed e, db)
  | .ok contacts =>
    let (contact, found) :=
      findContact contacts to_ { UserID := "", Username := "", Message := "", Store := "" } false
    if !found then (.failed .ErrContactDoesNotExist, db)
    else
      match MarkRead db from_ to_ with
      | (some e, db1) => (.failed e, db1)
      | (none, db1) =>
        let messages := loadLoop (Find db1 contact.Store) 0 since []
        if 0 ≤ since ∧ since ≤ messages.length then (.messages (messages.drop since.toNat), db1)
        else (.panicked, db1)

/-- The function `IsOnline` of `http/websocket.go`: is there an entry for
`userID` in the map `socket`. -/
def IsOnline {σ : Type} (socket : String → Option σ) (userID : String) : Bool :=
  (socket userID).isSome

/-- The storing step of the handler `Message` of `http/chat.go`: `online` is
read off the map `socket` and handed to `StoreMessage`. -/
def MessageHandler {σ : Type} (socket : String → Option σ) (db : DB)
    (message_type message_data userID toUserID id : String) (now : Int) : Option Err × DB :=
  let online := (socket toUserID).isSome
  StoreMessage db message_type message_data userID toUserID online id now

/-! ## Account deletion: `module/chat/users.go` -/

/-- The loop of the closure `remove_user` of `DeleteUser` over the list of
`userID`: for every entry, read the list that the entry's user stores under
the same `key`, cut out its first entry for `userID` and write it back. -/
def removeLoop (db : DB) (userID key : String) : List User → Option Err × DB
  | [] => (none, db)
  | value :: rest =>
    match GetUsers db value.UserID key with
    | .error e => (some e, db)
    | .ok list =>
      match SetAttribute db value.UserID key (.users (removeUser list userID false).1) with
      | (some e, db1) => (some e, db1)
      | (none, db1) => removeLoop db1 userID key rest

/-- The closure `remove_user` of `DeleteUser`. -/
def remove_user (db : DB) (userID key : String) : Option Err × DB :=
  match GetUsers db userID key with
  | .error e => (some e, db)
  | .ok list => removeLoop db userID key list

/-- The call `collection.Drop` on the message collection `store`. -/
def Drop (db : DB) (store : String) : Option Err × DB :=
  (none, { db with chat := fun s => if s = store then [] else db.chat s })

/-- The loop of `DeleteUser` that drops the message collection of every contact. -/
def dropLoop (db : DB) : List User → Option Err × DB
  | [] => (none, db)
  | value :: rest =>
    match Drop db value.Store with
    | (some e, db1) => (some e, db1)
    | (none, db1) => dropLoop db1 rest

/-- The function `chat.DeleteUser`. -/
def DeleteUser (db : DB) (userID : String) : Option Err × DB :=
  match remove_user db userID ContactList with
  | (some e, db1) => (some e, db1)
  | (none, db1) =>
    match GetUsers db1 userID ContactList with
    | .error e => (some e, db1)
    | .ok contacts =>
      match dropLoop db1 contacts with
      | (some e, db2) => (some e, db2)
      | (none, db2) =>
        match remove_user db2 userID OutgoingList with
        | (some e, db3) => (some e, db3)
        | (none, db3) => remove_user db3 userID IncomingList

/-! ## The connection registry: `http/websocket.go` and `http/handle.go` -/

/-- The two errors of `package http` declared next to the registry. -/
inductive HttpErr where
  | ErrChannelClosed
  | ErrSocketDoesNotExist
  deriving DecidableEq, Repr

/-- The struct `Socket`. Each of its three channels is made with room for ten
values and is represented by the values it holds, oldest first; `Wait` is the
counter of the `sync.WaitGroup`. An event or a packet is represented by its
JSON text. -/
structure Socket where
  Wait : Nat
  Send : List String
  Recieve : List String
  Close : List Bool
  deriving DecidableEq, Repr

/-- The buffer size in `make(chan interface{}, 10)`. -/
def ChannelSize : Nat := 10

/-- The field `socket map[string]*Socket` of `Server` together with the
structs its pointers lead to: `socket` maps a userID to a pointer, `heap` a
pointer to the `Socket` found there. -/
structure Hub where
  socket : String → Option Nat
  heap : Nat → Socket

/-- How a call that sends on a channel ends: it returns, with its error, or it
stays in the send because the channel is full. -/
inductive Sent where
  | returned (err : Option HttpErr)
  | blocked
  deriving DecidableEq, Repr

/-- The statement `sender.Send <- data` on a channel with room: `data` joins
the values held by the `Send` channel of the struct at `sender`. -/
def pushSend (hub : Hub) (sender : Nat) (data : String) : Hub :=
  { hub with
    heap := fun p =>
      if p = sender then { hub.heap p with Send := (hub.heap p).Send ++ [data] }
      else hub.heap p }

/-- The function `WriteMessage` of `http/websocket.go`. -/
def WriteMessage (hub : Hub) (userID data : String) : Sent × Hub :=
  match hub.socket userID with
  | none => (.returned (some .ErrChannelClosed), hub)
  | some sender =>
    if (hub.heap sender).Send.length < ChannelSize then (.returned none, pushSend hub sender data)
    else (.blocked, hub)

/-- The function returned by `WebSocketHandler`, from the upgrade to the
connected event, on the map `socket` alone. `pointer` is the address of the new
`Socket`; `upgradeErr` and `connectedErr` say whether `upgrader.Upgrade` and
`WebSocketConnected` return an error. The first component tells whether the
function goes on to its reader and sender loops (`true`) or has returned. -/
def WebSocketHandlerOpen (socket : String → Option Nat) (userID : String) (pointer : Nat)
    (upgradeErr connectedErr : Bool) : Bool × (String → Option Nat) :=
  if upgradeErr then (false, socket)
  else
    let socket1 := fun u => if u = userID then some pointer else socket u
    if connectedErr then (false, socket1)
    else (true, socket1)

/-- The function returned by `WebSocketHandler`, from the end of the sender
loop to its return, on the map `socket` alone. `closeErr` and
`disconnectedErr` say whether `conn.Close` and `WebSocketDisconnected` return
an error; the `defer` statement is the last one of the function, and the
function it registers runs `delete(main.socket, userID)`. -/
def WebSocketHandlerClose (socket : String → Option Nat) (userID : String)
    (closeErr disconnectedErr : Bool) : String → Option Nat :=
  if closeErr then socket
  else if disconnectedErr then socket
  else fun u => if u = userID then none else socket u

/-- One run of the function returned by `WebSocketHandler` for an
authenticated `userID`, on the map `socket` alone, with no other run writing
the map in between. -/
def WebSocketHandler (socket : String → Option Nat) (userID : String) (pointer : Nat)
    (upgradeErr connectedErr closeErr disconnectedErr : Bool) : String → Option Nat :=
  match WebSocketHandlerOpen socket userID pointer upgradeErr connectedErr with
  | (false, socket1) => socket1
  | (true, socket1) => WebSocketHandlerClose socket1 userID closeErr disconnectedErr

/-- The struct `IncomingMessage`. -/
structure IncomingMessage where
  Head : String
  Data : String
  deriving DecidableEq, Repr

/-- What a handler returns: `response` (`none` for `nil`), `err` (`none` for
`nil`, else the text of the error), and the registry state it leaves, since
the handlers are closures over the server. -/
structure Returned where
  response : Option String
  err : Option String
  hub : Hub

/-- The type `SocketHandler`, called with `userID` and `data`. -/
def SocketHandler : Type := Hub → String → String → Returned

/-- One call of a handler: the key it is registered under and its two
arguments. -/
structure Invocation where
  head : String
  userID : String
  data : String
  deriving DecidableEq, Repr

/-- The registry state during a run of `ConnectionHandle`, and the handler
calls the run has made, oldest first. -/
structure Handling where
  hub : Hub
  calls : List Invocation

/-- Where a run of `ConnectionHandle` stands: at the receive on
`socket.Recieve` for the next packet, returned, or in the send on a full
`socket.Send`. -/
inductive Handled where
  | receiving
  | returned
  | blocked
  deriving DecidableEq, Repr

/-- The loop `for head, handler := range Methods` of `ConnectionHandle`;
`methods` lists the entries of the map in the order the loop meets them. -/
def rangeMethods (socket : Nat) (userID : String) (packet : IncomingMessage) (st : Handling) :
    List (String × SocketHandler) → Handled × Handling
  | [] => (.receiving, st)
  | (head, handler) :: rest =>
    if head = packet.Head then
      let r := handler st.hub userID packet.Data
      let calls := st.calls ++ [{ head := head, userID := userID, data := packet.Data }]
      match r.response with
      | none => (.receiving, { hub := r.hub, calls := calls })
      | some response =>
        if (r.hub.heap socket).Send.length < ChannelSize then
          (.receiving, { hub := pushSend r.hub socket response, calls := calls })
        else (.blocked, { hub := r.hub, calls := calls })
    else rangeMethods socket userID packet st rest

/-- The function `ConnectionHandle` of `http/handle.go` on the packets that
`socket.Recieve` hands it, in order; `socket` is the pointer it is called
with and `unmarshal` is `json.Unmarshal` into an `IncomingMessage` (`none` for
an error). -/
def ConnectionHandle (methods : List (String × SocketHandler))
    (unmarshal : String → Option IncomingMessage) (socket : Nat) (userID : String) :
    Handling → List String → Handled × Handling
  | st, [] => (.receiving, st)
  | st, data :: rest =>
    match unmarshal data with
    | none => (.returned, st)
    | some packet =>
      match rangeMethods socket userID packet st methods with
      | (.receiving, st1) => ConnectionHandle methods unmarshal socket userID st1 rest
      | (handled, st1) => (handled, st1)

/-! ## Reading a state and running sequences of calls -/

/-- The list stored for `userID` under `key`, empty when it cannot be read. -/
def users (db : DB) (userID key : String) : List User :=
  match GetUsers db userID key with
  | .ok list => list
  | .error _ => []

/-- Does the identity `other` occur in the list that `userID` stores under `key`. -/
def occurs (db : DB) (userID key other : String) : Bool :=
  hasUser (users db userID key) other

/-- How many entries of the list of `userID` under `key` carry the identity `other`. -/
def cnt (db : DB) (userID key other : String) : Nat :=
  (users db userID key).countP (fun user => user.UserID == other)

/-- The errors that come from the store itself (a missing document or key, a
value of another type), as opposed to the outcomes the protocol decides. -/
def storeFailure : Option Err → Bool
  | some .ErrNoDocuments => true
  | some .ErrKeyDoesNotExist => true
  | some .ErrDecode => true
  | _ => false

/-- One call of the contact protocol. -/
inductive Call where
  | request (from_ to_ : String)
  | cancel (from_ to_ : String)
  | decide (from_ to_ : String) (accept : Bool) (store : String)
  deriving DecidableEq, Repr

/-- Run one call. -/
def Call.run (db : DB) : Call → Option Err × DB
  | .request from_ to_ => Request db from_ to_
  | .cancel from_ to_ => Cancel db from_ to_
  | .decide from_ to_ accept store => Decide db from_ to_ accept store

/-- Run a sequence of calls in order; `none` as soon as a call meets a store
failure. Calls that the protocol itself rejects are part of the sequence. -/
def runAll (db : DB) : List Call → Option DB
  | [] => some db
  | call :: rest =>
    if storeFailure (call.run db).1 then none else runAll (call.run db).2 rest

/-- Every Contacts, Incoming and Outgoing list that can be read is empty. -/
def AllEmpty (db : DB) : Prop :=
  ∀ userID key, key = ContactList ∨ key = IncomingList ∨ key = OutgoingList →
    users db userID key = []

/-- The condition under which a caller issues a call in a disciplined run: a
request goes to another user who is in none of the sender's three lists. -/
def disciplined (db : DB) : Call → Bool
  | .request from_ to_ =>
    from_ != to_ && !occurs db from_ ContactList to_ && !occurs db from_ OutgoingList to_
      && !occurs db from_ IncomingList to_
  | _ => true

/-- Run a sequence of calls like `runAll`, and also stop with `none` at a
request that is not `disciplined`. -/
def runDisciplined (db : DB) : List Call → Option DB
  | [] => some db
  | call :: rest =>
    if disciplined db call && !storeFailure (call.run db).1 then
      runDisciplined (call.run db).2 rest
    else none

/-- Relationship symmetry, with multiplicity: `b` has as many entries in the
outgoing list of `a` as `a` has in the incoming list of `b`, and as many in
the Contacts list of `a` as `a` has in the Contacts list of `b`. -/
def Symmetric (db : DB) : Prop :=
  ∀ a b, cnt db a OutgoingList b = cnt db b IncomingList a ∧
    cnt db a ContactList b = cnt db b ContactList a

/-- List exclusivity, with multiplicity: over the three lists of `a` together
there is at most one entry for `b`. -/
def Exclusive (db : DB) : Prop :=
  ∀ a b, cnt db a OutgoingList b + cnt db a IncomingList b + cnt db a ContactList b ≤ 1

/-- A Contacts list in which every entry for `userID` has the preview `subline`
and every other entry is as in `list`. -/
def setPreview (list : List User) (userID subline : String) : List User :=
  list.map (fun value => if value.UserID = userID then { value with Message := subline } else value)

/-- The `Store` of the entry for `userID` in a Contacts list, of the last such
entry should there be several; the empty string when there is none. -/
def storeOf (list : List User) (userID : String) : String :=
  (findContact list userID { UserID := "", Username := "", Message := "", Store := "" } false).1.Store

/-- A payload that is empty or consists of white space only. -/
def isBlank (s : String) : Bool :=
  s.data.all isSpace

/-- The documents that the cursor loop of `MarkRead` passes before it stops:
the longest front part of `cursor` without a message of `to_` that is read. -/
def scanned (to_ : String) (cursor : List Message) : List Message :=
  cursor.takeWhile (fun message => !(message.From == to_ && message.Read))

/-- A message with its `Read` flag set when `to_` is the author, as it is otherwise. -/
def marked (to_ : String) (message : Message) : Message :=
  if message.From = to_ then { message with Read := true } else message

/-- The documents of a collection have pairwise different `id`s. -/
def UniqueIDs (collection : List Message) : Prop :=
  (collection.map (fun message => message.ID)).Nodup

/-- The state `db2` has, for every user, the Contacts list of `db` with entries
added at the end. -/
def Extends (db db2 : DB) : Prop :=
  ∀ userID, ∃ added, users db2 userID ContactList = users db userID ContactList ++ added

/-! ## Example states -/

/-- Two accounts, alice and bob, and no attribute document yet. -/
def seedDB : DB :=
  { accounts := fun u => if u = "alice" then some "Alice" else if u = "bob" then some "Bob" else none
    attributes := fun _ => none
    chat := fun _ => [] }

/-- The state after both users have been registered: `attr.CreateUser` and
`chat.CreateUser` for alice, then for bob. -/
def freshDB : DB :=
  (CreateUser (AttrCreateUser (CreateUser (AttrCreateUser seedDB "alice").2 "alice" 0).2 "bob").2
    "bob" 0).2

/-- The public info of bob as `GetInformation` returns it in `freshDB`. -/
def bobInfo : User :=
  { UserID := "bob", Username := "Bob", Message := "Hello! I am a new user on kevlar!", Store := "" }

/-- The public info of alice as `GetInformation` returns it in `freshDB`. -/
def aliceInfo : User :=
  { UserID := "alice", Username := "Alice", Message := "Hello! I am a new user on kevlar!",
    Store := "" }

/-- A state in which alice lists bob as outgoing while bob has no incoming
entry for alice. -/
def skewDB : DB :=
  (SetAttribute freshDB "alice" OutgoingList (.users [bobInfo])).2

/-- A state in which carol has a pending request to herself. -/
def selfDB : DB :=
  (Request (CreateUser (AttrCreateUser
    { seedDB with accounts := fun u => if u = "carol" then some "Carol" else none } "carol").2
    "carol" 0).2 "carol" "carol").2

/-- A run from `freshDB`: alice requests bob, asks again, bob requests alice,
bob accepts alice, alice cancels. -/
def sampleRun : List Call :=
  [.request "alice" "bob", .request "alice" "bob", .request "bob" "alice",
    .decide "bob" "alice" true "s1", .cancel "alice" "bob"]

/-- The state that `sampleRun` leaves. -/
def sampleDB : DB :=
  (Cancel (Decide (Request (Request (Request freshDB "alice" "bob").2 "alice" "bob").2
    "bob" "alice").2 "bob" "alice" true "s1").2 "alice" "bob").2

/-- A disciplined run from `freshDB`: alice requests bob, bob accepts. -/
def acceptRun : List Call :=
  [.request "alice" "bob", .decide "bob" "alice" true "s1"]

/-- The state that `acceptRun` leaves. -/
def acceptedDB : DB :=
  (Decide (Request freshDB "alice" "bob").2 "bob" "alice" true "s1").2

/-- The state after alice has sent bob the message `hi` while bob was online. -/
def chattedDB : DB :=
  (StoreMessage acceptedDB "text" "hi" "alice" "bob" true "m1" 5).2

/-- The state after bob has sent alice a first message while she was offline
and a second one while she was online. -/
def mixedDB : DB :=
  (StoreMessage (StoreMessage acceptedDB "text" "one" "bob" "alice" false "m1" 1).2
    "text" "two" "bob" "alice" true "m2" 2).2

/-- The id of the `i`-th message of `fullDB`. -/
def msgID (i : Nat) : String :=
  String.join (List.replicate (i + 1) "m")

/-- The state after alice has sent bob fifty messages, at the times 0 to 49,
while bob was online. -/
def fullDB : DB :=
  (List.range 50).foldl
    (fun db i => (StoreMessage db "text" "hi" "alice" "bob" true (msgID i) i).2) acceptedDB

/-- The state after bob has sent alice a first message while she was online
and a second one while she was offline. -/
def unreadDB : DB :=
  (StoreMessage (StoreMessage acceptedDB "text" "one" "bob" "alice" true "m1" 1).2
    "text" "two" "bob" "alice" false "m2" 2).2

/-- The state after alice has sent bob a request. -/
def requestedDB : DB :=
  (Request freshDB "alice" "bob").2

/-- One account, carol, registered. -/
def carolDB : DB :=
  (CreateUser (AttrCreateUser
    { seedDB with accounts := fun u => if u = "carol" then some "Carol" else none } "carol").2
    "carol" 0).2

/-- A `Socket` as `WebSocketHandler` makes it, with nothing in its channels. -/
def newSocket : Socket :=
  { Wait := 0, Send := [], Recieve := [], Close := [] }

/-- No connection. -/
def emptyHub : Hub :=
  { socket := fun _ => none, heap := fun _ => newSocket }

/-- Alice is connected, her socket is at pointer 1 and bob has none. -/
def aliceHub : Hub :=
  { socket := fun u => if u = "alice" then some 1 else none, heap := fun _ => newSocket }

/-- Alice is connected and ten events wait in the `Send` channel of her
socket. -/
def fullHub : Hub :=
  { socket := fun u => if u = "alice" then some 1 else none
    heap := fun p =>
      if p = 1 then { newSocket with Send := List.replicate 10 "event" } else newSocket }

/-- A handler that answers with the data it is called with. -/
def echoHandler : SocketHandler :=
  fun hub _ data => { response := some data, err := none, hub := hub }

/-- A handler that answers nothing and returns an error. -/
def failingHandler : SocketHandler :=
  fun hub _ _ => { response := none, err := some "failed", hub := hub }

/-- The two handlers under the keys "echo" and "fail". -/
def sampleMethods : List (String × SocketHandler) :=
  [("echo", echoHandler), ("fail", failingHandler)]

/-- A decoder that knows three packets. -/
def sampleUnmarshal (data : String) : Option IncomingMessage :=
  if data = "echo hi" then some { Head := "echo", Data := "hi" }
  else if data = "fail now" then some { Head := "fail", Data := "now" }
  else if data = "other x" then some { Head := "other", Data := "x" }
  else none

/-! ## The attribute store -/

theorem SetAttribute_fst (db : DB) (u k : String) (v : Value) (doc : String → Option Value)
    (h : db.attributes u = some doc) : (SetAttribute db u k v).1 = none := by
  simp [SetAttribute, h]

theorem SetAttribute_accounts (db : DB) (u k : String) (v : Value) :
    (SetAttribute db u k v).2.accounts = db.accounts := by
  unfold SetAttribute; split <;> rfl

theorem SetAttribute_chat (db : DB) (u k : String) (v : Value) :
    (SetAttribute db u k v).2.chat = db.chat := by
  unfold SetAttribute; split <;> rfl

theorem GetAttribute_SetAttribute (db : DB) (u k : String) (v : Value)
    (doc : String → Option Value) (h : db.attributes u = some doc) (u2 k2 : String) :
    GetAttribute (SetAttribute db u k v).2 u2 k2 =
      if u2 = u ∧ k2 = k then .ok v else GetAttribute db u2 k2 := by
  simp only [SetAttribute, h, GetAttribute]
  by_cases hu : u2 = u
  · subst hu
    by_cases hk : k2 = k
    · simp [hk]
    · simp [hk, h]
  · simp [hu]

theorem GetAttribute_ok_doc {db : DB} {u k : String} {v : Value}
    (h : GetAttribute db u k = .ok v) : ∃ doc, db.attributes u = some doc := by
  unfold GetAttribute at h
  cases hd : db.attributes u with
  | none => simp [hd] at h
  | some doc => exact ⟨doc, rfl⟩

theorem GetUsers_ok_iff {db : DB} {u k : String} {l : List User} :
    GetUsers db u k = .ok l ↔ GetAttribute db u k = .ok (.users l) := by
  unfold GetUsers
  cases h : GetAttribute db u k with
  | error e => simp
  | ok v => cases v <;> simp

theorem GetString_ok_iff {db : DB} {u k : String} {s : String} :
    GetString db u k = .ok s ↔ GetAttribute db u k = .ok (.str s) := by
  unfold GetString
  cases h : GetAttribute db u k with
  | error e => simp
  | ok v => cases v <;> simp
theorem SetAttribute_eq (db : DB) (u k : String) (v : Value) (doc : String → Option Value)
    (h : db.attributes u = some doc) :
    SetAttribute db u k v = (none, (SetAttribute db u k v).2) := by
  simp [SetAttribute, h]

theorem SetAttribute_doc (db : DB) (u k : String) (v : Value) (u2 : String)
    (doc2 : String → Option Value) (h : db.attributes u2 = some doc2) :
    ∃ d, (SetAttribute db u k v).2.attributes u2 = some d := by
  unfold SetAttribute
  cases hd : db.attributes u with
  | none => exact ⟨doc2, by simpa using h⟩
  | some doc =>
    by_cases hu : u2 = u
    · exact ⟨fun k2 => if k2 = k then some v else doc k2, by simp [hu]⟩
    · exact ⟨doc2, by simp [hu, h]⟩

theorem GetInformation_eq {db : DB} {u name about : String}
    (ha : db.accounts u = some name) (hb : GetString db u About = .ok about) :
    GetInformation db u = .ok { UserID := u, Username := name, Message := about, Store := "" } := by
  simp [GetInformation, ha, hb]

/-- Request, when every read succeeds and `to_` is not yet in the outgoing list:
the two writes it makes. -/
theorem Request_eq (db : DB) (from_ to_ : String) (outgoing incoming : List User)
    (from_user to_user : User)
    (ho : GetUsers db from_ OutgoingList = .ok outgoing)
    (hi : GetUsers db to_ IncomingList = .ok incoming)
    (hf : GetInformation db from_ = .ok from_user)
    (ht : GetInformation db to_ = .ok to_user)
    (hn : hasUser outgoing to_ = false) :
    Request db from_ to_ =
      (none, (SetAttribute (SetAttribute db to_ IncomingList (.users (incoming ++ [from_user]))).2
        from_ OutgoingList (.users (outgoing ++ [to_user]))).2) := by
  obtain ⟨dt, hdt⟩ := GetAttribute_ok_doc (GetUsers_ok_iff.1 hi)
  obtain ⟨df, hdf⟩ := GetAttribute_ok_doc (GetUsers_ok_iff.1 ho)
  obtain ⟨df1, hdf1⟩ := SetAttribute_doc db to_ IncomingList (.users (incoming ++ [from_user])) from_ df hdf
  simp only [Request, ho, hi, hf, ht, hn]
  rw [SetAttribute_eq db to_ _ _ dt hdt]
  simp only
  rw [SetAttribute_eq _ from_ _ _ df1 hdf1]
  simp

theorem removeUser_fst (list : List User) (userID : String) (found : Bool) :
    (removeUser list userID found).1 = list.eraseP (fun u => u.UserID == userID) := by
  induction list with
  | nil => rfl
  | cons value rest ih =>
    by_cases h : value.UserID = userID
    · simp [removeUser, h]
    · simp [removeUser, h, ih, List.eraseP_cons]

theorem removeUser_snd (list : List User) (userID : String) (found : Bool) :
    (removeUser list userID found).2 = (found || hasUser list userID) := by
  induction list with
  | nil => simp [removeUser, hasUser]
  | cons value rest ih =>
    by_cases h : value.UserID = userID
    · simp [removeUser, h, hasUser]
    · have hb : (value.UserID == userID) = false := by simpa using h
      simp [removeUser, h, ih, hasUser, hb]

/-- Cancel, when both lists can be read: the second test of `found` is never
taken, and the outcome depends on the outgoing list alone. -/
theorem Cancel_eq (db : DB) (from_ to_ : String) (outgoing incoming : List User)
    (ho : GetUsers db from_ OutgoingList = .ok outgoing)
    (hi : GetUsers db to_ IncomingList = .ok incoming) :
    Cancel db from_ to_ =
      if hasUser outgoing to_ then
        (none, (SetAttribute (SetAttribute db to_ IncomingList
          (.users (incoming.eraseP (fun u => u.UserID == from_)))).2
          from_ OutgoingList (.users (outgoing.eraseP (fun u => u.UserID == to_)))).2)
      else (some .ErrRequestNotSent, db) := by
  obtain ⟨dt, hdt⟩ := GetAttribute_ok_doc (GetUsers_ok_iff.1 hi)
  obtain ⟨df, hdf⟩ := GetAttribute_ok_doc (GetUsers_ok_iff.1 ho)
  obtain ⟨df1, hdf1⟩ := SetAttribute_doc db to_ IncomingList
    (.users (incoming.eraseP (fun u => u.UserID == from_))) from_ df hdf
  simp only [Cancel, ho, hi]
  by_cases h : hasUser outgoing to_ = true
  · simp only [removeUser_snd, removeUser_fst, h, Bool.or_true, Bool.false_or, Bool.not_true,
      Bool.false_eq_true, if_false, if_true]
    rw [SetAttribute_eq db to_ _ _ dt hdt]
    simp only
    rw [SetAttribute_eq _ from_ _ _ df1 hdf1]
    simp
  · simp only [Bool.not_eq_true] at h
    simp [removeUser_snd, h]

theorem IncomingList_ne_OutgoingList : IncomingList ≠ OutgoingList := by decide
theorem ContactList_ne_OutgoingList : ContactList ≠ OutgoingList := by decide
theorem ContactList_ne_IncomingList : ContactList ≠ IncomingList := by decide

/-- What can be read after the two writes that Request and Cancel make: the
incoming list of `to_` and the outgoing list of `from_` hold the written
values, every other attribute is as before. -/
theorem GetAttribute_pair (db : DB) (from_ to_ : String) (inc out : Value)
    (df dt : String → Option Value)
    (hdf : db.attributes from_ = some df) (hdt : db.attributes to_ = some dt)
    (userID key : String) :
    GetAttribute (SetAttribute (SetAttribute db to_ IncomingList inc).2 from_ OutgoingList out).2
        userID key =
      if userID = from_ ∧ key = OutgoingList then .ok out
      else if userID = to_ ∧ key = IncomingList then .ok inc
      else GetAttribute db userID key := by
  obtain ⟨df1, hdf1⟩ := SetAttribute_doc db to_ IncomingList inc from_ df hdf
  rw [GetAttribute_SetAttribute _ _ _ _ df1 hdf1, GetAttribute_SetAttribute _ _ _ _ dt hdt]

/-- Request on existing users, `to_` not yet requested: outcome and final state. -/
theorem Request_success (db : DB) (from_ to_ : String) (outgoing incoming : List User)
    (from_user to_user : User)
    (ho : GetUsers db from_ OutgoingList = .ok outgoing)
    (hi : GetUsers db to_ IncomingList = .ok incoming)
    (hf : GetInformation db from_ = .ok from_user)
    (ht : GetInformation db to_ = .ok to_user)
    (hn : hasUser outgoing to_ = false) :
    (Request db from_ to_).1 = none ∧
    (Request db from_ to_).2.accounts = db.accounts ∧
    (Request db from_ to_).2.chat = db.chat ∧
    ∀ userID key, GetAttribute (Request db from_ to_).2 userID key =
      if userID = from_ ∧ key = OutgoingList then .ok (.users (outgoing ++ [to_user]))
      else if userID = to_ ∧ key = IncomingList then .ok (.users (incoming ++ [from_user]))
      else GetAttribute db userID key := by
  obtain ⟨dt, hdt⟩ := GetAttribute_ok_doc (GetUsers_ok_iff.1 hi)
  obtain ⟨df, hdf⟩ := GetAttribute_ok_doc (GetUsers_ok_iff.1 ho)
  rw [Request_eq db from_ to_ outgoing incoming from_user to_user ho hi hf ht hn]
  refine ⟨rfl, ?_, ?_, ?_⟩
  · simp [SetAttribute_accounts]
  · simp [SetAttribute_chat]
  · intro userID key
    exact GetAttribute_pair db from_ to_ _ _ df dt hdf hdt userID key

/-- Cancel when both lists can be read and `to_` is in the outgoing list:
outcome and final state. -/
theorem Cancel_success (db : DB) (from_ to_ : String) (outgoing incoming : List User)
    (ho : GetUsers db from_ OutgoingList = .ok outgoing)
    (hi : GetUsers db to_ IncomingList = .ok incoming)
    (h : hasUser outgoing to_ = true) :
    (Cancel db from_ to_).1 = none ∧
    (Cancel db from_ to_).2.accounts = db.accounts ∧
    (Cancel db from_ to_).2.chat = db.chat ∧
    ∀ userID key, GetAttribute (Cancel db from_ to_).2 userID key =
      if userID = from_ ∧ key = OutgoingList then
        .ok (.users (outgoing.eraseP (fun u => u.UserID == to_)))
      else if userID = to_ ∧ key = IncomingList then
        .ok (.users (incoming.eraseP (fun u => u.UserID == from_)))
      else GetAttribute db userID key := by
  obtain ⟨dt, hdt⟩ := GetAttribute_ok_doc (GetUsers_ok_iff.1 hi)
  obtain ⟨df, hdf⟩ := GetAttribute_ok_doc (GetUsers_ok_iff.1 ho)
  rw [Cancel_eq db from_ to_ outgoing incoming ho hi, if_pos h]
  refine ⟨rfl, ?_, ?_, ?_⟩
  · simp [SetAttribute_accounts]
  · simp [SetAttribute_chat]
  · intro userID key
    exact GetAttribute_pair db from_ to_ _ _ df dt hdf hdt userID key

theorem users_eq_of_occurs {db : DB} {userID key other : String}
    (h : occurs db userID key other = true) :
    ∃ list, GetUsers db userID key = .ok list ∧ hasUser list other = true := by
  unfold occurs users at h
  cases hg : GetUsers db userID key with
  | error e => simp [hg, hasUser] at h
  | ok list => exact ⟨list, rfl, by simpa [hg] using h⟩

theorem About_ne_ContactList : About ≠ ContactList := by decide
theorem About_ne_IncomingList : About ≠ IncomingList := by decide
theorem About_ne_OutgoingList : About ≠ OutgoingList := by decide

theorem GetUsers_congr {db db2 : DB} {u k : String}
    (h : GetAttribute db2 u k = GetAttribute db u k) : GetUsers db2 u k = GetUsers db u k := by
  simp [GetUsers, h]

theorem GetInformation_congr {db db2 : DB} {u : String}
    (ha : db2.accounts = db.accounts)
    (h : GetAttribute db2 u About = GetAttribute db u About) :
    GetInformation db2 u = GetInformation db u := by
  simp [GetInformation, GetString, ha, h]

theorem GetInformation_UserID {db : DB} {u : String} {user : User}
    (h : GetInformation db u = .ok user) : user.UserID = u := by
  unfold GetInformation at h
  cases ha : db.accounts u with
  | none => simp [ha] at h
  | some name =>
    cases hb : GetString db u About with
    | error e => simp [ha, hb] at h
    | ok about =>
      simp [ha, hb] at h
      rw [← h]

theorem GetInformation_ok_doc {db : DB} {u : String} {user : User}
    (h : GetInformation db u = .ok user) : ∃ doc, db.attributes u = some doc := by
  unfold GetInformation at h
  cases ha : db.accounts u with
  | none => simp [ha] at h
  | some name =>
    cases hb : GetString db u About with
    | error e => simp [ha, hb] at h
    | ok about => exact GetAttribute_ok_doc (GetString_ok_iff.1 hb)

/-- The accepting branch of Decide on the state `db1` that Cancel left, when
every read succeeds: the two writes it makes. The second contact list is read
after the first one has been written. -/
theorem Decide_accept_eq (db db1 : DB) (from_ to_ store : String)
    (from_contacts to_contacts : List User) (from_user to_user : User)
    (hc : Cancel db to_ from_ = (none, db1))
    (hfc : GetUsers db1 from_ ContactList = .ok from_contacts)
    (htc : GetUsers db1 to_ ContactList = .ok to_contacts)
    (hf : GetInformation db1 from_ = .ok from_user)
    (ht : GetInformation db1 to_ = .ok to_user) :
    Decide db from_ to_ true store =
      (none, (SetAttribute
        (SetAttribute db1 from_ ContactList
          (.users (from_contacts ++ [{ to_user with Store := store }]))).2
        to_ ContactList
        (.users ((if to_ = from_ then from_contacts ++ [{ to_user with Store := store }]
          else to_contacts) ++ [{ from_user with Store := store }]))).2) := by
  obtain ⟨df, hdf⟩ := GetAttribute_ok_doc (GetUsers_ok_iff.1 hfc)
  obtain ⟨dt, hdt⟩ := GetAttribute_ok_doc (GetUsers_ok_iff.1 htc)
  obtain ⟨dt2, hdt2⟩ := SetAttribute_doc db1 from_ ContactList
    (.users (from_contacts ++ [{ to_user with Store := store }])) to_ dt hdt
  have h2 : GetUsers (SetAttribute db1 from_ ContactList
      (.users (from_contacts ++ [{ to_user with Store := store }]))).2 to_ ContactList =
      .ok (if to_ = from_ then from_contacts ++ [{ to_user with Store := store }]
        else to_contacts) := by
    rw [GetUsers_ok_iff, GetAttribute_SetAttribute _ _ _ _ df hdf]
    by_cases h : to_ = from_
    · simp [h]
    · simp [h, GetUsers_ok_iff.1 htc]
  have h3 : GetInformation (SetAttribute db1 from_ ContactList
      (.users (from_contacts ++ [{ to_user with Store := store }]))).2 from_ = .ok from_user := by
    rw [← hf]
    apply GetInformation_congr (SetAttribute_accounts _ _ _ _)
    rw [GetAttribute_SetAttribute _ _ _ _ df hdf]
    simp [About_ne_ContactList]
  simp only [Decide, hc, hfc, ht, if_true]
  rw [SetAttribute_eq db1 from_ _ _ df hdf]
  simp only [h2, h3]
  rw [SetAttribute_eq _ to_ _ _ dt2 hdt2]

/-- Decide with `decide` true, when Cancel goes through and every read
succeeds: outcome and final state. -/
theorem Decide_accept_success (db : DB) (from_ to_ store : String)
    (outgoing incoming from_contacts to_contacts : List User) (from_user to_user : User)
    (ho : GetUsers db to_ OutgoingList = .ok outgoing)
    (hi : GetUsers db from_ IncomingList = .ok incoming)
    (hfc : GetUsers db from_ ContactList = .ok from_contacts)
    (htc : GetUsers db to_ ContactList = .ok to_contacts)
    (hf : GetInformation db from_ = .ok from_user)
    (ht : GetInformation db to_ = .ok to_user)
    (h : hasUser outgoing from_ = true) :
    (Decide db from_ to_ true store).1 = none ∧
    (Decide db from_ to_ true store).2.accounts = db.accounts ∧
    (Decide db from_ to_ true store).2.chat = db.chat ∧
    ∀ userID key, GetAttribute (Decide db from_ to_ true store).2 userID key =
      if userID = to_ ∧ key = ContactList then
        .ok (.users ((if to_ = from_ then from_contacts ++ [{ to_user with Store := store }]
          else to_contacts) ++ [{ from_user with Store := store }]))
      else if userID = from_ ∧ key = ContactList then
        .ok (.users (from_contacts ++ [{ to_user with Store := store }]))
      else if userID = to_ ∧ key = OutgoingList then
        .ok (.users (outgoing.eraseP (fun u => u.UserID == from_)))
      else if userID = from_ ∧ key = IncomingList then
        .ok (.users (incoming.eraseP (fun u => u.UserID == to_)))
      else GetAttribute db userID key := by
  obtain ⟨c1, c2, c3, c4⟩ := Cancel_success db to_ from_ outgoing incoming ho hi h
  have hc : Cancel db to_ from_ = (none, (Cancel db to_ from_).2) := by
    rw [← c1]
  have hfc1 : GetUsers (Cancel db to_ from_).2 from_ ContactList = .ok from_contacts := by
    rw [← hfc]; apply GetUsers_congr; rw [c4]
    simp [ContactList_ne_OutgoingList, ContactList_ne_IncomingList]
  have htc1 : GetUsers (Cancel db to_ from_).2 to_ ContactList = .ok to_contacts := by
    rw [← htc]; apply GetUsers_congr; rw [c4]
    simp [ContactList_ne_OutgoingList, ContactList_ne_IncomingList]
  have hf1 : GetInformation (Cancel db to_ from_).2 from_ = .ok from_user := by
    rw [← hf]; apply GetInformation_congr c2; rw [c4]
    simp [About_ne_OutgoingList, About_ne_IncomingList]
  have ht1 : GetInformation (Cancel db to_ from_).2 to_ = .ok to_user := by
    rw [← ht]; apply GetInformation_congr c2; rw [c4]
    simp [About_ne_OutgoingList, About_ne_IncomingList]
  obtain ⟨df, hdf⟩ := GetAttribute_ok_doc (GetUsers_ok_iff.1 hfc1)
  obtain ⟨dt, hdt⟩ := GetAttribute_ok_doc (GetUsers_ok_iff.1 htc1)
  obtain ⟨dt2, hdt2⟩ := SetAttribute_doc (Cancel db to_ from_).2 from_ ContactList
    (.users (from_contacts ++ [{ to_user with Store := store }])) to_ dt hdt
  rw [Decide_accept_eq db _ from_ to_ store from_contacts to_contacts from_user to_user
    hc hfc1 htc1 hf1 ht1]
  refine ⟨rfl, ?_, ?_, ?_⟩
  · simp [SetAttribute_accounts, c2]
  · simp [SetAttribute_chat, c3]
  · intro userID key
    rw [GetAttribute_SetAttribute _ _ _ _ dt2 hdt2, GetAttribute_SetAttribute _ _ _ _ df hdf, c4]

/-! ## The ways a call can go -/

theorem GetAttribute_error {db : DB} {u k : String} {e : Err}
    (h : GetAttribute db u k = .error e) : storeFailure (some e) = true := by
  unfold GetAttribute at h
  cases hd : db.attributes u with
  | none => simp [hd] at h; subst h; rfl
  | some doc =>
    cases hk : doc k with
    | none => simp [hd, hk] at h; subst h; rfl
    | some v => simp [hd, hk] at h

theorem GetUsers_error {db : DB} {u k : String} {e : Err}
    (h : GetUsers db u k = .error e) : storeFailure (some e) = true := by
  unfold GetUsers at h
  cases hg : GetAttribute db u k with
  | error e2 => simp [hg] at h; subst h; exact GetAttribute_error hg
  | ok v => cases v <;> simp [hg] at h <;> (subst h; rfl)

theorem GetString_error {db : DB} {u k : String} {e : Err}
    (h : GetString db u k = .error e) : storeFailure (some e) = true := by
  unfold GetString at h
  cases hg : GetAttribute db u k with
  | error e2 => simp [hg] at h; subst h; exact GetAttribute_error hg
  | ok v => cases v <;> simp [hg] at h <;> (subst h; rfl)

theorem GetInformation_error {db : DB} {u : String} {e : Err}
    (h : GetInformation db u = .error e) : storeFailure (some e) = true := by
  unfold GetInformation at h
  cases ha : db.accounts u with
  | none => simp [ha] at h; subst h; rfl
  | some name =>
    cases hb : GetString db u About with
    | error e2 => simp [ha, hb] at h; subst h; exact GetString_error hb
    | ok about => simp [ha, hb] at h

/-- A Request either stops before its first write, leaving the state alone, or
has read both lists and both public infos. -/
theorem Request_cases (db : DB) (from_ to_ : String) :
    (∃ e, Request db from_ to_ = (some e, db)) ∨
    ∃ outgoing incoming from_user to_user,
      GetUsers db from_ OutgoingList = .ok outgoing ∧
      GetUsers db to_ IncomingList = .ok incoming ∧
      GetInformation db from_ = .ok from_user ∧
      GetInformation db to_ = .ok to_user ∧
      hasUser outgoing to_ = false := by
  cases ho : GetUsers db from_ OutgoingList with
  | error e => left; simp [Request, ho]
  | ok outgoing =>
    cases hn : hasUser outgoing to_ with
    | true => left; simp [Request, ho, hn]
    | false =>
      cases hi : GetUsers db to_ IncomingList with
      | error e => left; simp [Request, ho, hn, hi]
      | ok incoming =>
        cases hf : GetInformation db from_ with
        | error e => left; simp [Request, ho, hn, hi, hf]
        | ok from_user =>
          cases ht : GetInformation db to_ with
          | error e => left; simp [Request, ho, hn, hi, hf, ht]
          | ok to_user => exact Or.inr ⟨outgoing, incoming, from_user, to_user, rfl, rfl, rfl, rfl, hn⟩

/-- A Cancel either stops before its first write, leaving the state alone, or
has read both lists and found the outgoing entry. -/
theorem Cancel_cases (db : DB) (from_ to_ : String) :
    (∃ e, Cancel db from_ to_ = (some e, db)) ∨
    ∃ outgoing incoming,
      GetUsers db from_ OutgoingList = .ok outgoing ∧
      GetUsers db to_ IncomingList = .ok incoming ∧
      hasUser outgoing to_ = true := by
  cases ho : GetUsers db from_ OutgoingList with
  | error e => left; simp [Cancel, ho]
  | ok outgoing =>
    cases hi : GetUsers db to_ IncomingList with
    | error e => left; simp [Cancel, ho, hi]
    | ok incoming =>
      cases hn : hasUser outgoing to_ with
      | false => left; rw [Cancel_eq db from_ to_ outgoing incoming ho hi]; simp [hn]
      | true => exact Or.inr ⟨outgoing, incoming, rfl, rfl, hn⟩

/-- An accepting Decide that met no store failure either stops in Cancel,
leaving the state alone, or has gone through Cancel and read both Contacts
lists and both public infos. -/
theorem Decide_accept_cases (db : DB) (from_ to_ store : String)
    (h : storeFailure (Decide db from_ to_ true store).1 = false) :
    (∃ e, Decide db from_ to_ true store = (some e, db)) ∨
    ∃ outgoing incoming from_contacts to_contacts from_user to_user,
      GetUsers db to_ OutgoingList = .ok outgoing ∧
      GetUsers db from_ IncomingList = .ok incoming ∧
      GetUsers db from_ ContactList = .ok from_contacts ∧
      GetUsers db to_ ContactList = .ok to_contacts ∧
      GetInformation db from_ = .ok from_user ∧
      GetInformation db to_ = .ok to_user ∧
      hasUser outgoing from_ = true := by
  rcases Cancel_cases db to_ from_ with ⟨e, hc⟩ | ⟨outgoing, incoming, ho, hi, hh⟩
  · exact Or.inl ⟨e, by simp [Decide, hc]⟩
  · right
    obtain ⟨c1, c2, _, c4⟩ := Cancel_success db to_ from_ outgoing incoming ho hi hh
    have hc : Cancel db to_ from_ = (none, (Cancel db to_ from_).2) := by rw [← c1]
    have k1 : ∀ u, GetUsers (Cancel db to_ from_).2 u ContactList = GetUsers db u ContactList := by
      intro u; apply GetUsers_congr; rw [c4]
      simp [ContactList_ne_OutgoingList, ContactList_ne_IncomingList]
    have k2 : ∀ u, GetInformation (Cancel db to_ from_).2 u = GetInformation db u := by
      intro u; apply GetInformation_congr c2; rw [c4]
      simp [About_ne_OutgoingList, About_ne_IncomingList]
    cases hfc : GetUsers db from_ ContactList with
    | error e =>
      rw [Decide, hc] at h
      simp only [k1, hfc, if_true] at h
      rw [GetUsers_error hfc] at h; cases h
    | ok from_contacts =>
      cases ht : GetInformation db to_ with
      | error e =>
        rw [Decide, hc] at h
        simp only [k1, k2, hfc, ht, if_true] at h
        rw [GetInformation_error ht] at h; cases h
      | ok to_user =>
        by_cases htf : to_ = from_
        · subst htf
          exact ⟨outgoing, incoming, from_contacts, from_contacts, to_user, to_user,
            ho, hi, rfl, hfc, ht, rfl, hh⟩
        · obtain ⟨df, hdf⟩ := GetAttribute_ok_doc (GetUsers_ok_iff.1 ((k1 from_).trans hfc))
          have j1 : GetUsers (SetAttribute (Cancel db to_ from_).2 from_ ContactList
              (.users (from_contacts ++ [{ to_user with Store := store }]))).2 to_ ContactList =
              GetUsers db to_ ContactList := by
            rw [← k1 to_]; apply GetUsers_congr
            rw [GetAttribute_SetAttribute _ _ _ _ df hdf]; simp [htf]
          have j2 : GetInformation (SetAttribute (Cancel db to_ from_).2 from_ ContactList
              (.users (from_contacts ++ [{ to_user with Store := store }]))).2 from_ =
              GetInformation db from_ := by
            rw [← k2 from_]; apply GetInformation_congr (SetAttribute_accounts _ _ _ _)
            rw [GetAttribute_SetAttribute _ _ _ _ df hdf]; simp [About_ne_ContactList]
          cases htc : GetUsers db to_ ContactList with
          | error e =>
            rw [Decide, hc] at h
            simp only [k1, k2, hfc, ht, if_true] at h
            rw [SetAttribute_eq _ from_ _ _ df hdf] at h
            simp only [j1, htc] at h
            rw [GetUsers_error htc] at h; cases h
          | ok to_contacts =>
            cases hf : GetInformation db from_ with
            | error e =>
              rw [Decide, hc] at h
              simp only [k1, k2, hfc, ht, if_true] at h
              rw [SetAttribute_eq _ from_ _ _ df hdf] at h
              simp only [j1, j2, htc, hf] at h
              rw [GetInformation_error hf] at h; cases h
            | ok from_user =>
              exact ⟨outgoing, incoming, from_contacts, to_contacts, from_user, to_user,
                ho, hi, rfl, rfl, rfl, rfl, hh⟩

/-- Decide with `decide` false is Cancel in the other direction. -/
theorem Decide_reject_eq (db : DB) (from_ to_ store : String) :
    Decide db from_ to_ false store = Cancel db to_ from_ := by
  unfold Decide
  rcases hc : Cancel db to_ from_ with ⟨_ | e, db1⟩ <;> simp

/-! ## Counting entries -/

theorem users_of_get {db : DB} {u k : String} {l : List User}
    (h : GetAttribute db u k = .ok (.users l)) : users db u k = l := by
  simp [users, GetUsers, h]

theorem users_congr {db db2 : DB} {u k : String}
    (h : GetAttribute db2 u k = GetAttribute db u k) : users db2 u k = users db u k := by
  simp [users, GetUsers, h]

theorem cnt_of_get {db : DB} {u k : String} {l : List User}
    (h : GetAttribute db u k = .ok (.users l)) (other : String) :
    cnt db u k other = l.countP (fun user => user.UserID == other) := by
  simp [cnt, users_of_get h]

theorem cnt_of_GetUsers {db : DB} {u k : String} {l : List User}
    (h : GetUsers db u k = .ok l) (other : String) :
    cnt db u k other = l.countP (fun user => user.UserID == other) :=
  cnt_of_get (GetUsers_ok_iff.1 h) other

theorem cnt_congr {db db2 : DB} {u k : String}
    (h : GetAttribute db2 u k = GetAttribute db u k) (other : String) :
    cnt db2 u k other = cnt db u k other := by
  simp [cnt, users_congr h]

theorem countP_eraseP_UserID (l : List User) (userID other : String) :
    (l.eraseP (fun user => user.UserID == userID)).countP (fun user => user.UserID == other) =
      l.countP (fun user => user.UserID == other) - if userID = other then 1 else 0 := by
  induction l with
  | nil => simp
  | cons value rest ih =>
    by_cases h : value.UserID = userID
    · by_cases h2 : userID = other
      · subst h2; simp [h, List.eraseP_cons, List.countP_cons]
      · have h3 : ¬ value.UserID = other := fun hx => h2 (h ▸ hx)
        simp [h, h2, h3, List.eraseP_cons, List.countP_cons]
    · have hb : (value.UserID == userID) = false := by simpa using h
      rw [List.eraseP_cons, hb]
      simp only [cond_false, List.countP_cons, ih]
      by_cases h2 : userID = other
      · have h3 : ¬ value.UserID = other := fun hx => h (hx.trans h2.symm)
        simp [h2, h3]
      · simp [h2]

theorem hasUser_iff_countP (l : List User) (other : String) :
    hasUser l other = true ↔ 0 < l.countP (fun user => user.UserID == other) := by
  simp [hasUser, List.countP_pos_iff]

theorem occurs_iff_cnt (db : DB) (u k other : String) :
    occurs db u k other = true ↔ 0 < cnt db u k other :=
  hasUser_iff_countP _ _

theorem occurs_eq_false_iff_cnt (db : DB) (u k other : String) :
    occurs db u k other = false ↔ cnt db u k other = 0 := by
  rw [← Bool.not_eq_true, occurs_iff_cnt]; omega

/-! ## The effect of each call on the entry counts -/

/-- The counts after the two writes of Request and Cancel. -/
theorem cnt_pair (db db2 : DB) (from_ to_ : String) (out inc : List User)
    (h4 : ∀ userID key, GetAttribute db2 userID key =
      if userID = from_ ∧ key = OutgoingList then .ok (.users out)
      else if userID = to_ ∧ key = IncomingList then .ok (.users inc)
      else GetAttribute db userID key) (a b : String) :
    cnt db2 a OutgoingList b =
      (if a = from_ then out.countP (fun user => user.UserID == b) else cnt db a OutgoingList b) ∧
    cnt db2 a IncomingList b =
      (if a = to_ then inc.countP (fun user => user.UserID == b) else cnt db a IncomingList b) ∧
    cnt db2 a ContactList b = cnt db a ContactList b := by
  refine ⟨?_, ?_, ?_⟩
  · by_cases ha : a = from_
    · have g : GetAttribute db2 a OutgoingList = .ok (.users out) := by rw [h4]; simp [ha]
      rw [cnt_of_get g, if_pos ha]
    · have g : GetAttribute db2 a OutgoingList = GetAttribute db a OutgoingList := by
        rw [h4]; simp [ha, Ne.symm IncomingList_ne_OutgoingList]
      rw [cnt_congr g, if_neg ha]
  · by_cases ha : a = to_
    · have g : GetAttribute db2 a IncomingList = .ok (.users inc) := by
        rw [h4]; simp [ha, IncomingList_ne_OutgoingList]
      rw [cnt_of_get g, if_pos ha]
    · have g : GetAttribute db2 a IncomingList = GetAttribute db a IncomingList := by
        rw [h4]; simp [ha, IncomingList_ne_OutgoingList]
      rw [cnt_congr g, if_neg ha]
  · have g : GetAttribute db2 a ContactList = GetAttribute db a ContactList := by
      rw [h4]; simp [ContactList_ne_OutgoingList, ContactList_ne_IncomingList]
    rw [cnt_congr g]

theorem countP_append_user (l : List User) (user : User) (userID other : String)
    (h : user.UserID = userID) :
    (l ++ [user]).countP (fun x => x.UserID == other) =
      l.countP (fun x => x.UserID == other) + if userID = other then 1 else 0 := by
  by_cases hb : userID = other
  · simp [List.countP_append, List.countP_cons, h, hb]
  · simp [List.countP_append, List.countP_cons, h, hb]

/-- Request: either the state is as before, or `to_` was not in the outgoing
list of `from_` and exactly the pending pair was added. -/
theorem Request_step (db : DB) (from_ to_ : String) :
    (Request db from_ to_).2 = db ∨
    (cnt db from_ OutgoingList to_ = 0 ∧ ∀ a b,
      cnt (Request db from_ to_).2 a OutgoingList b =
        cnt db a OutgoingList b + (if a = from_ ∧ b = to_ then 1 else 0) ∧
      cnt (Request db from_ to_).2 a IncomingList b =
        cnt db a IncomingList b + (if a = to_ ∧ b = from_ then 1 else 0) ∧
      cnt (Request db from_ to_).2 a ContactList b = cnt db a ContactList b) := by
  rcases Request_cases db from_ to_ with ⟨e, he⟩ | ⟨outgoing, incoming, fu, tu, ho, hi, hf, ht, hn⟩
  · left; rw [he]
  · right
    obtain ⟨_, _, _, h4⟩ := Request_success db from_ to_ outgoing incoming fu tu ho hi hf ht hn
    have hfu := GetInformation_UserID hf
    have htu := GetInformation_UserID ht
    constructor
    · rw [cnt_of_GetUsers ho]
      have := hasUser_iff_countP outgoing to_
      rw [hn] at this
      simp only [Bool.false_eq_true, false_iff, not_lt, Nat.le_zero_eq] at this
      exact this
    · intro a b
      obtain ⟨p1, p2, p3⟩ := cnt_pair db _ from_ to_ _ _ h4 a b
      refine ⟨?_, ?_, p3⟩
      · rw [p1]
        by_cases ha : a = from_
        · rw [if_pos ha, ha, countP_append_user _ _ to_ _ htu, cnt_of_GetUsers ho]
          by_cases hb : b = to_
          · simp [hb]
          · have : ¬ to_ = b := fun h => hb h.symm
            simp [hb, this]
        · simp [ha]
      · rw [p2]
        by_cases ha : a = to_
        · rw [if_pos ha, ha, countP_append_user _ _ from_ _ hfu, cnt_of_GetUsers hi]
          by_cases hb : b = from_
          · simp [hb]
          · have : ¬ from_ = b := fun h => hb h.symm
            simp [hb, this]
        · simp [ha]

/-- Cancel: either the state is as before, or `to_` was in the outgoing list of
`from_` and one entry of the pending pair was removed on each side (none on
the incoming side when there was none). -/
theorem Cancel_step (db : DB) (from_ to_ : String) :
    (Cancel db from_ to_).2 = db ∨
    (0 < cnt db from_ OutgoingList to_ ∧ ∀ a b,
      cnt (Cancel db from_ to_).2 a OutgoingList b =
        cnt db a OutgoingList b - (if a = from_ ∧ b = to_ then 1 else 0) ∧
      cnt (Cancel db from_ to_).2 a IncomingList b =
        cnt db a IncomingList b - (if a = to_ ∧ b = from_ then 1 else 0) ∧
      cnt (Cancel db from_ to_).2 a ContactList b = cnt db a ContactList b) := by
  rcases Cancel_cases db from_ to_ with ⟨e, he⟩ | ⟨outgoing, incoming, ho, hi, hh⟩
  · left; rw [he]
  · right
    obtain ⟨_, _, _, h4⟩ := Cancel_success db from_ to_ outgoing incoming ho hi hh
    constructor
    · rw [cnt_of_GetUsers ho]; exact (hasUser_iff_countP outgoing to_).1 hh
    · intro a b
      obtain ⟨p1, p2, p3⟩ := cnt_pair db _ from_ to_ _ _ h4 a b
      refine ⟨?_, ?_, p3⟩
      · rw [p1]
        by_cases ha : a = from_
        · rw [if_pos ha, ha, countP_eraseP_UserID, cnt_of_GetUsers ho]
          by_cases hb : b = to_
          · simp [hb]
          · have : ¬ to_ = b := fun h => hb h.symm
            simp [hb, this]
        · simp [ha]
      · rw [p2]
        by_cases ha : a = to_
        · rw [if_pos ha, ha, countP_eraseP_UserID, cnt_of_GetUsers hi]
          by_cases hb : b = from_
          · simp [hb]
          · have : ¬ from_ = b := fun h => hb h.symm
            simp [hb, this]
        · simp [ha]

/-- Decide that met no store failure: either the state is as before, or `from_`
was in the outgoing list of `to_`, one entry of that pending pair was removed
on each side, and when accepting each of the two got one Contacts entry for
the other. -/
theorem Decide_step (db : DB) (from_ to_ : String) (accept : Bool) (store : String)
    (h : storeFailure (Decide db from_ to_ accept store).1 = false) :
    (Decide db from_ to_ accept store).2 = db ∨
    (0 < cnt db to_ OutgoingList from_ ∧ ∀ a b,
      cnt (Decide db from_ to_ accept store).2 a OutgoingList b =
        cnt db a OutgoingList b - (if a = to_ ∧ b = from_ then 1 else 0) ∧
      cnt (Decide db from_ to_ accept store).2 a IncomingList b =
        cnt db a IncomingList b - (if a = from_ ∧ b = to_ then 1 else 0) ∧
      cnt (Decide db from_ to_ accept store).2 a ContactList b =
        cnt db a ContactList b +
          (if accept = true then
            (if a = from_ ∧ b = to_ then 1 else 0) + (if a = to_ ∧ b = from_ then 1 else 0)
          else 0)) := by
  cases accept with
  | false =>
    rw [Decide_reject_eq]
    rcases Cancel_step db to_ from_ with hc | ⟨hpos, hc⟩
    · exact Or.inl hc
    · refine Or.inr ⟨hpos, fun a b => ?_⟩
      obtain ⟨p1, p2, p3⟩ := hc a b
      exact ⟨p1, p2, by simpa using p3⟩
  | true =>
    rcases Decide_accept_cases db from_ to_ store h with
      ⟨e, he⟩ | ⟨outgoing, incoming, fc, tc, fu, tu, ho, hi, hfc, htc, hf, ht, hh⟩
    · left; rw [he]
    · right
      obtain ⟨_, _, _, d4⟩ := Decide_accept_success db from_ to_ store outgoing incoming
        fc tc fu tu ho hi hfc htc hf ht hh
      have hfu : ({ fu with Store := store } : User).UserID = from_ :=
        show fu.UserID = from_ from GetInformation_UserID hf
      have htu : ({ tu with Store := store } : User).UserID = to_ :=
        show tu.UserID = to_ from GetInformation_UserID ht
      constructor
      · rw [cnt_of_GetUsers ho]; exact (hasUser_iff_countP outgoing from_).1 hh
      · intro a b
        refine ⟨?_, ?_, ?_⟩
        · by_cases ha : a = to_
          · have g : GetAttribute (Decide db from_ to_ true store).2 a OutgoingList =
                .ok (.users (outgoing.eraseP (fun u => u.UserID == from_))) := by
              rw [d4]; simp [ha, Ne.symm ContactList_ne_OutgoingList]
            rw [cnt_of_get g, countP_eraseP_UserID, ha, cnt_of_GetUsers ho]
            by_cases hb : b = from_
            · simp [hb]
            · have : ¬ from_ = b := fun h => hb h.symm
              simp [hb, this]
          · have g : GetAttribute (Decide db from_ to_ true store).2 a OutgoingList =
                GetAttribute db a OutgoingList := by
              rw [d4]
              simp [ha, Ne.symm ContactList_ne_OutgoingList, Ne.symm IncomingList_ne_OutgoingList]
            rw [cnt_congr g]; simp [ha]
        · by_cases ha : a = from_
          · have g : GetAttribute (Decide db from_ to_ true store).2 a IncomingList =
                .ok (.users (incoming.eraseP (fun u => u.UserID == to_))) := by
              rw [d4]
              simp [ha, Ne.symm ContactList_ne_IncomingList, IncomingList_ne_OutgoingList]
            rw [cnt_of_get g, countP_eraseP_UserID, ha, cnt_of_GetUsers hi]
            by_cases hb : b = to_
            · simp [hb]
            · have : ¬ to_ = b := fun h => hb h.symm
              simp [hb, this]
          · have g : GetAttribute (Decide db from_ to_ true store).2 a IncomingList =
                GetAttribute db a IncomingList := by
              rw [d4]
              simp [ha, Ne.symm ContactList_ne_IncomingList, IncomingList_ne_OutgoingList]
            rw [cnt_congr g]; simp [ha]
        · simp only [if_true]
          by_cases hat : a = to_
          · by_cases htf : to_ = from_
            · have g : GetAttribute (Decide db from_ to_ true store).2 a ContactList =
                  .ok (.users ((fc ++ [{ tu with Store := store }]) ++
                    [{ fu with Store := store }])) := by
                rw [d4]; simp [hat, htf]
              rw [cnt_of_get g, countP_append_user _ _ from_ _ hfu,
                countP_append_user _ _ to_ _ htu, hat, htf, cnt_of_GetUsers hfc]
              by_cases hb : b = from_
              · simp [hb]
              · have : ¬ from_ = b := fun h => hb h.symm
                simp [hb, this]
            · have g : GetAttribute (Decide db from_ to_ true store).2 a ContactList =
                  .ok (.users (tc ++ [{ fu with Store := store }])) := by
                rw [d4]; simp [hat, htf]
              rw [cnt_of_get g, countP_append_user _ _ from_ _ hfu, hat, cnt_of_GetUsers htc]
              by_cases hb : b = from_
              · simp [hb, htf]
              · have : ¬ from_ = b := fun h => hb h.symm
                simp [hb, this, htf]
          · by_cases haf : a = from_
            · have hft : ¬ from_ = to_ := fun h => hat (haf.trans h)
              have g : GetAttribute (Decide db from_ to_ true store).2 a ContactList =
                  .ok (.users (fc ++ [{ tu with Store := store }])) := by
                rw [d4]; simp [haf, hft]
              rw [cnt_of_get g, countP_append_user _ _ to_ _ htu, haf, cnt_of_GetUsers hfc]
              by_cases hb : b = to_
              · simp [hb, hft]
              · have : ¬ to_ = b := fun h => hb h.symm
                simp [hb, this, hft]
            · have g : GetAttribute (Decide db from_ to_ true store).2 a ContactList =
                  GetAttribute db a ContactList := by
                rw [d4]; simp [hat, haf]
              rw [cnt_congr g]; simp [hat, haf]

/-! ## Invariants of the contact protocol -/

theorem cnt_of_AllEmpty {db : DB} (h : AllEmpty db) (a b : String) :
    cnt db a OutgoingList b = 0 ∧ cnt db a IncomingList b = 0 ∧ cnt db a ContactList b = 0 := by
  refine ⟨?_, ?_, ?_⟩
  · simp [cnt, h a OutgoingList (Or.inr (Or.inr rfl))]
  · simp [cnt, h a IncomingList (Or.inr (Or.inl rfl))]
  · simp [cnt, h a ContactList (Or.inl rfl)]

theorem Symmetric_of_AllEmpty {db : DB} (h : AllEmpty db) : Symmetric db := by
  intro a b
  obtain ⟨a1, _, a3⟩ := cnt_of_AllEmpty h a b
  obtain ⟨_, b2, b3⟩ := cnt_of_AllEmpty h b a
  omega

theorem Exclusive_of_AllEmpty {db : DB} (h : AllEmpty db) : Exclusive db := by
  intro a b
  obtain ⟨a1, a2, a3⟩ := cnt_of_AllEmpty h a b
  omega

/-- Symmetry survives every call that meets no store failure. -/
theorem Symmetric_step (db : DB) (call : Call) (hs : Symmetric db)
    (h : storeFailure (call.run db).1 = false) : Symmetric (call.run db).2 := by
  cases call with
  | request from_ to_ =>
    rcases Request_step db from_ to_ with he | ⟨_, hc⟩
    · simp only [Call.run]; rw [he]; exact hs
    · intro a b
      obtain ⟨p1, _, p3⟩ := hc a b
      obtain ⟨_, q2, q3⟩ := hc b a
      obtain ⟨s1, s3⟩ := hs a b
      simp only [Call.run]
      rw [p1, p3, q2, q3]
      refine ⟨?_, s3⟩
      split_ifs <;> first | omega | (exfalso; tauto)
  | cancel from_ to_ =>
    rcases Cancel_step db from_ to_ with he | ⟨_, hc⟩
    · simp only [Call.run]; rw [he]; exact hs
    · intro a b
      obtain ⟨p1, _, p3⟩ := hc a b
      obtain ⟨_, q2, q3⟩ := hc b a
      obtain ⟨s1, s3⟩ := hs a b
      simp only [Call.run]
      rw [p1, p3, q2, q3]
      refine ⟨?_, s3⟩
      split_ifs <;> first | omega | (exfalso; tauto)
  | decide from_ to_ accept store =>
    rcases Decide_step db from_ to_ accept store h with he | ⟨_, hc⟩
    · simp only [Call.run]; rw [he]; exact hs
    · intro a b
      obtain ⟨p1, _, p3⟩ := hc a b
      obtain ⟨_, q2, q3⟩ := hc b a
      obtain ⟨s1, s3⟩ := hs a b
      simp only [Call.run]
      rw [p1, p3, q2, q3]
      constructor
      · split_ifs <;> first | omega | (exfalso; tauto)
      · cases accept with
        | false => simpa using s3
        | true =>
          simp only [if_true]
          split_ifs <;> first | omega | (exfalso; tauto)

/-- Symmetry holds after every run from all-empty lists. -/
theorem Symmetric_runAll (calls : List Call) :
    ∀ db0 db : DB, Symmetric db0 → runAll db0 calls = some db → Symmetric db := by
  induction calls with
  | nil =>
    intro db0 db hs hr
    simp only [runAll, Option.some.injEq] at hr
    rw [← hr]; exact hs
  | cons call rest ih =>
    intro db0 db hs hr
    simp only [runAll] at hr
    cases hf : storeFailure (call.run db0).1 with
    | true => simp [hf] at hr
    | false =>
      simp only [hf, Bool.false_eq_true, if_false] at hr
      exact ih _ db (Symmetric_step db0 call hs hf) hr

theorem disciplined_request {db : DB} {from_ to_ : String}
    (h : disciplined db (.request from_ to_) = true) :
    from_ ≠ to_ ∧ cnt db from_ ContactList to_ = 0 ∧ cnt db from_ OutgoingList to_ = 0 ∧
      cnt db from_ IncomingList to_ = 0 := by
  simp only [disciplined, Bool.and_eq_true, bne_iff_ne, ne_eq, Bool.not_eq_true',
    occurs_eq_false_iff_cnt] at h
  exact ⟨h.1.1.1, h.1.1.2, h.1.2, h.2⟩

/-- Exclusivity, together with symmetry, survives every disciplined call that
meets no store failure. -/
theorem Exclusive_step (db : DB) (call : Call) (hs : Symmetric db) (hx : Exclusive db)
    (hd : disciplined db call = true)
    (h : storeFailure (call.run db).1 = false) : Exclusive (call.run db).2 := by
  cases call with
  | request from_ to_ =>
    obtain ⟨hne, z1, z2, z3⟩ := disciplined_request hd
    rcases Request_step db from_ to_ with he | ⟨_, hc⟩
    · simp only [Call.run]; rw [he]; exact hx
    · intro a b
      obtain ⟨p1, p2, p3⟩ := hc a b
      simp only [Call.run]
      rw [p1, p2, p3]
      by_cases h1 : a = from_ ∧ b = to_
      · obtain ⟨rfl, rfl⟩ := h1
        have h2 : ¬(a = b ∧ b = a) := fun hh => hne hh.1
        simp only [eq_self_iff_true, and_self, if_true, h2, if_false]
        omega
      · by_cases h2 : a = to_ ∧ b = from_
        · obtain ⟨rfl, rfl⟩ := h2
          obtain ⟨s1, s3⟩ := hs a b
          obtain ⟨t1, _⟩ := hs b a
          simp only [eq_self_iff_true, and_self, if_true, h1, if_false]
          omega
        · rw [if_neg h1, if_neg h2]
          exact hx a b
  | cancel from_ to_ =>
    rcases Cancel_step db from_ to_ with he | ⟨_, hc⟩
    · simp only [Call.run]; rw [he]; exact hx
    · intro a b
      obtain ⟨p1, p2, p3⟩ := hc a b
      have := hx a b
      simp only [Call.run]
      rw [p1, p2, p3]
      omega
  | decide from_ to_ accept store =>
    rcases Decide_step db from_ to_ accept store h with he | ⟨hpos, hc⟩
    · simp only [Call.run]; rw [he]; exact hx
    · intro a b
      obtain ⟨p1, p2, p3⟩ := hc a b
      have hab := hx a b
      simp only [Call.run]
      rw [p1, p2, p3]
      cases accept with
      | false =>
        simp only [Bool.false_eq_true, if_false]
        omega
      | true =>
        simp only [if_true]
        obtain ⟨s1, _⟩ := hs to_ from_
        have hne : from_ ≠ to_ := by
          intro hft
          subst hft
          have := hx from_ from_
          omega
        by_cases h1 : a = from_ ∧ b = to_
        · obtain ⟨rfl, rfl⟩ := h1
          have h2 : ¬(a = b ∧ b = a) := fun hh => hne hh.1
          simp only [eq_self_iff_true, and_self, if_true, h2, if_false]
          omega
        · by_cases h2 : a = to_ ∧ b = from_
          · obtain ⟨rfl, rfl⟩ := h2
            simp only [eq_self_iff_true, and_self, if_true, h1, if_false]
            omega
          · simp only [h1, h2, if_false]
            omega

/-- Symmetry and exclusivity hold after every disciplined run. -/
theorem Exclusive_runDisciplined (calls : List Call) :
    ∀ db0 db : DB, Symmetric db0 → Exclusive db0 → runDisciplined db0 calls = some db →
      Exclusive db := by
  induction calls with
  | nil =>
    intro db0 db _ hx hr
    simp only [runDisciplined, Option.some.injEq] at hr
    rw [← hr]; exact hx
  | cons call rest ih =>
    intro db0 db hs hx hr
    simp only [runDisciplined] at hr
    cases hd : disciplined db0 call with
    | false => simp [hd] at hr
    | true =>
      cases hf : storeFailure (call.run db0).1 with
      | true => simp [hd, hf] at hr
      | false =>
        simp only [hd, hf, Bool.not_false, Bool.and_self, if_true] at hr
        exact ih _ db (Symmetric_step db0 call hs hf) (Exclusive_step db0 call hs hx hd hf) hr

/-! ## The steps of StoreMessage -/

theorem markContacts_fst (list : List User) (userID subline store : String) (found : Bool) :
    (markContacts list userID subline store found).1 = setPreview list userID subline := by
  induction list generalizing store found with
  | nil => rfl
  | cons value rest ih =>
    by_cases h : value.UserID = userID
    · simp only [markContacts, h, if_true, ih]
      simp [setPreview, h]
    · simp only [markContacts, h, if_false, ih]
      simp [setPreview, h]

theorem markContacts_found (list : List User) (userID subline store : String) (found : Bool) :
    (markContacts list userID subline store found).2.2 = (found || hasUser list userID) := by
  induction list generalizing store found with
  | nil => simp [markContacts, hasUser]
  | cons value rest ih =>
    by_cases h : value.UserID = userID
    · simp [markContacts, h, ih, hasUser]
    · have hb : (value.UserID == userID) = false := by simpa using h
      simp [markContacts, h, ih, hasUser, hb]

theorem findContact_found (list : List User) (userID : String) (contact : User) (found : Bool) :
    (findContact list userID contact found).2 = (found || hasUser list userID) := by
  induction list generalizing contact found with
  | nil => simp [findContact, hasUser]
  | cons value rest ih =>
    by_cases h : value.UserID = userID
    · simp [findContact, h, ih, hasUser]
    · have hb : (value.UserID == userID) = false := by simpa using h
      simp [findContact, h, ih, hasUser, hb]

theorem markContacts_store (list : List User) (userID subline store : String) (found : Bool)
    (contact : User) (found2 : Bool) (hs : contact.Store = store) :
    (markContacts list userID subline store found).2.1 =
      (findContact list userID contact found2).1.Store := by
  induction list generalizing store found contact found2 with
  | nil => simp [markContacts, findContact, hs]
  | cons value rest ih =>
    by_cases h : value.UserID = userID
    · simp only [markContacts, findContact, h, if_true]
      exact ih _ _ _ _ rfl
    · simp only [markContacts, findContact, h, if_false]
      exact ih _ _ _ _ hs

/-- The entry that the search loop ends on is one of the list, for `userID`. -/
theorem findContact_mem (list : List User) (userID : String) (contact : User) (found : Bool)
    (h : hasUser list userID = true) :
    (findContact list userID contact found).1 ∈ list ∧
      (findContact list userID contact found).1.UserID = userID := by
  induction list generalizing contact found with
  | nil => simp [hasUser] at h
  | cons value rest ih =>
    by_cases hv : value.UserID = userID
    · simp only [findContact, hv, if_true]
      by_cases hr : hasUser rest userID = true
      · obtain ⟨i1, i2⟩ := ih value true hr
        exact ⟨List.mem_cons_of_mem _ i1, i2⟩
      · have hr2 : hasUser rest userID = false := by simpa using hr
        have : ∀ (l : List User) (c : User) (f : Bool), hasUser l userID = false →
            (findContact l userID c f).1 = c := by
          intro l
          induction l with
          | nil => intro c f _; rfl
          | cons v r ihr =>
            intro c f hl
            have hv2 : ¬ v.UserID = userID := by
              intro hx; simp [hasUser, hx] at hl
            have hr3 : hasUser r userID = false := by
              simp only [hasUser, List.any_cons, Bool.or_eq_false_iff] at hl
              exact hl.2
            simp only [findContact, hv2, if_false]
            exact ihr c f hr3
        rw [this rest value true hr2]
        exact ⟨List.mem_cons_self _ _, hv⟩
    · have hb : (value.UserID == userID) = false := by simpa using hv
      simp only [findContact, hv, if_false]
      have hr : hasUser rest userID = true := by
        simpa [hasUser, hb] using h
      obtain ⟨i1, i2⟩ := ih contact found hr
      exact ⟨List.mem_cons_of_mem _ i1, i2⟩

/-- What can be read after the two writes of StoreMessage: the Contacts list
of `to_` and, unless it is the same one, the Contacts list of `from_` hold the
written values, every other attribute is as before. -/
theorem GetAttribute_contacts (db : DB) (from_ to_ : String) (fv tv : Value)
    (df dt : String → Option Value)
    (hdf : db.attributes from_ = some df) (hdt : db.attributes to_ = some dt)
    (userID key : String) :
    GetAttribute (SetAttribute (SetAttribute db from_ ContactList fv).2 to_ ContactList tv).2
        userID key =
      if userID = to_ ∧ key = ContactList then .ok tv
      else if userID = from_ ∧ key = ContactList then .ok fv
      else GetAttribute db userID key := by
  obtain ⟨dt1, hdt1⟩ := SetAttribute_doc db from_ ContactList fv to_ dt hdt
  rw [GetAttribute_SetAttribute _ _ _ _ dt1 hdt1, GetAttribute_SetAttribute _ _ _ _ df hdf]

/-- StoreMessage, when the three reads succeed: the outcome. -/
theorem StoreMessage_eq (db : DB) (message_type message_data from_ to_ : String) (online : Bool)
    (id : String) (now : Int) (from_user : User) (from_contacts to_contacts : List User)
    (hf : GetInformation db from_ = .ok from_user)
    (hfc : GetUsers db from_ ContactList = .ok from_contacts)
    (htc : GetUsers db to_ ContactList = .ok to_contacts) :
    StoreMessage db message_type message_data from_ to_ online id now =
      if hasUser from_contacts to_ = true ∧ hasUser to_contacts from_ = true then
        if TrimSpace message_data = "" then
          (some .ErrMessageBlank,
            (SetAttribute (SetAttribute db from_ ContactList
              (.users (setPreview from_contacts to_ (from_user.Username ++ ": " ++ message_data)))).2
              to_ ContactList
              (.users (setPreview to_contacts from_ (from_user.Username ++ ": " ++ message_data)))).2)
        else
          InsertOne
            (SetAttribute (SetAttribute db from_ ContactList
              (.users (setPreview from_contacts to_ (from_user.Username ++ ": " ++ message_data)))).2
              to_ ContactList
              (.users (setPreview to_contacts from_ (from_user.Username ++ ": " ++ message_data)))).2
            (storeOf from_contacts to_)
            { ID := id, From := from_, Type_ := message_type, Data := message_data,
              Read := online, Time := now }
      else (some .ErrContactDoesNotExist, db) := by
  obtain ⟨df, hdf⟩ := GetAttribute_ok_doc (GetUsers_ok_iff.1 hfc)
  obtain ⟨dt, hdt⟩ := GetAttribute_ok_doc (GetUsers_ok_iff.1 htc)
  simp only [StoreMessage, hf, hfc, htc, markContacts_fst, markContacts_found, Bool.false_or]
  rw [markContacts_store from_contacts to_ _ "" false
    { UserID := "", Username := "", Message := "", Store := "" } false rfl]
  by_cases h1 : hasUser from_contacts to_ = true
  · by_cases h2 : hasUser to_contacts from_ = true
    · obtain ⟨dt1, hdt1⟩ := SetAttribute_doc db from_ ContactList
        (.users (setPreview from_contacts to_ (from_user.Username ++ ": " ++ message_data)))
        to_ dt hdt
      simp only [h1, h2, Bool.not_true, Bool.false_eq_true, if_false, and_self, if_true]
      rw [SetAttribute_eq db from_ _ _ df hdf]
      simp only
      rw [SetAttribute_eq _ to_ _ _ dt1 hdt1]
      simp only [storeOf]
    · simp [h1, h2]
  · simp [h1]

theorem dropWhile_all_iff (p : Char → Bool) (l : List Char) :
    (∀ x ∈ l.dropWhile p, p x = true) ↔ ∀ x ∈ l, p x = true := by
  induction l with
  | nil => simp
  | cons a rest ih =>
    by_cases ha : p a = true
    · simp [List.dropWhile_cons, ha, ih]
    · simp only [List.dropWhile_cons, ha]
      simp

/-- `TrimSpace` leaves nothing exactly of the payloads that are empty or all
white space. -/
theorem TrimSpace_eq_empty_iff (s : String) : TrimSpace s = "" ↔ isBlank s = true := by
  have h1 : TrimSpace s = "" ↔
      ((s.data.dropWhile isSpace).reverse.dropWhile isSpace).reverse = [] := by
    unfold TrimSpace
    constructor
    · intro h
      have := congrArg String.data h
      simpa using this
    · intro h
      rw [h]
  rw [h1, List.reverse_eq_nil_iff, List.dropWhile_eq_nil_iff]
  simp only [List.mem_reverse, isBlank, List.all_eq_true]
  exact dropWhile_all_iff isSpace s.data

/-- StoreMessage between two users who are in the Contacts list of each other:
outcome and final state. -/
theorem StoreMessage_success (db : DB) (message_type message_data from_ to_ : String)
    (online : Bool) (id : String) (now : Int) (from_user : User)
    (from_contacts to_contacts : List User)
    (hf : GetInformation db from_ = .ok from_user)
    (hfc : GetUsers db from_ ContactList = .ok from_contacts)
    (htc : GetUsers db to_ ContactList = .ok to_contacts)
    (h1 : hasUser from_contacts to_ = true) (h2 : hasUser to_contacts from_ = true) :
    (StoreMessage db message_type message_data from_ to_ online id now).1 =
      (if TrimSpace message_data = "" then some .ErrMessageBlank else none) ∧
    (StoreMessage db message_type message_data from_ to_ online id now).2.accounts = db.accounts ∧
    (∀ s, (StoreMessage db message_type message_data from_ to_ online id now).2.chat s =
      if TrimSpace message_data ≠ "" ∧ s = storeOf from_contacts to_ then
        db.chat s ++
          [{ ID := id, From := from_, Type_ := message_type, Data := message_data,
             Read := online, Time := now }]
      else db.chat s) ∧
    ∀ userID key,
      GetAttribute (StoreMessage db message_type message_data from_ to_ online id now).2
          userID key =
        if userID = to_ ∧ key = ContactList then
          .ok (.users (setPreview to_contacts from_ (from_user.Username ++ ": " ++ message_data)))
        else if userID = from_ ∧ key = ContactList then
          .ok (.users (setPreview from_contacts to_ (from_user.Username ++ ": " ++ message_data)))
        else GetAttribute db userID key := by
  obtain ⟨df, hdf⟩ := GetAttribute_ok_doc (GetUsers_ok_iff.1 hfc)
  obtain ⟨dt, hdt⟩ := GetAttribute_ok_doc (GetUsers_ok_iff.1 htc)
  rw [StoreMessage_eq db message_type message_data from_ to_ online id now from_user
    from_contacts to_contacts hf hfc htc, if_pos ⟨h1, h2⟩]
  by_cases hb : TrimSpace message_data = ""
  · simp only [hb, if_true, ne_eq, not_true_eq_false, false_and, if_false]
    refine ⟨trivial, ?_, ?_, ?_⟩
    · simp [SetAttribute_accounts]
    · intro s; simp [SetAttribute_chat]
    · intro userID key
      exact GetAttribute_contacts db from_ to_ _ _ df dt hdf hdt userID key
  · simp only [hb, if_false, ne_eq, not_false_eq_true, true_and, InsertOne]
    refine ⟨?_, ?_, ?_⟩
    · simp [SetAttribute_accounts]
    · intro s; simp [SetAttribute_chat]
    · intro userID key
      exact GetAttribute_contacts db from_ to_ _ _ df dt hdf hdt userID key

/-! ## The message collections -/

theorem insertNewest_perm (message : Message) (list : List Message) :
    (insertNewest message list).Perm (message :: list) := by
  induction list with
  | nil => exact List.Perm.refl _
  | cons other rest ih =>
    by_cases h : other.Time ≤ message.Time
    · simp [insertNewest, h]
    · simp only [insertNewest, h, if_false]
      exact (List.Perm.cons other ih).trans (List.Perm.swap message other rest)

theorem sortNewest_perm (list : List Message) : (sortNewest list).Perm list := by
  induction list with
  | nil => exact List.Perm.refl _
  | cons message rest ih =>
    exact (insertNewest_perm message (sortNewest rest)).trans (List.Perm.cons message ih)

theorem mem_Find (db : DB) (store : String) (message : Message) :
    message ∈ Find db store ↔ message ∈ db.chat store :=
  (sortNewest_perm (db.chat store)).mem_iff

theorem UniqueIDs_Find (db : DB) (store : String) (h : UniqueIDs (db.chat store)) :
    UniqueIDs (Find db store) :=
  ((sortNewest_perm (db.chat store)).map _).nodup_iff.2 h

/-- In a collection with pairwise different ids, two documents with the same id are one. -/
theorem eq_of_ID_eq {collection : List Message} (h : UniqueIDs collection) {a b : Message}
    (ha : a ∈ collection) (hb : b ∈ collection) (hab : a.ID = b.ID) : a = b :=
  List.inj_on_of_nodup_map h ha hb hab

theorem replaceFirst_eq_map (collection : List Message) (id : String) (message : Message)
    (h : UniqueIDs collection) :
    replaceFirst collection id message =
      collection.map (fun other => if other.ID = id then message else other) := by
  induction collection with
  | nil => rfl
  | cons other rest ih =>
    have hn : UniqueIDs rest := (List.nodup_cons.1 h).2
    have hnot : other.ID ∉ rest.map (fun m => m.ID) := (List.nodup_cons.1 h).1
    by_cases ho : other.ID = id
    · simp only [replaceFirst, ho, if_true, List.map_cons]
      congr 1
      symm
      have : ∀ x ∈ rest, (if x.ID = id then message else x) = x := by
        intro x hx
        have : x.ID ≠ id := by
          intro hxi
          exact hnot (List.mem_map.2 ⟨x, hx, hxi.trans ho.symm⟩)
        simp [this]
      calc rest.map (fun other => if other.ID = id then message else other)
          = rest.map (fun x => x) := List.map_congr_left this
        _ = rest := List.map_id' rest
    · simp only [replaceFirst, ho, if_false, List.map_cons, ih hn]

theorem FindOneAndReplace_eq (db : DB) (store : String) (message new : Message)
    (hu : UniqueIDs (db.chat store)) (hm : message ∈ db.chat store) :
    FindOneAndReplace db store message.ID new =
      (none, { db with
        chat := fun s =>
          if s = store then
            (db.chat store).map (fun other => if other.ID = message.ID then new else other)
          else db.chat s }) := by
  have hany : (db.chat store).any (fun other => other.ID == message.ID) = true := by
    rw [List.any_eq_true]
    exact ⟨message, hm, by simp⟩
  simp only [FindOneAndReplace, hany, if_true]
  congr 2
  funext s
  by_cases hs : s = store
  · subst hs
    simp [replaceFirst_eq_map _ _ _ hu]
  · simp [hs]

/-- The cursor loop of MarkRead on a collection with pairwise different ids,
over documents of that collection: exactly the documents passed before the
stop get marked. -/
theorem markLoop_spec (store to_ : String) :
    ∀ (cursor : List Message) (db : DB),
      UniqueIDs (db.chat store) → UniqueIDs cursor → (∀ m ∈ cursor, m ∈ db.chat store) →
      (markLoop db store to_ cursor).1 = none ∧
      (markLoop db store to_ cursor).2.accounts = db.accounts ∧
      (markLoop db store to_ cursor).2.attributes = db.attributes ∧
      ∀ s, (markLoop db store to_ cursor).2.chat s =
        if s = store then
          (db.chat store).map (fun other =>
            if other.ID ∈ (scanned to_ cursor).map (fun m => m.ID) then marked to_ other
            else other)
        else db.chat s := by
  intro cursor
  induction cursor with
  | nil =>
    intro db _ _ _
    refine ⟨rfl, rfl, rfl, fun s => ?_⟩
    by_cases hs : s = store
    · subst hs; simp [markLoop, scanned]
    · simp [markLoop, hs]
  | cons message rest ih =>
    intro db hu hc hmem
    have hm : message ∈ db.chat store := hmem message (List.mem_cons_self _ _)
    have hcr : UniqueIDs rest := (List.nodup_cons.1 hc).2
    have hnot : message.ID ∉ rest.map (fun m => m.ID) := (List.nodup_cons.1 hc).1
    by_cases hstop : message.From = to_ ∧ message.Read = true
    · -- the loop breaks at once
      refine ⟨by simp [markLoop, hstop.1, hstop.2], by simp [markLoop, hstop.1, hstop.2],
        by simp [markLoop, hstop.1, hstop.2], fun s => ?_⟩
      by_cases hs : s = store
      · subst hs
        simp [markLoop, hstop.1, hstop.2, scanned]
      · simp [markLoop, hstop.1, hstop.2, hs]
    · -- the document is replaced by its marked version and the loop goes on
      have hstep : markLoop db store to_ (message :: rest) =
          markLoop { db with
            chat := fun s =>
              if s = store then
                (db.chat store).map
                  (fun other => if other.ID = message.ID then marked to_ message else other)
              else db.chat s } store to_ rest := by
        by_cases hf : message.From = to_
        · have hr : message.Read = false := by
            cases hread : message.Read with
            | false => rfl
            | true => exact absurd ⟨hf, hread⟩ hstop
          simp only [markLoop, hf, hr, if_true, Bool.false_eq_true, if_false]
          rw [FindOneAndReplace_eq db store message _ hu hm]
          simp [marked, hf]
        · simp only [markLoop, hf, if_false]
          rw [FindOneAndReplace_eq db store message _ hu hm]
          simp [marked, hf]
      have hscan : scanned to_ (message :: rest) = message :: scanned to_ rest := by
        have : (!(message.From == to_ && message.Read)) = true := by
          by_cases hf : message.From = to_
          · have hr : message.Read = false := by
              cases hread : message.Read with
              | false => rfl
              | true => exact absurd ⟨hf, hread⟩ hstop
            simp [hr]
          · simp [hf]
        simp only [scanned, List.takeWhile_cons, this, if_true]
      have hID : (marked to_ message).ID = message.ID := by
        unfold marked; split <;> rfl
      -- the state after the replacement
      have hchat1 : ∀ x, (if x.ID = message.ID then marked to_ message else x).ID = x.ID := by
        intro x; by_cases hx : x.ID = message.ID
        · simp [hx, hID]
        · simp [hx]
      have hu1 : UniqueIDs ((db.chat store).map
          (fun other => if other.ID = message.ID then marked to_ message else other)) := by
        unfold UniqueIDs
        rw [List.map_map]
        have : ((fun m : Message => m.ID) ∘
            (fun other => if other.ID = message.ID then marked to_ message else other)) =
            (fun m : Message => m.ID) := by
          funext x; exact hchat1 x
        rw [this]; exact hu
      have hmem1 : ∀ m ∈ rest, m ∈ (db.chat store).map
          (fun other => if other.ID = message.ID then marked to_ message else other) := by
        intro m hmr
        have hne : m.ID ≠ message.ID := by
          intro h; exact hnot (List.mem_map.2 ⟨m, hmr, h⟩)
        exact List.mem_map.2 ⟨m, hmem m (List.mem_cons_of_mem _ hmr), by simp [hne]⟩
      obtain ⟨i1, i2, i3, i4⟩ := ih
        { db with
          chat := fun s =>
            if s = store then
              (db.chat store).map
                (fun other => if other.ID = message.ID then marked to_ message else other)
            else db.chat s }
        (by simpa using hu1) hcr (by simpa using hmem1)
      rw [hstep]
      refine ⟨i1, i2, i3, fun s => ?_⟩
      rw [i4 s]
      by_cases hs : s = store
      · subst hs
        simp only [if_true, hscan, List.map_map, List.map_cons, List.mem_cons]
        apply List.map_congr_left
        intro x hx
        simp only [Function.comp]
        by_cases hxm : x.ID = message.ID
        · have hxe : x = message := eq_of_ID_eq hu hx hm hxm
          subst hxe
          simp only [if_true, true_or, hID]
          have : marked to_ (marked to_ x) = marked to_ x := by
            unfold marked
            by_cases hf : x.From = to_ <;> simp [hf]
          split
          · exact this
          · rfl
        · simp [hxm]
      · simp [hs]

theorem scanned_sublist (to_ : String) (cursor : List Message) :
    (scanned to_ cursor).Sublist cursor :=
  List.takeWhile_sublist _

/-- MarkRead when `to_` is in the Contacts list of `from_` and the ids in the
message store of the pair are pairwise different: outcome and final state. -/
theorem MarkRead_success (db : DB) (from_ to_ : String) (contacts : List User)
    (hc : GetUsers db from_ ContactList = .ok contacts)
    (h : hasUser contacts to_ = true)
    (hu : UniqueIDs (db.chat (storeOf contacts to_))) :
    (MarkRead db from_ to_).1 = none ∧
    (MarkRead db from_ to_).2.accounts = db.accounts ∧
    (MarkRead db from_ to_).2.attributes = db.attributes ∧
    ∀ s, (MarkRead db from_ to_).2.chat s =
      if s = storeOf contacts to_ then
        (db.chat s).map (fun message =>
          if message.From = to_ ∧ message ∈ scanned to_ (Find db (storeOf contacts to_)) then
            { message with Read := true }
          else message)
      else db.chat s := by
  have hfound : (findContact contacts to_
      { UserID := "", Username := "", Message := "", Store := "" } false).2 = true := by
    rw [findContact_found]; simp [h]
  have hrun : MarkRead db from_ to_ =
      markLoop db (storeOf contacts to_) to_ (Find db (storeOf contacts to_)) := by
    simp only [MarkRead, hc, hfound, Bool.not_true, Bool.false_eq_true, if_false, storeOf]
  obtain ⟨m1, m2, m3, m4⟩ := markLoop_spec (storeOf contacts to_) to_
    (Find db (storeOf contacts to_)) db hu (UniqueIDs_Find db _ hu)
    (fun m hm => (mem_Find db _ m).1 hm)
  rw [hrun]
  refine ⟨m1, m2, m3, fun s => ?_⟩
  rw [m4 s]
  by_cases hs : s = storeOf contacts to_
  · subst hs
    simp only [if_true]
    apply List.map_congr_left
    intro x hx
    have hiff : x.ID ∈ (scanned to_ (Find db (storeOf contacts to_))).map (fun m => m.ID) ↔
        x ∈ scanned to_ (Find db (storeOf contacts to_)) := by
      constructor
      · intro hid
        obtain ⟨y, hy, hyx⟩ := List.mem_map.1 hid
        have hyc : y ∈ db.chat (storeOf contacts to_) :=
          (mem_Find db _ y).1 ((scanned_sublist to_ _).subset hy)
        have : y = x := eq_of_ID_eq hu hyc hx hyx
        rw [← this]; exact hy
      · intro hxs
        exact List.mem_map.2 ⟨x, hxs, rfl⟩
    by_cases hf : x.From = to_
    · by_cases hin : x ∈ scanned to_ (Find db (storeOf contacts to_))
      · simp [hiff, hin, marked, hf]
      · simp [hiff, hin]
    · by_cases hin : x ∈ scanned to_ (Find db (storeOf contacts to_))
      · simp [hiff, hin, marked, hf]
      · simp [hiff, hin]
  · simp [hs]

theorem FindOneAndReplace_frame (db : DB) (store id : String) (message : Message) :
    (FindOneAndReplace db store id message).2.accounts = db.accounts ∧
    (FindOneAndReplace db store id message).2.attributes = db.attributes := by
  unfold FindOneAndReplace
  split <;> exact ⟨rfl, rfl⟩

/-- The cursor loop of MarkRead never touches the accounts or the attributes. -/
theorem markLoop_frame (store to_ : String) :
    ∀ (cursor : List Message) (db : DB),
      (markLoop db store to_ cursor).2.accounts = db.accounts ∧
      (markLoop db store to_ cursor).2.attributes = db.attributes := by
  intro cursor
  induction cursor with
  | nil => intro db; exact ⟨rfl, rfl⟩
  | cons message rest ih =>
    intro db
    have key : ∀ new : Message,
        (match FindOneAndReplace db store message.ID new with
          | (some e, db1) => ((some e, db1) : Option Err × DB)
          | (none, db1) => markLoop db1 store to_ rest).2.accounts = db.accounts ∧
        (match FindOneAndReplace db store message.ID new with
          | (some e, db1) => ((some e, db1) : Option Err × DB)
          | (none, db1) => markLoop db1 store to_ rest).2.attributes = db.attributes := by
      intro new
      have hfr := FindOneAndReplace_frame db store message.ID new
      rcases hres : FindOneAndReplace db store message.ID new with ⟨_ | e, db1⟩
      · rw [hres] at hfr
        simp only
        exact ⟨(ih db1).1.trans hfr.1, (ih db1).2.trans hfr.2⟩
      · rw [hres] at hfr
        exact hfr
    by_cases hf : message.From = to_
    · by_cases hr : message.Read = true
      · simp [markLoop, hf, hr]
      · simp only [markLoop, hf, hr, if_true, Bool.false_eq_true, if_false]
        exact key _
    · simp only [markLoop, hf, if_false]
      exact key _

/-- MarkRead never touches the accounts or the attributes, whatever its outcome. -/
theorem MarkRead_frame (db : DB) (from_ to_ : String) :
    (MarkRead db from_ to_).2.accounts = db.accounts ∧
    (MarkRead db from_ to_).2.attributes = db.attributes := by
  unfold MarkRead
  cases hc : GetUsers db from_ ContactList with
  | error e => exact ⟨rfl, rfl⟩
  | ok contacts =>
    simp only
    split
    · exact ⟨rfl, rfl⟩
    · exact markLoop_frame _ _ _ _

theorem replaceFirst_IDs (collection : List Message) (id : String) (new : Message)
    (h : new.ID = id) :
    (replaceFirst collection id new).map (fun m => m.ID) = collection.map (fun m => m.ID) := by
  induction collection with
  | nil => rfl
  | cons other rest ih =>
    by_cases ho : other.ID = id
    · simp [replaceFirst, ho, h]
    · simp [replaceFirst, ho, ih]

theorem FindOneAndReplace_IDs (db : DB) (store : String) (message new : Message)
    (hn : new.ID = message.ID)
    (hm : message.ID ∈ (db.chat store).map (fun m => m.ID)) :
    (FindOneAndReplace db store message.ID new).1 = none ∧
    ((FindOneAndReplace db store message.ID new).2.chat store).map (fun m => m.ID) =
      (db.chat store).map (fun m => m.ID) := by
  have hany : (db.chat store).any (fun other => other.ID == message.ID) = true := by
    rw [List.any_eq_true]
    obtain ⟨y, hy, hyx⟩ := List.mem_map.1 hm
    exact ⟨y, hy, by simpa using hyx⟩
  simp only [FindOneAndReplace, hany, if_true, replaceFirst_IDs _ _ _ hn, and_self]

/-- The cursor loop of MarkRead over documents whose ids are in the collection
reports no error and keeps the ids of the collection, in order. -/
theorem markLoop_IDs (store to_ : String) :
    ∀ (cursor : List Message) (db : DB),
      (∀ m ∈ cursor, m.ID ∈ (db.chat store).map (fun m => m.ID)) →
      (markLoop db store to_ cursor).1 = none ∧
      ((markLoop db store to_ cursor).2.chat store).map (fun m => m.ID) =
        (db.chat store).map (fun m => m.ID) := by
  intro cursor
  induction cursor with
  | nil => intro db _; exact ⟨rfl, rfl⟩
  | cons message rest ih =>
    intro db hmem
    have hm := hmem message (List.mem_cons_self _ _)
    have key : ∀ new : Message, new.ID = message.ID →
        (match FindOneAndReplace db store message.ID new with
          | (some e, db1) => ((some e, db1) : Option Err × DB)
          | (none, db1) => markLoop db1 store to_ rest).1 = none ∧
        ((match FindOneAndReplace db store message.ID new with
          | (some e, db1) => ((some e, db1) : Option Err × DB)
          | (none, db1) => markLoop db1 store to_ rest).2.chat store).map
            (fun m : Message => m.ID) =
          (db.chat store).map (fun m => m.ID) := by
      intro new hn
      obtain ⟨f1, f2⟩ := FindOneAndReplace_IDs db store message new hn hm
      rcases hres : FindOneAndReplace db store message.ID new with ⟨_ | e, db1⟩
      · rw [hres] at f2
        simp only at f2 ⊢
        have hmem1 : ∀ m ∈ rest, m.ID ∈ (db1.chat store).map (fun m => m.ID) := by
          intro m hmr
          rw [f2]; exact hmem m (List.mem_cons_of_mem _ hmr)
        obtain ⟨i1, i2⟩ := ih db1 hmem1
        exact ⟨i1, i2.trans f2⟩
      · rw [hres] at f1
        cases f1
    by_cases hf : message.From = to_
    · by_cases hr : message.Read = true
      · simp [markLoop, hf, hr]
      · simp only [markLoop, hf, hr, if_true, Bool.false_eq_true, if_false]
        exact key _ rfl
    · simp only [markLoop, hf, if_false]
      exact key _ rfl

/-- MarkRead for a contact reports no error and keeps the number of messages
in the store of the pair. -/
theorem MarkRead_length (db : DB) (from_ to_ : String) (contacts : List User)
    (hc : GetUsers db from_ ContactList = .ok contacts)
    (h : hasUser contacts to_ = true) :
    (MarkRead db from_ to_).1 = none ∧
    ((MarkRead db from_ to_).2.chat (storeOf contacts to_)).length =
      (db.chat (storeOf contacts to_)).length := by
  have hfound : (findContact contacts to_
      { UserID := "", Username := "", Message := "", Store := "" } false).2 = true := by
    rw [findContact_found]; simp [h]
  have hrun : MarkRead db from_ to_ =
      markLoop db (storeOf contacts to_) to_ (Find db (storeOf contacts to_)) := by
    simp only [MarkRead, hc, hfound, Bool.not_true, Bool.false_eq_true, if_false, storeOf]
  obtain ⟨i1, i2⟩ := markLoop_IDs (storeOf contacts to_) to_ (Find db (storeOf contacts to_)) db
    (fun m hm => List.mem_map.2 ⟨m, (mem_Find db _ m).1 hm, rfl⟩)
  rw [hrun]
  refine ⟨i1, ?_⟩
  have := congrArg List.length i2
  simpa using this

theorem loadLoop_length_le :
    ∀ (cursor : List Message) (i since : Int) (messages : List Message),
      (loadLoop cursor i since messages).length ≤ messages.length + cursor.length := by
  intro cursor
  induction cursor with
  | nil => intro i since messages; simp [loadLoop]
  | cons message rest ih =>
    intro i since messages
    by_cases hi : i ≤ wrapInt (since + MaxResults)
    · simp only [loadLoop, hi, if_true]
      have := ih (wrapInt (i + 1)) since (messages ++ [message])
      simp only [List.length_append, List.length_cons, List.length_nil] at this ⊢
      omega
    · simp only [loadLoop, hi, if_false, List.length_cons]
      omega

theorem Find_length (db : DB) (store : String) :
    (Find db store).length = (db.chat store).length :=
  (sortNewest_perm (db.chat store)).length_eq

/-- LoadMessages for a contact: the outcome in terms of the state that MarkRead leaves. -/
theorem LoadMessages_eq (db : DB) (from_ to_ : String) (since : Int) (contacts : List User)
    (hc : GetUsers db from_ ContactList = .ok contacts)
    (h : hasUser contacts to_ = true) :
    LoadMessages db from_ to_ since =
      if 0 ≤ since ∧
          since ≤ (loadLoop (Find (MarkRead db from_ to_).2 (storeOf contacts to_)) 0 since
            []).length then
        (.messages ((loadLoop (Find (MarkRead db from_ to_).2 (storeOf contacts to_)) 0 since
          []).drop since.toNat), (MarkRead db from_ to_).2)
      else (.panicked, (MarkRead db from_ to_).2) := by
  have hfound : (findContact contacts to_
      { UserID := "", Username := "", Message := "", Store := "" } false).2 = true := by
    rw [findContact_found]; simp [h]
  have hm : MarkRead db from_ to_ = (none, (MarkRead db from_ to_).2) := by
    rw [← (MarkRead_length db from_ to_ contacts hc h).1]
  simp only [LoadMessages, hc, hfound, Bool.not_true, Bool.false_eq_true, if_false]
  rw [hm]
  simp only [storeOf]

/-- LoadMessages never touches the accounts or the attributes, whatever its outcome. -/
theorem LoadMessages_frame (db : DB) (from_ to_ : String) (since : Int) :
    (LoadMessages db from_ to_ since).2.accounts = db.accounts ∧
    (LoadMessages db from_ to_ since).2.attributes = db.attributes := by
  have hfr := MarkRead_frame db from_ to_
  unfold LoadMessages
  cases hc : GetUsers db from_ ContactList with
  | error e => exact ⟨rfl, rfl⟩
  | ok contacts =>
    simp only
    split
    · exact ⟨rfl, rfl⟩
    · rcases hres : MarkRead db from_ to_ with ⟨_ | e, db1⟩
      · rw [hres] at hfr
        simp only
        split <;> exact hfr
      · rw [hres] at hfr
        exact hfr

/-! ## Contacts lists under every call -/

theorem users_of_attributes {db db2 : DB} (h : db2.attributes = db.attributes)
    (userID key : String) : users db2 userID key = users db userID key := by
  simp [users, GetUsers, GetAttribute, h]

theorem Request_contacts (db : DB) (from_ to_ userID : String) :
    users (Request db from_ to_).2 userID ContactList = users db userID ContactList := by
  rcases Request_cases db from_ to_ with ⟨e, he⟩ | ⟨outgoing, incoming, fu, tu, ho, hi, hf, ht, hn⟩
  · rw [he]
  · obtain ⟨_, _, _, h4⟩ := Request_success db from_ to_ outgoing incoming fu tu ho hi hf ht hn
    apply users_congr
    rw [h4]
    simp [ContactList_ne_OutgoingList, ContactList_ne_IncomingList]

theorem Cancel_contacts (db : DB) (from_ to_ userID : String) :
    users (Cancel db from_ to_).2 userID ContactList = users db userID ContactList := by
  rcases Cancel_cases db from_ to_ with ⟨e, he⟩ | ⟨outgoing, incoming, ho, hi, hh⟩
  · rw [he]
  · obtain ⟨_, _, _, h4⟩ := Cancel_success db from_ to_ outgoing incoming ho hi hh
    apply users_congr
    rw [h4]
    simp [ContactList_ne_OutgoingList, ContactList_ne_IncomingList]

/-- A StoreMessage either stops before its first write, leaving the state
alone, or has read the public info and both Contacts lists and found each
user in the list of the other. -/
theorem StoreMessage_cases (db : DB) (message_type message_data from_ to_ : String)
    (online : Bool) (id : String) (now : Int) :
    (∃ e, StoreMessage db message_type message_data from_ to_ online id now = (some e, db)) ∨
    ∃ from_user from_contacts to_contacts,
      GetInformation db from_ = .ok from_user ∧
      GetUsers db from_ ContactList = .ok from_contacts ∧
      GetUsers db to_ ContactList = .ok to_contacts ∧
      hasUser from_contacts to_ = true ∧ hasUser to_contacts from_ = true := by
  cases hf : GetInformation db from_ with
  | error e => left; exact ⟨e, by simp [StoreMessage, hf]⟩
  | ok from_user =>
    cases hfc : GetUsers db from_ ContactList with
    | error e => left; exact ⟨e, by simp [StoreMessage, hf, hfc]⟩
    | ok from_contacts =>
      cases htc : GetUsers db to_ ContactList with
      | error e => left; exact ⟨e, by simp [StoreMessage, hf, hfc, htc]⟩
      | ok to_contacts =>
        by_cases h : hasUser from_contacts to_ = true ∧ hasUser to_contacts from_ = true
        · exact Or.inr ⟨from_user, from_contacts, to_contacts, rfl, rfl, rfl, h.1, h.2⟩
        · left
          refine ⟨.ErrContactDoesNotExist, ?_⟩
          rw [StoreMessage_eq db message_type message_data from_ to_ online id now from_user
            from_contacts to_contacts hf hfc htc, if_neg h]

theorem setPreview_same (list : List User) (userID subline : String) :
    List.Forall₂ (fun old new => new.UserID = old.UserID ∧ new.Store = old.Store ∧
      new.Username = old.Username) list (setPreview list userID subline) := by
  unfold setPreview
  rw [List.forall₂_map_right_iff, List.forall₂_same]
  intro x _
  by_cases h : x.UserID = userID <;> simp [h]

theorem StoreMessage_contacts (db : DB) (message_type message_data from_ to_ : String)
    (online : Bool) (id : String) (now : Int) (userID : String) :
    List.Forall₂ (fun old new => new.UserID = old.UserID ∧ new.Store = old.Store ∧
      new.Username = old.Username) (users db userID ContactList)
      (users (StoreMessage db message_type message_data from_ to_ online id now).2 userID
        ContactList) := by
  have hrefl : ∀ l : List User, List.Forall₂ (fun old new => new.UserID = old.UserID ∧
      new.Store = old.Store ∧ new.Username = old.Username) l l := by
    intro l; rw [List.forall₂_same]; intro x _; exact ⟨rfl, rfl, rfl⟩
  rcases StoreMessage_cases db message_type message_data from_ to_ online id now with
    ⟨e, he⟩ | ⟨fu, fc, tc, hf, hfc, htc, h1, h2⟩
  · rw [he]; exact hrefl _
  · obtain ⟨_, _, _, h4⟩ := StoreMessage_success db message_type message_data from_ to_ online
      id now fu fc tc hf hfc htc h1 h2
    by_cases hut : userID = to_
    · have g := h4 userID ContactList
      rw [if_pos ⟨hut, rfl⟩] at g
      rw [users_of_get g, hut, users_of_get (GetUsers_ok_iff.1 htc)]
      exact setPreview_same _ _ _
    · by_cases huf : userID = from_
      · have g := h4 userID ContactList
        rw [if_neg (fun h => hut h.1), if_pos ⟨huf, rfl⟩] at g
        rw [users_of_get g, huf, users_of_get (GetUsers_ok_iff.1 hfc)]
        exact setPreview_same _ _ _
      · have g := h4 userID ContactList
        rw [if_neg (fun h => hut h.1), if_neg (fun h => huf h.1)] at g
        rw [users_congr g]
        exact hrefl _

theorem Extends_refl (db : DB) : Extends db db :=
  fun _ => ⟨[], by simp⟩

theorem Extends_trans {db db2 db3 : DB} (h1 : Extends db db2) (h2 : Extends db2 db3) :
    Extends db db3 := by
  intro userID
  obtain ⟨a, ha⟩ := h1 userID
  obtain ⟨b, hb⟩ := h2 userID
  exact ⟨a ++ b, by rw [hb, ha, List.append_assoc]⟩

theorem Extends_of_eq {db db2 : DB}
    (h : ∀ userID, users db2 userID ContactList = users db userID ContactList) :
    Extends db db2 :=
  fun userID => ⟨[], by simp [h userID]⟩

/-- Writing back a Contacts list that was just read, with entries added at the end. -/
theorem Extends_SetAttribute (db : DB) (userID : String) (list added : List User)
    (h : GetUsers db userID ContactList = .ok list) :
    SetAttribute db userID ContactList (.users (list ++ added)) =
      (none, (SetAttribute db userID ContactList (.users (list ++ added))).2) ∧
    Extends db (SetAttribute db userID ContactList (.users (list ++ added))).2 := by
  obtain ⟨doc, hdoc⟩ := GetAttribute_ok_doc (GetUsers_ok_iff.1 h)
  refine ⟨SetAttribute_eq db userID _ _ doc hdoc, fun u => ?_⟩
  by_cases hu : u = userID
  · refine ⟨added, ?_⟩
    have g : GetAttribute (SetAttribute db userID ContactList (.users (list ++ added))).2 u
        ContactList = .ok (.users (list ++ added)) := by
      rw [GetAttribute_SetAttribute _ _ _ _ doc hdoc]; simp [hu]
    rw [users_of_get g, hu, users_of_get (GetUsers_ok_iff.1 h)]
  · refine ⟨[], ?_⟩
    have g : GetAttribute (SetAttribute db userID ContactList (.users (list ++ added))).2 u
        ContactList = GetAttribute db u ContactList := by
      rw [GetAttribute_SetAttribute _ _ _ _ doc hdoc]; simp [hu]
    rw [users_congr g]; simp

/-- Decide, whatever its outcome, only adds entries at the end of Contacts lists. -/
theorem Decide_extends (db : DB) (from_ to_ : String) (accept : Bool) (store : String) :
    Extends db (Decide db from_ to_ accept store).2 := by
  have hC : Extends db (Cancel db to_ from_).2 :=
    Extends_of_eq (fun u => Cancel_contacts db to_ from_ u)
  unfold Decide
  rcases hres : Cancel db to_ from_ with ⟨_ | e, db1⟩
  · rw [hres] at hC
    simp only at hC ⊢
    cases accept with
    | false => simpa using hC
    | true =>
      simp only [if_true]
      cases hfc : GetUsers db1 from_ ContactList with
      | error e => exact hC
      | ok from_contacts =>
        simp only
        cases ht : GetInformation db1 to_ with
        | error e => exact hC
        | ok to_user =>
          simp only
          obtain ⟨w1, x1⟩ := Extends_SetAttribute db1 from_ from_contacts
            [{ to_user with Store := store }] hfc
          rw [w1]
          simp only
          have hC2 := Extends_trans hC x1
          cases htc : GetUsers (SetAttribute db1 from_ ContactList
              (.users (from_contacts ++ [{ to_user with Store := store }]))).2 to_
              ContactList with
          | error e => exact hC2
          | ok to_contacts =>
            simp only
            cases hf : GetInformation (SetAttribute db1 from_ ContactList
                (.users (from_contacts ++ [{ to_user with Store := store }]))).2 from_ with
            | error e => exact hC2
            | ok from_user =>
              simp only
              obtain ⟨w2, x2⟩ := Extends_SetAttribute _ to_ to_contacts
                [{ from_user with Store := store }] htc
              rw [w2]
              exact Extends_trans hC2 x2
  · rw [hres] at hC
    exact hC

theorem dropWhile_head_false {p : Message → Bool} {list rest : List Message} {stop : Message}
    (h : list.dropWhile p = stop :: rest) : p stop = false := by
  induction list with
  | nil => cases h
  | cons x xs ih =>
    by_cases hx : p x = true
    · rw [List.dropWhile_cons, if_pos hx] at h
      exact ih h
    · rw [List.dropWhile_cons, if_neg hx] at h
      have : x = stop := (List.cons.inj h).1
      rw [← this]
      simpa using hx

/-! ## The window of LoadMessages -/

theorem wrapInt_eq (x : Int) (h1 : -(2 ^ 63) ≤ x) (h2 : x < 2 ^ 63) : wrapInt x = x := by
  unfold wrapInt
  norm_num at h1 h2 ⊢
  omega

/-- The cursor loop of LoadMessages, as long as `since + MaxResults` stays in
the range of `int`: it collects the documents up to index `since + MaxResults`. -/
theorem loadLoop_eq_take (since : Int) (h0 : 0 ≤ since) (hs : since + 50 < 2 ^ 63) :
    ∀ (cursor : List Message) (i : Nat) (messages : List Message), (i : Int) ≤ since + 50 →
      loadLoop cursor i since messages = messages ++ cursor.take ((since + 50).toNat - i) := by
  have hb : wrapInt (since + MaxResults) = since + 49 := by
    rw [wrapInt_eq]
    · simp only [MaxResults]
    · simp only [MaxResults]; norm_num at hs ⊢; omega
    · simp only [MaxResults]; norm_num at hs ⊢; omega
  intro cursor
  induction cursor with
  | nil => intro i messages _; simp [loadLoop]
  | cons message rest ih =>
    intro i messages hi
    by_cases hle : (i : Int) ≤ since + 49
    · have hw : wrapInt ((i : Int) + 1) = ((i + 1 : Nat) : Int) := by
        rw [wrapInt_eq]
        · push_cast; rfl
        · norm_num; omega
        · norm_num at hs ⊢; omega
      have hle2 : (i : Int) ≤ wrapInt (since + MaxResults) := by rw [hb]; exact hle
      simp only [loadLoop, hle2, if_true]
      rw [hw, ih (i + 1) (messages ++ [message]) (by push_cast; omega)]
      have hk : (since + 50).toNat - i = ((since + 50).toNat - (i + 1)) + 1 := by omega
      rw [hk, List.take_succ_cons]
      simp
    · have hle2 : ¬ (i : Int) ≤ wrapInt (since + MaxResults) := by rw [hb]; exact hle
      simp only [loadLoop, hle2, if_false]
      have hk : (since + 50).toNat - i = 0 := by omega
      rw [hk]; simp

theorem insertNewest_sorted (message : Message) (list : List Message)
    (h : list.Pairwise (fun newer older => older.Time ≤ newer.Time)) :
    (insertNewest message list).Pairwise (fun newer older => older.Time ≤ newer.Time) := by
  induction list with
  | nil => simp [insertNewest]
  | cons other rest ih =>
    have hr := (List.pairwise_cons.1 h).2
    have ho := (List.pairwise_cons.1 h).1
    by_cases hle : other.Time ≤ message.Time
    · simp only [insertNewest, hle, if_true]
      refine List.pairwise_cons.2 ⟨?_, h⟩
      intro x hx
      rcases List.mem_cons.1 hx with rfl | hx2
      · exact hle
      · exact le_trans (ho x hx2) hle
    · simp only [insertNewest, hle, if_false]
      refine List.pairwise_cons.2 ⟨?_, ih hr⟩
      intro x hx
      rcases List.mem_cons.1 ((insertNewest_perm message rest).subset hx) with rfl | hx2
      · exact le_of_lt (lt_of_not_le hle)
      · exact ho x hx2

/-- The cursor of `Find` yields the documents newest first. -/
theorem sortNewest_sorted (list : List Message) :
    (sortNewest list).Pairwise (fun newer older => older.Time ≤ newer.Time) := by
  induction list with
  | nil => exact List.Pairwise.nil
  | cons message rest ih => exact insertNewest_sorted message _ ih

/-! ## Dispatch over the registered handlers -/

theorem rangeMethods_absent (socket : Nat) (userID : String) (packet : IncomingMessage)
    (st : Handling) :
    ∀ methods : List (String × SocketHandler), (∀ entry ∈ methods, entry.1 ≠ packet.Head) →
      rangeMethods socket userID packet st methods = (.receiving, st) := by
  intro methods
  induction methods with
  | nil => intro _; rfl
  | cons entry rest ih =>
    intro h
    obtain ⟨head, handler⟩ := entry
    have h1 : head ≠ packet.Head := h (head, handler) (List.mem_cons_self _ _)
    have h2 := ih (fun e he => h e (List.mem_cons_of_mem _ he))
    simp only [rangeMethods, if_neg h1, h2]

theorem rangeMethods_found (socket : Nat) (userID : String) (packet : IncomingMessage)
    (st : Handling) (handler : SocketHandler) :
    ∀ methods : List (String × SocketHandler), (methods.map Prod.fst).Nodup →
      (packet.Head, handler) ∈ methods →
      rangeMethods socket userID packet st methods =
        rangeMethods socket userID packet st [(packet.Head, handler)] := by
  intro methods
  induction methods with
  | nil => intro _ h; cases h
  | cons entry rest ih =>
    intro hn hm
    obtain ⟨head, other⟩ := entry
    rw [List.map_cons, List.nodup_cons] at hn
    rcases List.mem_cons.mp hm with heq | hrest
    · have h1 : packet.Head = head := congrArg Prod.fst heq
      have h2 : handler = other := congrArg Prod.snd heq
      subst h1 h2
      simp only [rangeMethods, if_true]
    · have h1 : head ≠ packet.Head := by
        intro h
        apply hn.1
        rw [h]
        exact List.mem_map.mpr ⟨(packet.Head, handler), hrest, rfl⟩
      have h2 := ih hn.2 hrest
      simp only [rangeMethods, if_neg h1] at h2 ⊢
      exact h2

/-! ## Request -/

/-- C2. Request success postcondition: for existing users `from_` and `to_`
(account, about text, outgoing list of `from_` and incoming list of `to_`
present) with `to_` not in the outgoing list of `from_`, `Request` returns no
error; afterwards the outgoing list of `from_` is the old one with the public
info of `to_` (UserID, Username, about text, empty Store) appended at the end,
the incoming list of `to_` is the old one with the public info of `from_`
appended at the end, and every other attribute of every user, the accounts and
the message stores are unchanged. -/
theorem Request_postcondition (db : DB) (from_ to_ : String) (outgoing incoming : List User)
    (from_name to_name from_about to_about : String)
    (hfa : db.accounts from_ = some from_name) (hta : db.accounts to_ = some to_name)
    (hfb : GetString db from_ About = .ok from_about)
    (htb : GetString db to_ About = .ok to_about)
    (ho : GetUsers db from_ OutgoingList = .ok outgoing)
    (hi : GetUsers db to_ IncomingList = .ok incoming)
    (hn : hasUser outgoing to_ = false) :
    (Request db from_ to_).1 = none ∧
    GetUsers (Request db from_ to_).2 from_ OutgoingList =
      .ok (outgoing ++ [{ UserID := to_, Username := to_name, Message := to_about, Store := "" }]) ∧
    GetUsers (Request db from_ to_).2 to_ IncomingList =
      .ok (incoming ++
        [{ UserID := from_, Username := from_name, Message := from_about, Store := "" }]) ∧
    (∀ userID key, ¬(userID = from_ ∧ key = OutgoingList) → ¬(userID = to_ ∧ key = IncomingList) →
      GetAttribute (Request db from_ to_).2 userID key = GetAttribute db userID key) ∧
    (Request db from_ to_).2.accounts = db.accounts ∧
    (Request db from_ to_).2.chat = db.chat := by
  obtain ⟨h1, h2, h3, h4⟩ := Request_success db from_ to_ outgoing incoming _ _ ho hi
    (GetInformation_eq hfa hfb) (GetInformation_eq hta htb) hn
  refine ⟨h1, ?_, ?_, ?_, h2, h3⟩
  · rw [GetUsers_ok_iff, h4]; simp
  · rw [GetUsers_ok_iff, h4]; simp [IncomingList_ne_OutgoingList]
  · intro userID key hx hy
    rw [h4, if_neg hx, if_neg hy]

/-- C2 at alice and bob, freshly registered. -/
theorem Request_postcondition_witness :
    (Request freshDB "alice" "bob").1 = none ∧
    GetUsers (Request freshDB "alice" "bob").2 "alice" OutgoingList = .ok ([] ++ [bobInfo]) ∧
    GetUsers (Request freshDB "alice" "bob").2 "bob" IncomingList = .ok ([] ++ [aliceInfo]) ∧
    (∀ userID key, ¬(userID = "alice" ∧ key = OutgoingList) →
      ¬(userID = "bob" ∧ key = IncomingList) →
      GetAttribute (Request freshDB "alice" "bob").2 userID key = GetAttribute freshDB userID key) ∧
    (Request freshDB "alice" "bob").2.accounts = freshDB.accounts ∧
    (Request freshDB "alice" "bob").2.chat = freshDB.chat :=
  Request_postcondition freshDB "alice" "bob" [] [] "Alice" "Bob"
    "Hello! I am a new user on kevlar!" "Hello! I am a new user on kevlar!"
    rfl rfl rfl rfl rfl rfl rfl

/-- C3. A duplicate request is rejected atomically: if `to_` already occurs in
the outgoing list of `from_`, `Request` returns `ErrRequestSent` and the
database it leaves is the one it was given. -/
theorem Request_duplicate (db : DB) (from_ to_ : String)
    (h : occurs db from_ OutgoingList to_ = true) :
    Request db from_ to_ = (some .ErrRequestSent, db) := by
  obtain ⟨outgoing, ho, hin⟩ := users_eq_of_occurs h
  simp [Request, ho, hin]

/-- C3 at alice and bob: the first request from empty lists succeeds, the
second one fails with `ErrRequestSent` and leaves the state of the first. -/
theorem Request_duplicate_witness :
    (Request freshDB "alice" "bob").1 = none ∧
    occurs (Request freshDB "alice" "bob").2 "alice" OutgoingList "bob" = true ∧
    Request (Request freshDB "alice" "bob").2 "alice" "bob" =
      (some .ErrRequestSent, (Request freshDB "alice" "bob").2) :=
  ⟨by decide, by decide, Request_duplicate _ "alice" "bob" (by decide)⟩

/-! ## Cancel -/

/-- C4. Cancel success postcondition: when `to_` occurs in the outgoing list of
`from_` and `from_` occurs in the incoming list of `to_`, `Cancel` returns no
error; afterwards the outgoing list of `from_` is the old one without its first
entry whose UserID is `to_`, the incoming list of `to_` is the old one without
its first entry whose UserID is `from_` (the other entries keep their order),
and every other attribute of every user, the accounts and the message stores
are unchanged. -/
theorem Cancel_postcondition (db : DB) (from_ to_ : String) (outgoing incoming : List User)
    (ho : GetUsers db from_ OutgoingList = .ok outgoing)
    (hi : GetUsers db to_ IncomingList = .ok incoming)
    (h1 : hasUser outgoing to_ = true) (_h2 : hasUser incoming from_ = true) :
    (Cancel db from_ to_).1 = none ∧
    GetUsers (Cancel db from_ to_).2 from_ OutgoingList =
      .ok (outgoing.eraseP (fun user => user.UserID == to_)) ∧
    GetUsers (Cancel db from_ to_).2 to_ IncomingList =
      .ok (incoming.eraseP (fun user => user.UserID == from_)) ∧
    (∀ userID key, ¬(userID = from_ ∧ key = OutgoingList) → ¬(userID = to_ ∧ key = IncomingList) →
      GetAttribute (Cancel db from_ to_).2 userID key = GetAttribute db userID key) ∧
    (Cancel db from_ to_).2.accounts = db.accounts ∧
    (Cancel db from_ to_).2.chat = db.chat := by
  obtain ⟨h1, h2, h3, h4⟩ := Cancel_success db from_ to_ outgoing incoming ho hi h1
  refine ⟨h1, ?_, ?_, ?_, h2, h3⟩
  · rw [GetUsers_ok_iff, h4]; simp
  · rw [GetUsers_ok_iff, h4]; simp [IncomingList_ne_OutgoingList]
  · intro userID key hx hy
    rw [h4, if_neg hx, if_neg hy]

/-- C4 at alice and bob, after alice has sent bob a request. -/
theorem Cancel_postcondition_witness :
    (Cancel (Request freshDB "alice" "bob").2 "alice" "bob").1 = none ∧
    GetUsers (Cancel (Request freshDB "alice" "bob").2 "alice" "bob").2 "alice" OutgoingList =
      .ok ([bobInfo].eraseP (fun user => user.UserID == "bob")) ∧
    GetUsers (Cancel (Request freshDB "alice" "bob").2 "alice" "bob").2 "bob" IncomingList =
      .ok ([aliceInfo].eraseP (fun user => user.UserID == "alice")) :=
  have h := Cancel_postcondition (Request freshDB "alice" "bob").2 "alice" "bob"
    [bobInfo] [aliceInfo] rfl rfl (by decide) (by decide)
  ⟨h.1, h.2.1, h.2.2.1⟩

/-- C5 at its failing input: in `skewDB` alice lists bob as outgoing and bob
has no incoming entry for alice, yet `Cancel` returns no error and empties the
outgoing list of alice. -/
theorem Cancel_skew_succeeds :
    occurs skewDB "alice" OutgoingList "bob" = true ∧
    occurs skewDB "bob" IncomingList "alice" = false ∧
    (Cancel skewDB "alice" "bob").1 = none ∧
    users (Cancel skewDB "alice" "bob").2 "alice" OutgoingList = [] := by
  refine ⟨by decide, by decide, by decide, by decide⟩

/-- C6. Cancel is atomic on failure: whenever `Cancel` returns
`ErrRequestNotSent`, the database it leaves is the one it was given. -/
theorem Cancel_atomic (db : DB) (from_ to_ : String)
    (h : (Cancel db from_ to_).1 = some .ErrRequestNotSent) :
    (Cancel db from_ to_).2 = db := by
  cases ho : GetUsers db from_ OutgoingList with
  | error e => simp [Cancel, ho]
  | ok outgoing =>
    cases hi : GetUsers db to_ IncomingList with
    | error e => simp [Cancel, ho, hi]
    | ok incoming =>
      rw [Cancel_eq db from_ to_ outgoing incoming ho hi] at h ⊢
      by_cases hh : hasUser outgoing to_ = true
      · simp [hh] at h
      · simp [hh]

/-- C6 at alice and bob with no prior request: `Cancel` fails with
`ErrRequestNotSent` and the state is the one before the call. -/
theorem Cancel_atomic_witness :
    (Cancel freshDB "alice" "bob").1 = some .ErrRequestNotSent ∧
    (Cancel freshDB "alice" "bob").2 = freshDB :=
  ⟨by decide, Cancel_atomic freshDB "alice" "bob" (by decide)⟩

/-! ## Decide -/

/-- C7, as stated, fails when the two users are the same one: carol has a
pending request to herself (`Request` let it through), the accepting `Decide`
succeeds, and her Contacts list, empty before, holds two new entries after,
so it is not the old list with exactly one entry appended. -/
theorem Decide_accept_self_appends_two :
    occurs selfDB "carol" OutgoingList "carol" = true ∧
    occurs selfDB "carol" IncomingList "carol" = true ∧
    users selfDB "carol" ContactList = [] ∧
    (Decide selfDB "carol" "carol" true "s1").1 = none ∧
    (users (Decide selfDB "carol" "carol" true "s1").2 "carol" ContactList).length = 2 ∧
    ¬ ∃ entry : User, users (Decide selfDB "carol" "carol" true "s1").2 "carol" ContactList =
      users selfDB "carol" ContactList ++ [entry] := by
  refine ⟨by decide, by decide, by decide, by decide, by decide, ?_⟩
  rintro ⟨entry, h⟩
  have hl := congrArg List.length h
  have h2 : (users (Decide selfDB "carol" "carol" true "s1").2 "carol" ContactList).length = 2 := by
    decide
  have h0 : users selfDB "carol" ContactList = [] := by decide
  rw [h2, h0] at hl
  simp at hl

/-- C7, amended to two distinct users. For existing users `from_ ≠ to_`
(account, about text and Contacts list present) with a pending request from
`to_` to `from_`, the accepting `Decide` returns no error; afterwards the
outgoing list of `to_` and the incoming list of `from_` are the old ones
without the first entry for the other user, the Contacts list of `from_` is the
old one with one entry for `to_` appended, the Contacts list of `to_` is the
old one with one entry for `from_` appended, and both new entries carry the
identifier `store` minted in this call. -/
theorem Decide_accept_postcondition (db : DB) (from_ to_ store : String)
    (outgoing incoming from_contacts to_contacts : List User)
    (from_name to_name from_about to_about : String)
    (hne : from_ ≠ to_)
    (hfa : db.accounts from_ = some from_name) (hta : db.accounts to_ = some to_name)
    (hfb : GetString db from_ About = .ok from_about)
    (htb : GetString db to_ About = .ok to_about)
    (hfc : GetUsers db from_ ContactList = .ok from_contacts)
    (htc : GetUsers db to_ ContactList = .ok to_contacts)
    (ho : GetUsers db to_ OutgoingList = .ok outgoing)
    (hi : GetUsers db from_ IncomingList = .ok incoming)
    (h1 : hasUser outgoing from_ = true) (_h2 : hasUser incoming to_ = true) :
    (Decide db from_ to_ true store).1 = none ∧
    GetUsers (Decide db from_ to_ true store).2 to_ OutgoingList =
      .ok (outgoing.eraseP (fun user => user.UserID == from_)) ∧
    GetUsers (Decide db from_ to_ true store).2 from_ IncomingList =
      .ok (incoming.eraseP (fun user => user.UserID == to_)) ∧
    GetUsers (Decide db from_ to_ true store).2 from_ ContactList =
      .ok (from_contacts ++
        [{ UserID := to_, Username := to_name, Message := to_about, Store := store }]) ∧
    GetUsers (Decide db from_ to_ true store).2 to_ ContactList =
      .ok (to_contacts ++
        [{ UserID := from_, Username := from_name, Message := from_about, Store := store }]) := by
  obtain ⟨d1, _, _, d4⟩ := Decide_accept_success db from_ to_ store outgoing incoming
    from_contacts to_contacts _ _ ho hi hfc htc
    (GetInformation_eq hfa hfb) (GetInformation_eq hta htb) h1
  have hne2 : ¬ to_ = from_ := fun h => hne h.symm
  refine ⟨d1, ?_, ?_, ?_, ?_⟩
  · rw [GetUsers_ok_iff, d4]
    simp [Ne.symm ContactList_ne_OutgoingList]
  · rw [GetUsers_ok_iff, d4]
    simp [Ne.symm ContactList_ne_IncomingList, IncomingList_ne_OutgoingList]
  · rw [GetUsers_ok_iff, d4]
    simp [hne]
  · rw [GetUsers_ok_iff, d4]
    simp [hne2]

/-- C7 amended, at alice and bob: alice has sent bob a request and bob accepts. -/
theorem Decide_accept_postcondition_witness :
    (Decide (Request freshDB "alice" "bob").2 "bob" "alice" true "s1").1 = none ∧
    GetUsers (Decide (Request freshDB "alice" "bob").2 "bob" "alice" true "s1").2 "bob"
      ContactList = .ok ([] ++ [{ aliceInfo with Store := "s1" }]) ∧
    GetUsers (Decide (Request freshDB "alice" "bob").2 "bob" "alice" true "s1").2 "alice"
      ContactList = .ok ([] ++ [{ bobInfo with Store := "s1" }]) :=
  have h := Decide_accept_postcondition (Request freshDB "alice" "bob").2 "bob" "alice" "s1"
    [bobInfo] [aliceInfo] [] [] "Bob" "Alice"
    "Hello! I am a new user on kevlar!" "Hello! I am a new user on kevlar!"
    (by decide) rfl rfl rfl rfl rfl rfl rfl rfl (by decide) (by decide)
  ⟨h.1, h.2.2.2.1, h.2.2.2.2⟩

/-- C8 at its failing input: in `skewDB` there is no pending request from alice
to bob (bob has no incoming entry for alice), yet `Decide` with `decide` true
returns no error and puts each of the two into the Contacts list of the
other, with store `s1`. -/
theorem Decide_skew_accepts :
    occurs skewDB "bob" IncomingList "alice" = false ∧
    (Decide skewDB "bob" "alice" true "s1").1 = none ∧
    users (Decide skewDB "bob" "alice" true "s1").2 "bob" ContactList =
      [{ aliceInfo with Store := "s1" }] ∧
    users (Decide skewDB "bob" "alice" true "s1").2 "alice" ContactList =
      [{ bobInfo with Store := "s1" }] := by
  refine ⟨by decide, by decide, by decide, by decide⟩

/-- C9. Decide with `decide` false: when a request from `to_` to `from_` is
pending, `Decide` is exactly `Cancel to_ from_`; it returns no error, the
outgoing list of `to_` and the incoming list of `from_` lose their first entry
for the other user, and the Contacts list of every user and every message
store are unchanged. -/
theorem Decide_reject (db : DB) (from_ to_ store : String) (outgoing incoming : List User)
    (ho : GetUsers db to_ OutgoingList = .ok outgoing)
    (hi : GetUsers db from_ IncomingList = .ok incoming)
    (h1 : hasUser outgoing from_ = true) (_h2 : hasUser incoming to_ = true) :
    Decide db from_ to_ false store = Cancel db to_ from_ ∧
    (Decide db from_ to_ false store).1 = none ∧
    GetUsers (Decide db from_ to_ false store).2 to_ OutgoingList =
      .ok (outgoing.eraseP (fun user => user.UserID == from_)) ∧
    GetUsers (Decide db from_ to_ false store).2 from_ IncomingList =
      .ok (incoming.eraseP (fun user => user.UserID == to_)) ∧
    (∀ userID, GetAttribute (Decide db from_ to_ false store).2 userID ContactList =
      GetAttribute db userID ContactList) ∧
    (Decide db from_ to_ false store).2.chat = db.chat := by
  obtain ⟨c1, _, c3, c4⟩ := Cancel_success db to_ from_ outgoing incoming ho hi h1
  have hd : Decide db from_ to_ false store = Cancel db to_ from_ := by
    have hc : Cancel db to_ from_ = (none, (Cancel db to_ from_).2) := by rw [← c1]
    rw [Decide, hc]
    simp
  rw [hd]
  refine ⟨rfl, c1, ?_, ?_, ?_, c3⟩
  · rw [GetUsers_ok_iff, c4]; simp
  · rw [GetUsers_ok_iff, c4]; simp [IncomingList_ne_OutgoingList]
  · intro userID
    rw [c4]
    simp [ContactList_ne_OutgoingList, ContactList_ne_IncomingList]

/-- C9 at alice and bob: alice has sent bob a request and bob rejects it. -/
theorem Decide_reject_witness :
    Decide (Request freshDB "alice" "bob").2 "bob" "alice" false "s1" =
      Cancel (Request freshDB "alice" "bob").2 "alice" "bob" ∧
    (Decide (Request freshDB "alice" "bob").2 "bob" "alice" false "s1").1 = none ∧
    users (Decide (Request freshDB "alice" "bob").2 "bob" "alice" false "s1").2 "alice"
      OutgoingList = [] :=
  have h := Decide_reject (Request freshDB "alice" "bob").2 "bob" "alice" "s1"
    [bobInfo] [aliceInfo] rfl rfl (by decide) (by decide)
  ⟨h.1, h.2.1, by decide⟩

/-- After registration every list of every user is empty. -/
theorem AllEmpty_freshDB : AllEmpty freshDB := by
  intro userID key hk
  by_cases ha : userID = "alice"
  · subst ha
    rcases hk with rfl | rfl | rfl <;> decide
  · by_cases hb : userID = "bob"
    · subst hb
      rcases hk with rfl | rfl | rfl <;> decide
    · simp [users, GetUsers, GetAttribute, freshDB, CreateUser, AttrCreateUser, SetAttribute,
        seedDB, ha, hb]

/-! ## Invariants over runs -/

/-- C1. Relationship symmetry: starting from a state in which every Contacts,
Incoming and Outgoing list is empty, after any finite sequence of `Request`,
`Cancel` and `Decide` calls none of which met a store failure, for all users
`a` and `b`: `b` occurs in the outgoing list of `a` iff `a` occurs in the
incoming list of `b`, and `b` occurs in the Contacts list of `a` iff `a`
occurs in the Contacts list of `b`. -/
theorem relationship_symmetry (db0 db : DB) (calls : List Call)
    (h0 : AllEmpty db0) (hr : runAll db0 calls = some db) (a b : String) :
    (occurs db a OutgoingList b = true ↔ occurs db b IncomingList a = true) ∧
    (occurs db a ContactList b = true ↔ occurs db b ContactList a = true) := by
  obtain ⟨s1, s3⟩ := Symmetric_runAll calls db0 db (Symmetric_of_AllEmpty h0) hr a b
  simp only [occurs_iff_cnt]
  constructor <;> omega

/-- C1 on `sampleRun` from `freshDB`: the second request of alice is rejected
as a duplicate, bob accepts alice, and the cancel of alice finds nothing; in the
state left, alice and bob are in the Contacts list of each other. -/
theorem relationship_symmetry_witness :
    runAll freshDB sampleRun = some sampleDB ∧
    occurs sampleDB "alice" ContactList "bob" = true ∧
    ((occurs sampleDB "alice" OutgoingList "bob" = true ↔
        occurs sampleDB "bob" IncomingList "alice" = true) ∧
      (occurs sampleDB "alice" ContactList "bob" = true ↔
        occurs sampleDB "bob" ContactList "alice" = true)) :=
  ⟨rfl, by decide,
    relationship_symmetry freshDB sampleDB sampleRun AllEmpty_freshDB rfl "alice" "bob"⟩

/-- C10, as stated, fails: from all-empty lists alice requests bob and then bob
requests alice; both calls succeed, and bob is in the outgoing list and in the
incoming list of alice. -/
theorem exclusivity_fails_on_crossed_requests :
    AllEmpty freshDB ∧
    runAll freshDB [.request "alice" "bob", .request "bob" "alice"] =
      some (Request (Request freshDB "alice" "bob").2 "bob" "alice").2 ∧
    (Request freshDB "alice" "bob").1 = none ∧
    (Request (Request freshDB "alice" "bob").2 "bob" "alice").1 = none ∧
    occurs (Request (Request freshDB "alice" "bob").2 "bob" "alice").2
      "alice" OutgoingList "bob" = true ∧
    occurs (Request (Request freshDB "alice" "bob").2 "bob" "alice").2
      "alice" IncomingList "bob" = true :=
  ⟨AllEmpty_freshDB, rfl, by decide, by decide, by decide, by decide⟩

/-- C10, amended to disciplined runs. Starting from a state in which every
list is empty, after any finite sequence of `Request`, `Cancel` and `Decide`
calls none of which met a store failure and in which every request goes to
another user who is at that moment in none of the three lists of the sender,
for all users `a` and `b` the identity `b` occurs in at most one of the
Contacts, Outgoing and Incoming lists of `a`. -/
theorem list_exclusivity (db0 db : DB) (calls : List Call)
    (h0 : AllEmpty db0) (hr : runDisciplined db0 calls = some db) (a b : String) :
    ¬(occurs db a ContactList b = true ∧ occurs db a OutgoingList b = true) ∧
    ¬(occurs db a ContactList b = true ∧ occurs db a IncomingList b = true) ∧
    ¬(occurs db a OutgoingList b = true ∧ occurs db a IncomingList b = true) := by
  have hx := Exclusive_runDisciplined calls db0 db (Symmetric_of_AllEmpty h0)
    (Exclusive_of_AllEmpty h0) hr a b
  simp only [occurs_iff_cnt]
  refine ⟨?_, ?_, ?_⟩ <;> omega

/-- C10 amended, on `acceptRun` from `freshDB`: in the state left bob is in
the Contacts list of alice and in no other list of hers. -/
theorem list_exclusivity_witness :
    runDisciplined freshDB acceptRun = some acceptedDB ∧
    occurs acceptedDB "alice" ContactList "bob" = true ∧
    (¬(occurs acceptedDB "alice" ContactList "bob" = true ∧
        occurs acceptedDB "alice" OutgoingList "bob" = true) ∧
      ¬(occurs acceptedDB "alice" ContactList "bob" = true ∧
        occurs acceptedDB "alice" IncomingList "bob" = true) ∧
      ¬(occurs acceptedDB "alice" OutgoingList "bob" = true ∧
        occurs acceptedDB "alice" IncomingList "bob" = true)) :=
  ⟨rfl, by decide,
    list_exclusivity freshDB acceptedDB acceptRun AllEmpty_freshDB rfl "alice" "bob"⟩

/-! ## Contact entries -/

/-- C11. Contact entries and their Store are stable. For every state and every
user: `Request`, `Cancel` and `Decide` with `decide` false leave the Contacts
list as it is; `StoreMessage` leaves it with the same number of entries, each
with the UserID, Store and Username it had (the preview may change);
`MarkRead` and `LoadMessages` leave it as it is; `Decide` with `decide` true
only adds entries at the end. This holds whatever the outcome of the call. -/
theorem contacts_stable (db : DB) (userID : String) :
    (∀ from_ to_, users (Request db from_ to_).2 userID ContactList =
      users db userID ContactList) ∧
    (∀ from_ to_, users (Cancel db from_ to_).2 userID ContactList =
      users db userID ContactList) ∧
    (∀ from_ to_ store, users (Decide db from_ to_ false store).2 userID ContactList =
      users db userID ContactList) ∧
    (∀ message_type message_data from_ to_ online id now,
      List.Forall₂ (fun old new => new.UserID = old.UserID ∧ new.Store = old.Store ∧
        new.Username = old.Username) (users db userID ContactList)
        (users (StoreMessage db message_type message_data from_ to_ online id now).2 userID
          ContactList)) ∧
    (∀ from_ to_, users (MarkRead db from_ to_).2 userID ContactList =
      users db userID ContactList) ∧
    (∀ from_ to_ since, users (LoadMessages db from_ to_ since).2 userID ContactList =
      users db userID ContactList) ∧
    (∀ from_ to_ store, ∃ added,
      users (Decide db from_ to_ true store).2 userID ContactList =
        users db userID ContactList ++ added) := by
  refine ⟨?_, ?_, ?_, ?_, ?_, ?_, ?_⟩
  · intro from_ to_; exact Request_contacts db from_ to_ userID
  · intro from_ to_; exact Cancel_contacts db from_ to_ userID
  · intro from_ to_ store
    rw [Decide_reject_eq]; exact Cancel_contacts db to_ from_ userID
  · intro message_type message_data from_ to_ online id now
    exact StoreMessage_contacts db message_type message_data from_ to_ online id now userID
  · intro from_ to_
    exact users_of_attributes (MarkRead_frame db from_ to_).2 userID ContactList
  · intro from_ to_ since
    exact users_of_attributes (LoadMessages_frame db from_ to_ since).2 userID ContactList
  · intro from_ to_ store
    exact Decide_extends db from_ to_ true store userID

/-! ## StoreMessage -/

/-- C12, as stated, fails when one of the two users has no attribute
document: zed has none, so neither alice's Contacts list has an entry for zed
nor zed's an entry for alice, and `StoreMessage` from alice to zed returns the
error of the failed read of zed's Contacts list, `ErrNoDocuments`, not
`ErrContactDoesNotExist`; from zed to alice it returns the error of the failed
read of zed's public info. Nothing is written in either call. -/
theorem StoreMessage_unknown_user :
    occurs freshDB "alice" ContactList "zed" = false ∧
      occurs freshDB "zed" ContactList "alice" = false ∧
      (StoreMessage freshDB "text" "hi" "alice" "zed" true "m1" 5).1 = some .ErrNoDocuments ∧
      (StoreMessage freshDB "text" "hi" "alice" "zed" true "m1" 5).1
        ≠ some .ErrContactDoesNotExist ∧
      (StoreMessage freshDB "text" "hi" "zed" "alice" true "m1" 5).1 = some .ErrNoDocuments ∧
      StoreMessage freshDB "text" "hi" "alice" "zed" true "m1" 5 =
        (some .ErrNoDocuments, freshDB) ∧
      StoreMessage freshDB "text" "hi" "zed" "alice" true "m1" 5 =
        (some .ErrNoDocuments, freshDB) :=
  ⟨by decide, by decide, by decide, by decide, by decide, rfl, rfl⟩

/-- C12, amended to users whose lists can be read. StoreMessage requires a
mutual contact: when the public info of `from_` and the Contacts lists of
`from_` and of `to_` are all present, if no entry of the Contacts list of
`from_` has UserID `to_`, or no entry of the Contacts list of `to_` has UserID
`from_`, then `StoreMessage` returns `ErrContactDoesNotExist` and the database
it leaves is the one it was given: no attribute is written and no message is
appended. -/
theorem StoreMessage_requires_contact (db : DB) (message_type message_data from_ to_ : String)
    (online : Bool) (id : String) (now : Int) (from_user : User)
    (from_contacts to_contacts : List User)
    (hf : GetInformation db from_ = .ok from_user)
    (hfc : GetUsers db from_ ContactList = .ok from_contacts)
    (htc : GetUsers db to_ ContactList = .ok to_contacts)
    (h : hasUser from_contacts to_ = false ∨ hasUser to_contacts from_ = false) :
    StoreMessage db message_type message_data from_ to_ online id now =
      (some .ErrContactDoesNotExist, db) := by
  rw [StoreMessage_eq db message_type message_data from_ to_ online id now from_user
    from_contacts to_contacts hf hfc htc]
  have hn : ¬(hasUser from_contacts to_ = true ∧ hasUser to_contacts from_ = true) := by
    rintro ⟨a, b⟩
    rcases h with h | h
    · rw [a] at h; cases h
    · rw [b] at h; cases h
  rw [if_neg hn]

/-- C12 amended, at alice and bob, freshly registered and not yet contacts. -/
theorem StoreMessage_requires_contact_witness :
    StoreMessage freshDB "text" "hi" "alice" "bob" true "m1" 5 =
      (some .ErrContactDoesNotExist, freshDB) :=
  StoreMessage_requires_contact freshDB "text" "hi" "alice" "bob" true "m1" 5
    aliceInfo [] [] rfl rfl rfl (Or.inl (by decide))

/-- C13. Blank messages are rejected: for users `from_` and `to_` who are in
the Contacts list of each other and every payload that is empty or consists of
white space only, `StoreMessage` returns `ErrMessageBlank` and every message
store is as before. -/
theorem StoreMessage_blank (db : DB) (message_type message_data from_ to_ : String)
    (online : Bool) (id : String) (now : Int) (from_user : User)
    (from_contacts to_contacts : List User)
    (hf : GetInformation db from_ = .ok from_user)
    (hfc : GetUsers db from_ ContactList = .ok from_contacts)
    (htc : GetUsers db to_ ContactList = .ok to_contacts)
    (h1 : hasUser from_contacts to_ = true) (h2 : hasUser to_contacts from_ = true)
    (hb : isBlank message_data = true) :
    (StoreMessage db message_type message_data from_ to_ online id now).1 =
      some .ErrMessageBlank ∧
    (StoreMessage db message_type message_data from_ to_ online id now).2.chat = db.chat := by
  obtain ⟨s1, _, s3, _⟩ := StoreMessage_success db message_type message_data from_ to_ online
    id now from_user from_contacts to_contacts hf hfc htc h1 h2
  have ht : TrimSpace message_data = "" := (TrimSpace_eq_empty_iff _).2 hb
  refine ⟨by rw [s1, if_pos ht], ?_⟩
  funext s
  rw [s3 s]
  simp [ht]

/-- C13 at alice and bob, contacts of each other, with a payload of a space,
a tab and a line feed. -/
theorem StoreMessage_blank_witness :
    (StoreMessage acceptedDB "text" " \t\n" "alice" "bob" true "m1" 5).1 =
      some .ErrMessageBlank ∧
    (StoreMessage acceptedDB "text" " \t\n" "alice" "bob" true "m1" 5).2.chat =
      acceptedDB.chat :=
  StoreMessage_blank acceptedDB "text" " \t\n" "alice" "bob" true "m1" 5 aliceInfo
    [{ bobInfo with Store := "s1" }] [{ aliceInfo with Store := "s1" }]
    rfl rfl rfl (by decide) (by decide) (by decide)

/-- C14 at its failing input: alice and bob are contacts of each other and
alice sends a payload of one space; `StoreMessage` returns `ErrMessageBlank`,
and the entry for bob in the Contacts list of alice and the entry for alice in
the Contacts list of bob, which had the about text as preview, now have the
preview built from the rejected payload. -/
theorem StoreMessage_blank_commits_preview :
    (StoreMessage acceptedDB "text" " " "alice" "bob" true "m1" 5).1 = some .ErrMessageBlank ∧
    users acceptedDB "alice" ContactList = [{ bobInfo with Store := "s1" }] ∧
    users (StoreMessage acceptedDB "text" " " "alice" "bob" true "m1" 5).2 "alice" ContactList =
      [{ bobInfo with Store := "s1", Message := "Alice:  " }] ∧
    users acceptedDB "bob" ContactList = [{ aliceInfo with Store := "s1" }] ∧
    users (StoreMessage acceptedDB "text" " " "alice" "bob" true "m1" 5).2 "bob" ContactList =
      [{ aliceInfo with Store := "s1", Message := "Alice:  " }] := by
  refine ⟨by decide, by decide, by decide, by decide, by decide⟩

/-- C15. Preview update: for users `from_` and `to_` who are in the Contacts
list of each other and every payload that is not blank, `StoreMessage` returns
no error, and afterwards the Contacts list of `from_` is the old one with the
preview (field `Message`) of every entry for `to_` set to the Username of
`from_`, a colon, a space and the payload, the Contacts list of `to_` is the
old one with the preview of every entry for `from_` set to the same string,
and every other entry of both lists is as before. -/
theorem StoreMessage_preview (db : DB) (message_type message_data from_ to_ : String)
    (online : Bool) (id : String) (now : Int) (from_name from_about : String)
    (from_contacts to_contacts : List User)
    (hfa : db.accounts from_ = some from_name)
    (hfb : GetString db from_ About = .ok from_about)
    (hfc : GetUsers db from_ ContactList = .ok from_contacts)
    (htc : GetUsers db to_ ContactList = .ok to_contacts)
    (h1 : hasUser from_contacts to_ = true) (h2 : hasUser to_contacts from_ = true)
    (hb : isBlank message_data = false) :
    (StoreMessage db message_type message_data from_ to_ online id now).1 = none ∧
    GetUsers (StoreMessage db message_type message_data from_ to_ online id now).2 from_
        ContactList =
      .ok (from_contacts.map (fun entry =>
        if entry.UserID = to_ then { entry with Message := from_name ++ ": " ++ message_data }
        else entry)) ∧
    GetUsers (StoreMessage db message_type message_data from_ to_ online id now).2 to_
        ContactList =
      .ok (to_contacts.map (fun entry =>
        if entry.UserID = from_ then { entry with Message := from_name ++ ": " ++ message_data }
        else entry)) := by
  obtain ⟨s1, _, _, s4⟩ := StoreMessage_success db message_type message_data from_ to_ online
    id now _ from_contacts to_contacts (GetInformation_eq hfa hfb) hfc htc h1 h2
  have ht : ¬ TrimSpace message_data = "" := by
    intro h
    rw [(TrimSpace_eq_empty_iff _).1 h] at hb
    cases hb
  refine ⟨by rw [s1, if_neg ht], ?_, ?_⟩
  · rw [GetUsers_ok_iff, s4]
    by_cases hft : from_ = to_
    · subst hft
      have : from_contacts = to_contacts := by
        rw [hfc] at htc
        exact Except.ok.inj htc
      subst this
      simp [setPreview]
    · simp [hft, setPreview]
  · rw [GetUsers_ok_iff, s4]
    simp [setPreview]

/-- C15 at alice and bob, contacts of each other: alice sends `hi`. -/
theorem StoreMessage_preview_witness :
    (StoreMessage acceptedDB "text" "hi" "alice" "bob" true "m1" 5).1 = none ∧
    users chattedDB "alice" ContactList =
      [{ bobInfo with Store := "s1", Message := "Alice: hi" }] ∧
    users chattedDB "bob" ContactList =
      [{ aliceInfo with Store := "s1", Message := "Alice: hi" }] :=
  have h := StoreMessage_preview acceptedDB "text" "hi" "alice" "bob" true "m1" 5
    "Alice" "Hello! I am a new user on kevlar!"
    [{ bobInfo with Store := "s1" }] [{ aliceInfo with Store := "s1" }]
    rfl rfl rfl rfl (by decide) (by decide) (by decide)
  ⟨h.1, by decide, by decide⟩

/-- C16. Message append: for users `from_` and `to_` who are in the Contacts
list of each other and every payload that is not blank, `StoreMessage` returns
no error and appends exactly one message to the message store named by the
Store of the entry for `to_` in the Contacts list of `from_` (`storeOf`, the
last such entry should there be several), with From `from_`, Type the given
kind, Data the payload and Read the flag `online`; every other message store
and every message stored before is as it was. The handler `Message` passes
`IsOnline` of `to_` as `online`. -/
theorem StoreMessage_appends (db : DB) (message_type message_data from_ to_ : String)
    (online : Bool) (id : String) (now : Int) (from_user : User)
    (from_contacts to_contacts : List User)
    (hf : GetInformation db from_ = .ok from_user)
    (hfc : GetUsers db from_ ContactList = .ok from_contacts)
    (htc : GetUsers db to_ ContactList = .ok to_contacts)
    (h1 : hasUser from_contacts to_ = true) (h2 : hasUser to_contacts from_ = true)
    (hb : isBlank message_data = false) :
    (StoreMessage db message_type message_data from_ to_ online id now).1 = none ∧
    (∃ entry ∈ from_contacts, entry.UserID = to_ ∧ entry.Store = storeOf from_contacts to_) ∧
    (StoreMessage db message_type message_data from_ to_ online id now).2.chat
        (storeOf from_contacts to_) =
      db.chat (storeOf from_contacts to_) ++
        [{ ID := id, From := from_, Type_ := message_type, Data := message_data,
           Read := online, Time := now }] ∧
    (∀ s, s ≠ storeOf from_contacts to_ →
      (StoreMessage db message_type message_data from_ to_ online id now).2.chat s =
        db.chat s) ∧
    ∀ (σ : Type) (socket : String → Option σ),
      MessageHandler socket db message_type message_data from_ to_ id now =
        StoreMessage db message_type message_data from_ to_ (IsOnline socket to_) id now := by
  obtain ⟨s1, _, s3, _⟩ := StoreMessage_success db message_type message_data from_ to_ online
    id now from_user from_contacts to_contacts hf hfc htc h1 h2
  have ht : ¬ TrimSpace message_data = "" := by
    intro h
    rw [(TrimSpace_eq_empty_iff _).1 h] at hb
    cases hb
  refine ⟨by rw [s1, if_neg ht], ?_, ?_, ?_, ?_⟩
  · obtain ⟨m1, m2⟩ := findContact_mem from_contacts to_
      { UserID := "", Username := "", Message := "", Store := "" } false h1
    exact ⟨_, m1, m2, rfl⟩
  · rw [s3]; simp [ht]
  · intro s hs
    rw [s3]; simp [hs]
  · intro σ socket
    rfl

/-- C16 at alice and bob, contacts of each other through the store `s1`:
alice sends `hi` while bob is online. -/
theorem StoreMessage_appends_witness :
    (StoreMessage acceptedDB "text" "hi" "alice" "bob" true "m1" 5).1 = none ∧
    storeOf [{ bobInfo with Store := "s1" }] "bob" = "s1" ∧
    chattedDB.chat "s1" =
      [{ ID := "m1", From := "alice", Type_ := "text", Data := "hi", Read := true, Time := 5 }] :=
  have h := StoreMessage_appends acceptedDB "text" "hi" "alice" "bob" true "m1" 5 aliceInfo
    [{ bobInfo with Store := "s1" }] [{ aliceInfo with Store := "s1" }]
    rfl rfl rfl (by decide) (by decide) (by decide)
  ⟨h.1, by decide, h.2.2.1⟩

/-! ## MarkRead -/

/-- C17, as stated, fails: bob sends alice a message while she is offline and
a second one while she is online; `MarkRead` for alice and bob returns no
error, stops at the second message, which is read, and leaves the first
message of bob unread. -/
theorem MarkRead_leaves_older_unread :
    occurs mixedDB "alice" ContactList "bob" = true ∧
    mixedDB.chat "s1" =
      [{ ID := "m1", From := "bob", Type_ := "text", Data := "one", Read := false, Time := 1 },
       { ID := "m2", From := "bob", Type_ := "text", Data := "two", Read := true, Time := 2 }] ∧
    (MarkRead mixedDB "alice" "bob").1 = none ∧
    (MarkRead mixedDB "alice" "bob").2.chat "s1" = mixedDB.chat "s1" ∧
    ∃ message ∈ (MarkRead mixedDB "alice" "bob").2.chat "s1",
      message.From = "bob" ∧ message.Read = false := by
  refine ⟨by decide, by decide, by decide, by decide, ?_⟩
  exact ⟨{ ID := "m1", From := "bob", Type_ := "text", Data := "one", Read := false, Time := 1 },
    by decide, rfl, rfl⟩

/-- C17, amended to stores in which reads are monotone. For every state in
which `to_` is in the Contacts list of `from_`, the ids in the message store of
the pair are pairwise different and, in newest-first order, no unread message
of `to_` comes after a read message of `to_`: `MarkRead` returns no error and
afterwards every message of `to_` in that store has Read true. -/
theorem MarkRead_marks_all (db : DB) (from_ to_ : String) (contacts : List User)
    (hc : GetUsers db from_ ContactList = .ok contacts)
    (h : hasUser contacts to_ = true)
    (hu : UniqueIDs (db.chat (storeOf contacts to_)))
    (hmono : (Find db (storeOf contacts to_)).Pairwise (fun newer older =>
      newer.From = to_ → newer.Read = true → older.From = to_ → older.Read = true)) :
    (MarkRead db from_ to_).1 = none ∧
    ∀ message ∈ (MarkRead db from_ to_).2.chat (storeOf contacts to_),
      message.From = to_ → message.Read = true := by
  obtain ⟨m1, _, _, m4⟩ := MarkRead_success db from_ to_ contacts hc h hu
  refine ⟨m1, ?_⟩
  intro message hmem hfrom
  rw [m4, if_pos rfl] at hmem
  obtain ⟨x, hx, hxm⟩ := List.mem_map.1 hmem
  by_cases hcase : x.From = to_ ∧ x ∈ scanned to_ (Find db (storeOf contacts to_))
  · rw [if_pos hcase] at hxm
    rw [← hxm]
  · rw [if_neg hcase] at hxm
    subst hxm
    have hnot : x ∉ scanned to_ (Find db (storeOf contacts to_)) := fun hin => hcase ⟨hfrom, hin⟩
    have hcur : x ∈ Find db (storeOf contacts to_) := (mem_Find db _ x).2 hx
    have hsplit := List.takeWhile_append_dropWhile
      (fun message : Message => !(message.From == to_ && message.Read))
      (Find db (storeOf contacts to_))
    have hdrop : x ∈ (Find db (storeOf contacts to_)).dropWhile
        (fun message => !(message.From == to_ && message.Read)) := by
      rw [← hsplit] at hcur
      rcases List.mem_append.1 hcur with hl | hr
      · exact absurd hl hnot
      · exact hr
    have hpw := hmono.sublist (List.dropWhile_sublist
      (fun message : Message => !(message.From == to_ && message.Read)))
    cases hd : (Find db (storeOf contacts to_)).dropWhile
        (fun message => !(message.From == to_ && message.Read)) with
    | nil => rw [hd] at hdrop; cases hdrop
    | cons stop rest =>
      have hstop : (!(stop.From == to_ && stop.Read)) = false := dropWhile_head_false hd
      have hstop2 : stop.From = to_ ∧ stop.Read = true := by
        simpa using hstop
      rw [hd] at hdrop hpw
      rcases List.mem_cons.1 hdrop with he | hr
      · rw [he]; exact hstop2.2
      · exact (List.pairwise_cons.1 hpw).1 x hr hstop2.1 hstop2.2 hfrom

/-- C17 amended, at alice and bob: bob has sent a message that is read and a
newer one that is unread; after `MarkRead` both are read. -/
theorem MarkRead_marks_all_witness :
    (MarkRead unreadDB "alice" "bob").1 = none ∧
    (MarkRead unreadDB "alice" "bob").2.chat "s1" =
      [{ ID := "m1", From := "bob", Type_ := "text", Data := "one", Read := true, Time := 1 },
       { ID := "m2", From := "bob", Type_ := "text", Data := "two", Read := true, Time := 2 }] ∧
    ∀ message ∈ (MarkRead unreadDB "alice" "bob").2.chat "s1",
      message.From = "bob" → message.Read = true :=
  have h := MarkRead_marks_all unreadDB "alice" "bob"
    [{ bobInfo with Store := "s1", Message := "Bob: two" }]
    rfl (by decide) (by unfold UniqueIDs; decide) (by decide)
  ⟨h.1, by decide, h.2⟩

/-- C18. MarkRead scan semantics: for every state in which `to_` is in the
Contacts list of `from_` and the ids in the message store of the pair are
pairwise different, `MarkRead` returns no error and sets Read on exactly the
messages of `to_` that the newest-first scan passes before the first message
of `to_` that is already read (`scanned`; all of them when none is read).
Every other message is as before, so are the fields ID, From, Type, Data and
Time of every message and the number of messages, no Read flag goes from true
to false, and the other stores, the attributes and the accounts are untouched. -/
theorem MarkRead_scan (db : DB) (from_ to_ : String) (contacts : List User)
    (hc : GetUsers db from_ ContactList = .ok contacts)
    (h : hasUser contacts to_ = true)
    (hu : UniqueIDs (db.chat (storeOf contacts to_))) :
    (MarkRead db from_ to_).1 = none ∧
    (MarkRead db from_ to_).2.chat (storeOf contacts to_) =
      (db.chat (storeOf contacts to_)).map (fun message =>
        if message.From = to_ ∧ message ∈ scanned to_ (Find db (storeOf contacts to_)) then
          { message with Read := true }
        else message) ∧
    List.Forall₂ (fun old new => new.ID = old.ID ∧ new.From = old.From ∧
        new.Type_ = old.Type_ ∧ new.Data = old.Data ∧ new.Time = old.Time ∧
        (old.Read = true → new.Read = true))
      (db.chat (storeOf contacts to_))
      ((MarkRead db from_ to_).2.chat (storeOf contacts to_)) ∧
    (∀ s, s ≠ storeOf contacts to_ → (MarkRead db from_ to_).2.chat s = db.chat s) ∧
    (MarkRead db from_ to_).2.attributes = db.attributes ∧
    (MarkRead db from_ to_).2.accounts = db.accounts := by
  obtain ⟨m1, m2, m3, m4⟩ := MarkRead_success db from_ to_ contacts hc h hu
  have hchat := m4 (storeOf contacts to_)
  rw [if_pos rfl] at hchat
  refine ⟨m1, hchat, ?_, ?_, m3, m2⟩
  · rw [hchat, List.forall₂_map_right_iff, List.forall₂_same]
    intro x _
    by_cases hx : x.From = to_ ∧ x ∈ scanned to_ (Find db (storeOf contacts to_))
    · simp [hx]
    · simp [hx]
  · intro s hs
    rw [m4 s, if_neg hs]

/-- C18 at alice and bob: bob has sent a message that is read and a newer one
that is unread; `MarkRead` passes the newer one, stops at the older one and
sets Read on the newer one only, which was the only unread one. -/
theorem MarkRead_scan_witness :
    scanned "bob" (Find unreadDB "s1") =
      [{ ID := "m2", From := "bob", Type_ := "text", Data := "two", Read := false, Time := 2 }] ∧
    (MarkRead unreadDB "alice" "bob").1 = none ∧
    (MarkRead unreadDB "alice" "bob").2.chat "s1" =
      [{ ID := "m1", From := "bob", Type_ := "text", Data := "one", Read := true, Time := 1 },
       { ID := "m2", From := "bob", Type_ := "text", Data := "two", Read := true, Time := 2 }] :=
  have h := MarkRead_scan unreadDB "alice" "bob"
    [{ bobInfo with Store := "s1", Message := "Bob: two" }]
    rfl (by decide) (by unfold UniqueIDs; decide)
  ⟨by decide, h.1, by decide⟩

/-! ## LoadMessages -/

set_option maxRecDepth 100000 in
/-- C19 at its failing input: alice has sent bob fifty messages; `LoadMessages`
for bob and alice with offset 0 returns a list of fifty messages, one more
than `MaxResults`. -/
theorem LoadMessages_returns_fifty :
    MaxResults = 49 ∧
    (fullDB.chat "s1").length = 50 ∧
    ∃ list, (LoadMessages fullDB "bob" "alice" 0).1 = .messages list ∧ list.length = 50 :=
  ⟨rfl, by decide, _, rfl, by decide⟩

/-- C20, as stated, fails at the boundary: the store of alice and bob holds
one message, and `LoadMessages` with offset 1 returns the empty list with no
error. -/
theorem LoadMessages_boundary_returns_empty :
    occurs chattedDB "bob" ContactList "alice" = true ∧
    (chattedDB.chat "s1").length = 1 ∧
    (LoadMessages chattedDB "bob" "alice" 1).1 = .messages [] := by
  refine ⟨by decide, by decide, by decide⟩

/-- C20, amended to offsets beyond the end. For every state in which `to_` is
in the Contacts list of `from_`, whose message store holds `n` messages, and
every `since` greater than `n`: `LoadMessages` does not return a list; the
slice expression panics. -/
theorem LoadMessages_beyond_end (db : DB) (from_ to_ : String) (since : Int)
    (contacts : List User)
    (hc : GetUsers db from_ ContactList = .ok contacts)
    (h : hasUser contacts to_ = true)
    (hn : ((db.chat (storeOf contacts to_)).length : Int) < since) :
    (LoadMessages db from_ to_ since).1 = .panicked := by
  rw [LoadMessages_eq db from_ to_ since contacts hc h]
  have hlen := (MarkRead_length db from_ to_ contacts hc h).2
  have hle := loadLoop_length_le (Find (MarkRead db from_ to_).2 (storeOf contacts to_)) 0 since []
  rw [Find_length, hlen] at hle
  simp only [List.length_nil, Nat.zero_add] at hle
  have hnot : ¬(0 ≤ since ∧ since ≤ ((loadLoop (Find (MarkRead db from_ to_).2
      (storeOf contacts to_)) 0 since []).length : Int)) := by
    intro hx
    have := hx.2
    omega
  rw [if_neg hnot]

/-- C20 amended, at alice and bob: the store holds one message and the offset is 2. -/
theorem LoadMessages_beyond_end_witness :
    (chattedDB.chat "s1").length = 1 ∧
    (LoadMessages chattedDB "bob" "alice" 2).1 = .panicked :=
  ⟨by decide, LoadMessages_beyond_end chattedDB "bob" "alice" 2
    [{ aliceInfo with Store := "s1", Message := "Alice: hi" }] rfl (by decide) (by decide)⟩

/-- C21. History is an offset window into the newest-first ordering. For every
state in which `to_` is in the Contacts list of `from_` and the message store
of the pair holds `n` messages: the cursor of `Find` on that store yields its
messages sorted by time descending; for every `since` from 0 to `n` (with
`since + 50` in the range of `int`) `LoadMessages` returns a list, which is
the front part of that ordering with the first `since` entries dropped, at
most 50 long and not empty when `since < n`; for every `since` greater than
`n` the call does not return a list, it panics. -/
theorem LoadMessages_window (db : DB) (from_ to_ : String) (since : Int)
    (contacts : List User)
    (hc : GetUsers db from_ ContactList = .ok contacts)
    (h : hasUser contacts to_ = true) :
    (Find (LoadMessages db from_ to_ since).2 (storeOf contacts to_)).Pairwise
      (fun newer older => older.Time ≤ newer.Time) ∧
    (Find (LoadMessages db from_ to_ since).2 (storeOf contacts to_)).Perm
      ((LoadMessages db from_ to_ since).2.chat (storeOf contacts to_)) ∧
    (0 ≤ since → since ≤ (db.chat (storeOf contacts to_)).length → since + 50 < 2 ^ 63 →
      ∃ list, (LoadMessages db from_ to_ since).1 = .messages list ∧
        list = ((Find (LoadMessages db from_ to_ since).2 (storeOf contacts to_)).drop
          since.toNat).take 50 ∧
        list <+: (Find (LoadMessages db from_ to_ since).2 (storeOf contacts to_)).drop
          since.toNat ∧
        (since < (db.chat (storeOf contacts to_)).length → list ≠ [])) ∧
    (((db.chat (storeOf contacts to_)).length : Int) < since →
      (LoadMessages db from_ to_ since).1 = .panicked) := by
  have heq := LoadMessages_eq db from_ to_ since contacts hc h
  have hlen := (MarkRead_length db from_ to_ contacts hc h).2
  have hdb : (LoadMessages db from_ to_ since).2 = (MarkRead db from_ to_).2 := by
    rw [heq]; split <;> rfl
  refine ⟨sortNewest_sorted _, sortNewest_perm _, ?_, ?_⟩
  · intro h0 hn hs
    have hloop := loadLoop_eq_take since h0 hs
      (Find (MarkRead db from_ to_).2 (storeOf contacts to_)) 0 [] (by push_cast; omega)
    simp only [Nat.cast_zero, Nat.sub_zero, List.nil_append] at hloop
    have hcl : (Find (MarkRead db from_ to_).2 (storeOf contacts to_)).length =
        (db.chat (storeOf contacts to_)).length := by
      rw [Find_length, hlen]
    have hcond : 0 ≤ since ∧ since ≤ ((loadLoop (Find (MarkRead db from_ to_).2
        (storeOf contacts to_)) 0 since []).length : Int) := by
      refine ⟨h0, ?_⟩
      have := hloop
      simp only [Nat.cast_zero] at this
      rw [this, List.length_take, hcl]
      omega
    rw [hdb, heq, if_pos hcond]
    have hl0 : loadLoop (Find (MarkRead db from_ to_).2 (storeOf contacts to_)) 0 since [] =
        (Find (MarkRead db from_ to_).2 (storeOf contacts to_)).take (since + 50).toNat := by
      have := hloop
      simp only [Nat.cast_zero] at this
      exact this
    have hwin : (loadLoop (Find (MarkRead db from_ to_).2 (storeOf contacts to_)) 0 since
        []).drop since.toNat =
        ((Find (MarkRead db from_ to_).2 (storeOf contacts to_)).drop since.toNat).take 50 := by
      rw [hl0, List.drop_take]
      congr 1
      omega
    refine ⟨_, rfl, hwin, ?_, ?_⟩
    · rw [hwin]; exact List.take_prefix _ _
    · intro hlt
      rw [hwin]
      intro hnil
      have := congrArg List.length hnil
      simp only [List.length_take, List.length_drop, hcl, List.length_nil] at this
      omega
  · intro hgt
    have hle := loadLoop_length_le (Find (MarkRead db from_ to_).2 (storeOf contacts to_)) 0
      since []
    rw [Find_length, hlen] at hle
    simp only [List.length_nil, Nat.zero_add] at hle
    have hnot : ¬(0 ≤ since ∧ since ≤ ((loadLoop (Find (MarkRead db from_ to_).2
        (storeOf contacts to_)) 0 since []).length : Int)) := by
      intro hx
      have := hx.2
      omega
    rw [heq, if_neg hnot]

set_option maxRecDepth 100000 in
/-- C21 at alice and bob after alice has sent fifty messages, with offset 48:
the list returned holds the two oldest messages. -/
theorem LoadMessages_window_witness :
    ∃ list, (LoadMessages fullDB "bob" "alice" 48).1 = .messages list ∧
      list <+: (Find (LoadMessages fullDB "bob" "alice" 48).2 "s1").drop 48 ∧
      list.length = 2 := by
  obtain ⟨list, h1, h2, h3, _⟩ := (LoadMessages_window fullDB "bob" "alice" 48
    [{ aliceInfo with Store := "s1", Message := "Alice: hi" }] rfl (by decide)).2.2.1
    (by decide) (by decide) (by decide)
  refine ⟨list, h1, h3, ?_⟩
  rw [h2]
  decide

/-- C22. LoadMessages read-marks first. For every state in which the Contacts
list of `from_` can be read: if `to_` is in it, `LoadMessages` leaves exactly
the state that `MarkRead` alone leaves, and every message of a returned list
is a message of the store of the pair in that state, so it carries the Read
flag it has after the marking; if `to_` is not in it, `LoadMessages` returns
`ErrContactDoesNotExist` and the state is as before. -/
theorem LoadMessages_marks_first (db : DB) (from_ to_ : String) (since : Int)
    (contacts : List User)
    (hc : GetUsers db from_ ContactList = .ok contacts) :
    (hasUser contacts to_ = true →
      (LoadMessages db from_ to_ since).2 = (MarkRead db from_ to_).2 ∧
      ∀ list, (LoadMessages db from_ to_ since).1 = .messages list →
        ∀ message ∈ list, message ∈ (MarkRead db from_ to_).2.chat (storeOf contacts to_)) ∧
    (hasUser contacts to_ = false →
      LoadMessages db from_ to_ since = (.failed .ErrContactDoesNotExist, db)) := by
  constructor
  · intro h
    have heq := LoadMessages_eq db from_ to_ since contacts hc h
    have hdb : (LoadMessages db from_ to_ since).2 = (MarkRead db from_ to_).2 := by
      rw [heq]; split <;> rfl
    refine ⟨hdb, ?_⟩
    intro list hlist message hm
    rw [heq] at hlist
    split at hlist
    · simp only [Loaded.messages.injEq] at hlist
      rw [← hlist] at hm
      have h1 := List.mem_of_mem_drop hm
      have hsub : ∀ (cursor : List Message) (i since : Int) (acc : List Message) (x : Message),
          x ∈ loadLoop cursor i since acc → x ∈ acc ∨ x ∈ cursor := by
        intro cursor
        induction cursor with
        | nil => intro i since acc x hx; left; simpa [loadLoop] using hx
        | cons y rest ih =>
          intro i since acc x hx
          by_cases hi : i ≤ wrapInt (since + MaxResults)
          · simp only [loadLoop, hi, if_true] at hx
            rcases ih _ _ _ x hx with ha | hr
            · rcases List.mem_append.1 ha with ha1 | ha2
              · exact Or.inl ha1
              · right
                simp only [List.mem_singleton] at ha2
                rw [ha2]; exact List.mem_cons_self _ _
            · exact Or.inr (List.mem_cons_of_mem _ hr)
          · simp only [loadLoop, hi, if_false] at hx
            exact Or.inl hx
      rcases hsub _ _ _ _ _ h1 with hnil | hcur
      · cases hnil
      · exact (mem_Find _ _ _).1 hcur
    · cases hlist
  · intro h
    have hfound : (findContact contacts to_
        { UserID := "", Username := "", Message := "", Store := "" } false).2 = false := by
      rw [findContact_found]; simp [h]
    simp only [LoadMessages, hc, hfound, Bool.not_false, if_true]

/-- C22 at alice and bob: bob has sent a message that is read and a newer one
that is unread; `LoadMessages` for alice leaves the state of `MarkRead`, and
both messages come back read. -/
theorem LoadMessages_marks_first_witness :
    (LoadMessages unreadDB "alice" "bob" 0).2 = (MarkRead unreadDB "alice" "bob").2 ∧
    (LoadMessages unreadDB "alice" "bob" 0).1 = .messages
      [{ ID := "m2", From := "bob", Type_ := "text", Data := "two", Read := true, Time := 2 },
       { ID := "m1", From := "bob", Type_ := "text", Data := "one", Read := true, Time := 1 }] ∧
    LoadMessages freshDB "alice" "bob" 0 = (.failed .ErrContactDoesNotExist, freshDB) :=
  ⟨((LoadMessages_marks_first unreadDB "alice" "bob" 0
      [{ bobInfo with Store := "s1", Message := "Bob: two" }] rfl).1 (by decide)).1,
    by decide,
    (LoadMessages_marks_first freshDB "alice" "bob" 0 [] rfl).2 (by decide)⟩

/-! ## The scenario -/

/-- C23. End-to-end scenario: from alice and bob freshly registered with empty
lists, `Request` from alice to bob, `Decide` of bob for alice with `decide`
true (store `s1`) and `StoreMessage` of the text `hi` from alice to bob with
`online` true (id `m1`, time 5) each return no error; the message stored has
Read true, and `LoadMessages` for bob and alice with offset 0 returns the list
of exactly that message. -/
theorem scenario_request_accept_message_history :
    AllEmpty freshDB ∧
    (Request freshDB "alice" "bob").1 = none ∧
    (Decide (Request freshDB "alice" "bob").2 "bob" "alice" true "s1").1 = none ∧
    (StoreMessage (Decide (Request freshDB "alice" "bob").2 "bob" "alice" true "s1").2
      "text" "hi" "alice" "bob" true "m1" 5).1 = none ∧
    (StoreMessage (Decide (Request freshDB "alice" "bob").2 "bob" "alice" true "s1").2
      "text" "hi" "alice" "bob" true "m1" 5).2.chat "s1" =
      [{ ID := "m1", From := "alice", Type_ := "text", Data := "hi", Read := true, Time := 5 }] ∧
    (LoadMessages (StoreMessage (Decide (Request freshDB "alice" "bob").2 "bob" "alice" true
      "s1").2 "text" "hi" "alice" "bob" true "m1" 5).2 "bob" "alice" 0).1 =
      .messages
        [{ ID := "m1", From := "alice", Type_ := "text", Data := "hi", Read := true, Time := 5 }] :=
  ⟨AllEmpty_freshDB, by decide, by decide, by decide, by decide, by decide⟩

/-! ## DeleteUser -/

/-- C24: in the state where alice has sent bob a request, which satisfies
relationship symmetry, `DeleteUser` of alice returns no error and alice still
occurs in bob's Incoming list: the pass over alice's Outgoing list edits
bob's Outgoing list, not his Incoming list. The same happens to a request
that alice has received. For an accepted contact the entry at the
counterpart is removed. -/
theorem DeleteUser_leaves_requests :
    Symmetric requestedDB ∧
      (DeleteUser requestedDB "alice").1 = none ∧
      occurs (DeleteUser requestedDB "alice").2 "bob" IncomingList "alice" = true ∧
      (DeleteUser (Request freshDB "bob" "alice").2 "alice").1 = none ∧
      occurs (DeleteUser (Request freshDB "bob" "alice").2 "alice").2
        "bob" OutgoingList "alice" = true ∧
      (DeleteUser acceptedDB "alice").1 = none ∧
      occurs (DeleteUser acceptedDB "alice").2 "bob" ContactList "alice" = false := by
  refine ⟨?_, by decide, by decide, by decide, by decide, by decide, by decide⟩
  exact Symmetric_runAll [.request "alice" "bob"] freshDB requestedDB
    (Symmetric_of_AllEmpty AllEmpty_freshDB) rfl

/-! ## Self-requests -/

/-- C30: carol is the only account; `Request` from carol to carol returns no
error, not `ErrSelfRequest`, and afterwards carol is in her own Outgoing list
and in her own Incoming list, where she was not before. -/
theorem Request_self_succeeds :
    (Request carolDB "carol" "carol").1 = none ∧
      (Request carolDB "carol" "carol").1 ≠ some .ErrSelfRequest ∧
      occurs carolDB "carol" OutgoingList "carol" = false ∧
      occurs carolDB "carol" IncomingList "carol" = false ∧
      occurs (Request carolDB "carol" "carol").2 "carol" OutgoingList "carol" = true ∧
      occurs (Request carolDB "carol" "carol").2 "carol" IncomingList "carol" = true := by
  decide

/-! ## WriteMessage -/

/-- C25, as stated, fails when the queue of the connection is full: alice has
an entry and ten events are in the `Send` channel of her socket; `WriteMessage`
does not return and the channel holds what it held. -/
theorem WriteMessage_full_queue :
    IsOnline fullHub.socket "alice" = true ∧
      (WriteMessage fullHub "alice" "typing").1 = .blocked ∧
      (WriteMessage fullHub "alice" "typing").1 ≠ .returned none ∧
      ((WriteMessage fullHub "alice" "typing").2.heap 1).Send = (fullHub.heap 1).Send := by
  decide

/-- C25, amended with room in the queue. `WriteMessage` returns
`ErrChannelClosed` exactly when `IsOnline` is false, that is when the map has
no entry for the user, and then the registry state is the one before. With an
entry whose `Send` channel holds fewer than ten events it returns no error,
the event is the last one of that channel, every other socket and every other
field are as before and so is the map. With an entry whose `Send` channel is
full it stays in the send and nothing changes. -/
theorem WriteMessage_dispatch (hub : Hub) (userID data : String) :
    (IsOnline hub.socket userID = false ↔ hub.socket userID = none) ∧
      ((WriteMessage hub userID data).1 = .returned (some .ErrChannelClosed) ↔
        IsOnline hub.socket userID = false) ∧
      (IsOnline hub.socket userID = false →
        (WriteMessage hub userID data).2.socket = hub.socket ∧
        (WriteMessage hub userID data).2.heap = hub.heap) ∧
      (∀ sender, hub.socket userID = some sender →
        (hub.heap sender).Send.length < ChannelSize →
          (WriteMessage hub userID data).1 = .returned none ∧
          ((WriteMessage hub userID data).2.heap sender).Send =
            (hub.heap sender).Send ++ [data] ∧
          ((WriteMessage hub userID data).2.heap sender).Recieve = (hub.heap sender).Recieve ∧
          ((WriteMessage hub userID data).2.heap sender).Close = (hub.heap sender).Close ∧
          ((WriteMessage hub userID data).2.heap sender).Wait = (hub.heap sender).Wait ∧
          (∀ p, p ≠ sender → (WriteMessage hub userID data).2.heap p = hub.heap p) ∧
          (WriteMessage hub userID data).2.socket = hub.socket) ∧
      (∀ sender, hub.socket userID = some sender →
        ¬ (hub.heap sender).Send.length < ChannelSize →
          (WriteMessage hub userID data).1 = .blocked ∧
          (WriteMessage hub userID data).2.socket = hub.socket ∧
          (WriteMessage hub userID data).2.heap = hub.heap) := by
  cases hs : hub.socket userID with
  | none =>
    simp only [IsOnline, WriteMessage, hs, Option.isSome_none, true_iff, true_and, implies_true,
      and_true, reduceCtorEq, false_implies]
  | some sender =>
    refine ⟨by simp [IsOnline, hs], ?_, by simp [IsOnline, hs], ?_, ?_⟩
    · by_cases hr : (hub.heap sender).Send.length < ChannelSize <;>
        simp [IsOnline, WriteMessage, hs, hr]
    · intro s hs1 hr
      cases hs1
      have hw : WriteMessage hub userID data = (.returned none, pushSend hub sender data) := by
        simp only [WriteMessage, hs, if_pos hr]
      rw [hw]
      refine ⟨rfl, ?_, ?_, ?_, ?_, ?_, rfl⟩
      · simp only [pushSend, if_true]
      · simp only [pushSend, if_true]
      · simp only [pushSend, if_true]
      · simp only [pushSend, if_true]
      · intro p hp
        simp only [pushSend, if_neg hp]
    · intro s hs1 hr
      cases hs1
      have hw : WriteMessage hub userID data = (.blocked, hub) := by
        simp only [WriteMessage, hs, if_neg hr]
      rw [hw]
      exact ⟨rfl, rfl, rfl⟩

/-- C25 amended, at a hub where alice is connected with an empty queue and bob
is not connected. -/
theorem WriteMessage_dispatch_witness :
    (WriteMessage aliceHub "bob" "typing").1 = .returned (some .ErrChannelClosed) ∧
      (WriteMessage aliceHub "alice" "typing").1 = .returned none ∧
      ((WriteMessage aliceHub "alice" "typing").2.heap 1).Send = ["typing"] :=
  ⟨(WriteMessage_dispatch aliceHub "bob" "typing").2.1.mpr (by decide),
    ((WriteMessage_dispatch aliceHub "alice" "typing").2.2.2.1 1 (by decide) (by decide)).1,
    ((WriteMessage_dispatch aliceHub "alice" "typing").2.2.2.1 1 (by decide) (by decide)).2.1⟩

/-! ## WebSocketHandler -/

/-- C26: the cleanup of a connection removes the entry of its user whatever
socket the map holds for the user. Two handlers for alice install socket 1 and
then socket 2; when the first one runs its cleanup the map holds socket 2 for
alice and afterwards it holds nothing for her. -/
theorem WebSocketHandlerClose_removes_newer :
    (∀ (socket : String → Option Nat) (userID : String),
        WebSocketHandlerClose socket userID false false userID = none) ∧
      (WebSocketHandlerOpen (WebSocketHandlerOpen emptyHub.socket "alice" 1 false false).2
        "alice" 2 false false).2 "alice" = some 2 ∧
      WebSocketHandlerClose
        (WebSocketHandlerOpen (WebSocketHandlerOpen emptyHub.socket "alice" 1 false false).2
          "alice" 2 false false).2 "alice" false false "alice" = none := by
  refine ⟨?_, by decide, by decide⟩
  intro socket userID
  simp [WebSocketHandlerClose]

/-- C27: a run of the handler that installs its socket and then gets an error
from the connected event, from closing the transport or from the disconnected
event returns with the entry still in the map; the entry is removed only when
all three succeed. -/
theorem WebSocketHandler_keeps_entry_on_error (socket : String → Option Nat) (userID : String)
    (pointer : Nat) (closeErr disconnectedErr : Bool) :
    WebSocketHandler socket userID pointer false true closeErr disconnectedErr userID
        = some pointer ∧
      WebSocketHandler socket userID pointer false false true disconnectedErr userID
        = some pointer ∧
      WebSocketHandler socket userID pointer false false false true userID = some pointer ∧
      WebSocketHandler socket userID pointer false false false false userID = none ∧
      WebSocketHandler emptyHub.socket "alice" 1 false true false false "alice" = some 1 := by
  simp [WebSocketHandler, WebSocketHandlerOpen, WebSocketHandlerClose, emptyHub]

/-! ## ConnectionHandle -/

/-- C28, as stated, fails when the queue of the connection is full: the
handler under "echo" is called and returns a response, the response is not
put on the `Send` channel, and the next packet is not handled. -/
theorem ConnectionHandle_full_queue :
    (ConnectionHandle sampleMethods sampleUnmarshal 1 "alice" { hub := fullHub, calls := [] }
        ["echo hi", "fail now"]).1 = .blocked ∧
      ((ConnectionHandle sampleMethods sampleUnmarshal 1 "alice" { hub := fullHub, calls := [] }
        ["echo hi", "fail now"]).2.hub.heap 1).Send = (fullHub.heap 1).Send ∧
      (ConnectionHandle sampleMethods sampleUnmarshal 1 "alice" { hub := fullHub, calls := [] }
        ["echo hi", "fail now"]).2.calls
          = [{ head := "echo", userID := "alice", data := "hi" }] := by
  decide

/-- C28, amended with room in the queue. For a packet that decodes to
`packet`, with the keys of the registered handlers pairwise distinct: the
handler registered under `packet.Head` is called once, with `userID` and
`packet.Data`; when its response is nil the run goes on with the next packet
and nothing is put on the `Send` channel; when its response is not nil and the
`Send` channel of the connection has room the response becomes its last
element and the run goes on with the next packet; whether the handler
returned an error plays no part; when the `Send` channel is full the run
stays in the send. With no handler under `packet.Head` the run goes on with
the next packet from the same state, no call made. -/
theorem ConnectionHandle_dispatch (methods : List (String × SocketHandler))
    (unmarshal : String → Option IncomingMessage) (socket : Nat) (userID data : String)
    (rest : List String) (st : Handling) (packet : IncomingMessage)
    (hkeys : (methods.map Prod.fst).Nodup) (hp : unmarshal data = some packet) :
    (∀ handler, (packet.Head, handler) ∈ methods →
      ((handler st.hub userID packet.Data).response = none →
        ConnectionHandle methods unmarshal socket userID st (data :: rest) =
          ConnectionHandle methods unmarshal socket userID
            { hub := (handler st.hub userID packet.Data).hub
              calls := st.calls ++
                [{ head := packet.Head, userID := userID, data := packet.Data }] } rest) ∧
      (∀ response, (handler st.hub userID packet.Data).response = some response →
        ((handler st.hub userID packet.Data).hub.heap socket).Send.length < ChannelSize →
        ConnectionHandle methods unmarshal socket userID st (data :: rest) =
          ConnectionHandle methods unmarshal socket userID
            { hub := pushSend (handler st.hub userID packet.Data).hub socket response
              calls := st.calls ++
                [{ head := packet.Head, userID := userID, data := packet.Data }] } rest) ∧
      (∀ response, (handler st.hub userID packet.Data).response = some response →
        ¬ ((handler st.hub userID packet.Data).hub.heap socket).Send.length < ChannelSize →
        ConnectionHandle methods unmarshal socket userID st (data :: rest) =
          (.blocked,
            { hub := (handler st.hub userID packet.Data).hub
              calls := st.calls ++
                [{ head := packet.Head, userID := userID, data := packet.Data }] }))) ∧
    ((∀ entry ∈ methods, entry.1 ≠ packet.Head) →
      ConnectionHandle methods unmarshal socket userID st (data :: rest) =
        ConnectionHandle methods unmarshal socket userID st rest) := by
  constructor
  · intro handler hm
    have hf := rangeMethods_found socket userID packet st handler methods hkeys hm
    refine ⟨?_, ?_, ?_⟩
    · intro hr
      simp only [ConnectionHandle, hp, hf, rangeMethods, if_true, hr]
    · intro response hr hroom
      simp only [ConnectionHandle, hp, hf, rangeMethods, if_true, hr, if_pos hroom]
    · intro response hr hroom
      simp only [ConnectionHandle, hp, hf, rangeMethods, if_true, hr, if_neg hroom]
  · intro hno
    simp only [ConnectionHandle, hp, rangeMethods_absent socket userID packet st methods hno]

/-- C28 amended, at alice's connection with an empty queue: the packet for
"fail" gets no reply although its handler returns an error, the packet for
"echo" after it is answered, and the packet for "other" calls no handler. -/
theorem ConnectionHandle_dispatch_witness :
    (sampleMethods.map Prod.fst).Nodup ∧
      sampleUnmarshal "fail now" = some { Head := "fail", Data := "now" } ∧
      ConnectionHandle sampleMethods sampleUnmarshal 1 "alice" { hub := aliceHub, calls := [] }
          ["fail now", "echo hi", "other x"] =
        ConnectionHandle sampleMethods sampleUnmarshal 1 "alice"
          { hub := aliceHub, calls := [{ head := "fail", userID := "alice", data := "now" }] }
          ["echo hi", "other x"] ∧
      ((ConnectionHandle sampleMethods sampleUnmarshal 1 "alice" { hub := aliceHub, calls := [] }
          ["fail now", "echo hi", "other x"]).2.hub.heap 1).Send = ["hi"] ∧
      (ConnectionHandle sampleMethods sampleUnmarshal 1 "alice" { hub := aliceHub, calls := [] }
          ["fail now", "echo hi", "other x"]).2.calls.length = 2 :=
  ⟨by decide, by decide,
    (ConnectionHandle_dispatch sampleMethods sampleUnmarshal 1 "alice" "fail now"
      ["echo hi", "other x"] { hub := aliceHub, calls := [] } { Head := "fail", Data := "now" }
      (by decide) (by decide)).1 failingHandler (by simp [sampleMethods]) |>.1 rfl,
    by decide, by decide⟩

/-! ## Successive connections -/

/-- C29: two connects of the same user, the second installing its socket
before the first has run its cleanup. Whatever the map held and whichever
pointers the two sockets have, after the second install the map holds the
second socket for the user and after the cleanup of the first it holds nothing
for her: at alice, `IsOnline` is false and `WriteMessage` returns
`ErrChannelClosed` although the second connection is open. When the cleanup
of the first comes before the second install, the map holds the second
socket. -/
theorem successive_connects_lose_entry :
    (∀ (socket : String → Option Nat) (userID : String) (first second : Nat),
        (WebSocketHandlerOpen (WebSocketHandlerOpen socket userID first false false).2
          userID second false false).2 userID = some second ∧
        WebSocketHandlerClose
          (WebSocketHandlerOpen (WebSocketHandlerOpen socket userID first false false).2
            userID second false false).2 userID false false userID = none ∧
        (WebSocketHandlerOpen
          (WebSocketHandlerClose (WebSocketHandlerOpen socket userID first false false).2
            userID false false) userID second false false).2 userID = some second) ∧
      IsOnline (WebSocketHandlerClose
        (WebSocketHandlerOpen (WebSocketHandlerOpen emptyHub.socket "alice" 1 false false).2
          "alice" 2 false false).2 "alice" false false) "alice" = false ∧
      (WriteMessage
        { socket := WebSocketHandlerClose
            (WebSocketHandlerOpen (WebSocketHandlerOpen emptyHub.socket "alice" 1 false false).2
              "alice" 2 false false).2 "alice" false false
          heap := fun _ => newSocket } "alice" "typing").1
        = .returned (some .ErrChannelClosed) := by
  refine ⟨?_, by decide, by decide⟩
  intro socket userID first second
  simp [WebSocketHandlerOpen, WebSocketHandlerClose]

end Chat
